import Mathlib

/-!
# Tk application shell and Windows dialogs: a shallow embedding

Definitions in this file are transcriptions of functions of
`generic/tkMain.c` and `win/tkWinDialog.c`.  The Tcl interpreter, the channel
layer and the native dialog services are external collaborators: they appear
as parameters (records of functions, or outcome arguments) and every theorem
is proved for all of them.

Text values are sequences of characters.  A value named after a `char *` of
the source is the C string that pointer designates, terminator excluded.
-/

set_option autoImplicit false

namespace Tk

/-! ## Tcl constants -/

/-- Completion code `TCL_OK`. -/
def TCL_OK : Int := 0
/-- Completion code `TCL_ERROR`. -/
def TCL_ERROR : Int := 1
/-- Completion code `TCL_CONTINUE`. -/
def TCL_CONTINUE : Int := 4
/-- Channel event mask `TCL_READABLE` (`1<<1` in tcl.h). -/
def TCL_READABLE : Nat := 2

/-- The default prompt used when the user has not overridden it. -/
def DEFAULT_PRIMARY_PROMPT : String := "% "

/-! ## tkMain.c : the interactive shell -/

/-- A `Tcl_Channel` handle. -/
abbrev Channel := Nat

/-- The three standard channel identifiers of `Tcl_GetStdChannel`. -/
inductive StdId where
  | stdin
  | stdout
  | stderr
deriving DecidableEq, Repr

/-- The interpreter as StdinProc and Prompt use it.  `σ` is the interpreter's
whole state; each field is one entry point of the Tcl library. -/
structure Interp (σ : Type) where
  /-- `Tcl_CommandComplete` -/
  commandComplete : String → Bool
  /-- `Tcl_RecordAndEval(interp, cmd, TCL_EVAL_GLOBAL)`: new state and completion code -/
  recordAndEval : σ → String → σ × Int
  /-- `Tcl_EvalObjEx(interp, obj, TCL_EVAL_GLOBAL)` -/
  evalObjEx : σ → String → σ × Int
  /-- `Tcl_GetVar2Ex(interp, name, NULL, TCL_GLOBAL_ONLY)` -/
  getVar2Ex : σ → String → Option String
  /-- `Tcl_GetString(Tcl_GetObjResult(interp))` -/
  getObjResult : σ → String
  /-- `Tcl_ResetResult` -/
  resetResult : σ → σ
  /-- `Tcl_AddErrorInfo` -/
  addErrorInfo : σ → String → σ
  /-- `Tcl_GetStdChannel` -/
  getStdChannel : σ → StdId → Option Channel

/-- Calls that leave the interpreter: process exit, channel handler
registration, evaluation of a command, and channel output. -/
inductive Action where
  /-- `Tcl_Exit(status)` -/
  | exit (status : Int)
  /-- `Tcl_DeleteChannelHandler(chan, StdinProc, isPtr)` -/
  | deleteChannelHandler (chan : Option Channel)
  /-- `Tcl_CreateChannelHandler(chan, mask, StdinProc, isPtr)` -/
  | createChannelHandler (chan : Option Channel) (mask : Nat)
  /-- `Tcl_RecordAndEval(interp, cmd, TCL_EVAL_GLOBAL)` -/
  | recordAndEval (cmd : String)
  /-- `Tcl_EvalObjEx(interp, promptCmdPtr, TCL_EVAL_GLOBAL)` -/
  | evalObjEx (script : String)
  /-- `Tcl_WriteObj(chan, obj)` -/
  | writeObj (chan : Channel) (text : String)
  /-- `Tcl_WriteChars(chan, text, len)` -/
  | writeChars (chan : Channel) (text : String)
  /-- `Tcl_Flush(chan)` -/
  | flush (chan : Channel)
  /-- `Tcl_ResetResult(interp)` -/
  | resetResult
deriving DecidableEq, Repr

/-- The struct `InteractiveState` (the `interp` member is the `Interp`
parameter of the functions below). -/
structure InteractiveState where
  /-- The standard input channel from which lines are read (NULL = none). -/
  input : Option Channel
  /-- Non-zero means standard input is a terminal-like device. -/
  tty : Bool
  /-- Used to assemble lines of terminal input into Tcl commands. -/
  command : String
  /-- Used to read the next line from the terminal input. -/
  line : String
  gotPartial : Bool
deriving DecidableEq, Repr

/-- What one invocation of a handler leaves behind. -/
structure Outcome (σ : Type) where
  /-- the `InteractiveState` on return -/
  state : InteractiveState
  /-- the interpreter state on return -/
  interp : σ
  /-- the external calls made, in order -/
  trace : List Action
  /-- `some n` when the invocation ended in `Tcl_Exit(n)` instead of returning -/
  exited : Option Int

/-- The label `defaultPrompt:` of Prompt: the fixed primary prompt, written
only when no command is pending and stdout exists. -/
def Prompt.defaultPrompt {σ : Type} (I : Interp σ) (s : σ) (isPtr : InteractiveState) :
    List Action :=
  if !isPtr.gotPartial then
    match I.getStdChannel s StdId.stdout with
    | some chan => [Action.writeChars chan DEFAULT_PRIMARY_PROMPT]
    | none => []
  else []

/-- The last statements of Prompt: flush stdout when it exists. -/
def Prompt.flushStdout {σ : Type} (I : Interp σ) (s : σ) : List Action :=
  match I.getStdChannel s StdId.stdout with
  | some chan => [Action.flush chan]
  | none => []

/-- The function `Prompt` of tkMain.c. -/
def Prompt {σ : Type} (I : Interp σ) (s : σ) (isPtr : InteractiveState) : σ × List Action :=
  match I.getVar2Ex s (if isPtr.gotPartial then "tcl_prompt2" else "tcl_prompt1") with
  | none => (s, Prompt.defaultPrompt I s isPtr ++ Prompt.flushStdout I s)
  | some promptCmd =>
    let r := I.evalObjEx s promptCmd
    if r.2 ≠ TCL_OK then
      let s2 := I.addErrorInfo r.1 "\n    (script that generates prompt)"
      let err : List Action :=
        if I.getObjResult s2 ≠ "" then
          match I.getStdChannel s2 StdId.stderr with
          | some chan => [Action.writeObj chan (I.getObjResult s2), Action.writeChars chan "\n"]
          | none => []
        else []
      (s2, [Action.evalObjEx promptCmd] ++ err ++ Prompt.defaultPrompt I s2 isPtr
            ++ Prompt.flushStdout I s2)
    else
      (r.1, [Action.evalObjEx promptCmd] ++ Prompt.flushStdout I r.1)

/-- The code of StdinProc from the label `prompt:` to its end: prompt when a
tty stdin is still around, then reset the result. -/
def StdinProc.promptTail {σ : Type} (I : Interp σ) (s : σ) (isPtr : InteractiveState)
    (done : List Action) : Outcome σ :=
  if isPtr.tty ∧ isPtr.input ≠ none then
    let p := Prompt I s isPtr
    { state := isPtr, interp := I.resetResult p.1,
      trace := done ++ p.2 ++ [Action.resetResult], exited := none }
  else
    { state := isPtr, interp := I.resetResult s,
      trace := done ++ [Action.resetResult], exited := none }

/-- The output of the result of an evaluation in StdinProc: a non-empty result
is written, followed by a newline, to stderr on failure and to stdout on
success when input is a tty. -/
def StdinProc.report {σ : Type} (I : Interp σ) (s : σ) (code : Int) (tty : Bool) :
    List Action :=
  if I.getObjResult s ≠ "" then
    if code ≠ TCL_OK ∨ tty then
      match I.getStdChannel s (if code ≠ TCL_OK then StdId.stderr else StdId.stdout) with
      | some chan => [Action.writeObj chan (I.getObjResult s), Action.writeChars chan "\n"]
      | none => []
    else []
  else []

/-- The code of StdinProc after the read: `isPtr` already holds the line just
read.  The line and a newline are appended to the command, which is evaluated
when it is complete. -/
def StdinProc.accumulate {σ : Type} (I : Interp σ) (s : σ) (isPtr : InteractiveState) :
    Outcome σ :=
  let chan := isPtr.input
  let cmd := isPtr.command ++ isPtr.line ++ "\n"
  let is1 : InteractiveState := { isPtr with command := cmd, line := "" }
  if !I.commandComplete cmd then
    StdinProc.promptTail I s { is1 with gotPartial := true } []
  else
    let r := I.recordAndEval s cmd
    let input2 := I.getStdChannel r.1 StdId.stdin
    let reg : List Action :=
      match input2 with
      | some c => [Action.createChannelHandler (some c) TCL_READABLE]
      | none => []
    let is2 : InteractiveState :=
      { is1 with gotPartial := false, input := input2, command := "" }
    StdinProc.promptTail I r.1 is2
      ([Action.createChannelHandler chan 0, Action.recordAndEval cmd] ++ reg
        ++ StdinProc.report I r.1 r.2 is2.tty)

/-- The function `StdinProc` of tkMain.c.  `count` is the value returned by
`Tcl_Gets` and `got` the text it appended to the line buffer. -/
def StdinProc {σ : Type} (I : Interp σ) (s : σ) (isPtr : InteractiveState)
    (count : Int) (got : String) : Outcome σ :=
  let is0 : InteractiveState := { isPtr with line := isPtr.line ++ got }
  if count < 0 ∧ is0.gotPartial = false then
    if is0.tty then
      { state := is0, interp := s, trace := [Action.exit 0], exited := some 0 }
    else
      { state := is0, interp := s, trace := [Action.deleteChannelHandler is0.input],
        exited := none }
  else
    StdinProc.accumulate I s is0

/-- One readable event on standard input as StdinProc sees it: the
interpreter state when the event is dispatched, the value returned by
`Tcl_Gets`, and the text `Tcl_Gets` appended to the line buffer. -/
structure ReadEvent (σ : Type) where
  interp : σ
  count : Int
  got : String

/-- The event loop as far as StdinProc is concerned: one invocation per
readable event, each starting from the `InteractiveState` the previous one
left; nothing runs after `Tcl_Exit`.  The result lists the outcome of every
invocation made. -/
def runEvents {σ : Type} (I : Interp σ) (isPtr : InteractiveState) :
    List (ReadEvent σ) → List (Outcome σ)
  | [] => []
  | e :: es =>
    let o := StdinProc I e.interp isPtr e.count e.got
    o :: (if o.exited.isSome then [] else runEvents I o.state es)

/-- The commands handed to `Tcl_RecordAndEval` in a trace, in order. -/
def evalsOf : List Action → List String
  | [] => []
  | Action.recordAndEval cmd :: rest => cmd :: evalsOf rest
  | _ :: rest => evalsOf rest

/-- The text `l1 \n l2 \n .. ln \n`: every line followed by one newline. -/
def joinLines : List String → String
  | [] => ""
  | l :: ls => l ++ "\n" ++ joinLines ls

/-- The `InteractiveState` when the first event is dispatched: Tk_MainEx sets
`gotPartial = 0` and initialises both buffers empty. -/
def initialState (input : Option Channel) (tty : Bool) : InteractiveState :=
  { input := input, tty := tty, command := "", line := "", gotPartial := false }

/-- Whether a trace contains a call of `Tcl_DeleteChannelHandler`. -/
def deregisters (trace : List Action) : Bool :=
  trace.any fun a =>
    match a with
    | Action.deleteChannelHandler _ => true
    | _ => false

/-- A small concrete interpreter for evaluating the definitions: its state is
the current result, a command is complete when it has no more open braces
than closing ones, evaluating a command leaves the command text as result
with code `TCL_OK`, no prompt variable is set, and the standard channels are
0, 1 and 2. -/
def braceInterp : Interp String where
  commandComplete := fun cmd => decide (cmd.toList.count '{' ≤ cmd.toList.count '}')
  recordAndEval := fun _ cmd => (cmd, 0)
  evalObjEx := fun _ script => (script, 0)
  getVar2Ex := fun _ _ => none
  getObjResult := fun s => s
  resetResult := fun _ => ""
  addErrorInfo := fun s _ => s
  getStdChannel := fun _ id =>
    match id with
    | StdId.stdin => some 0
    | StdId.stdout => some 1
    | StdId.stderr => some 2

/-! ## tkWinDialog.c : file names and filter strings

Buffers of `TCHAR` are lists of characters in which the terminator `NUL`
appears explicitly; a read outside the list is a fault. -/

/-- The terminator character of C strings. -/
def NUL : Char := Char.ofNat 0

/-- What the C code does outside defined behaviour. -/
inductive Fault where
  /-- a read or write outside the buffer -/
  | outOfBounds
  /-- a call through a NULL interface pointer -/
  | nullDeref
deriving DecidableEq, Repr

/-- The C string that starts at the head of a buffer: the characters before
the first `NUL`; no string when the buffer holds no `NUL`. -/
def cstring : List Char → Option (List Char)
  | [] => none
  | c :: rest => if c = NUL then some [] else (cstring rest).map (fun r => c :: r)

/-- The body of the loop of ConvertExternalFilename on one character. -/
def normSlash (c : Char) : Char := if c = '\\' then '/' else c

/-- The function `ConvertExternalFilename`: the string at `filename` with
every backslash changed to a forward slash.  (`Tcl_WinTCharToUtf` changes the
encoding of the string, not its characters.) -/
def ConvertExternalFilename (filename : List Char) : Option (List Char) :=
  (cstring filename).map (fun str => str.map normSlash)

/-- The statements `while (*files != '\0') files++; files++;` of GetFileName:
the buffer after the terminator of the string at its head. -/
def skipString : List Char → Option (List Char)
  | [] => none
  | c :: rest => if c = NUL then some rest else skipString rest

/-- State of the multi-selection loop of GetFileName. -/
structure MultiState where
  returnList : List (List Char)
  count : Nat
  gotFilename : Bool
deriving DecidableEq, Repr

/-- The loop `while (*files != '\0')` of GetFileName over the dynamic file
buffer.  `ds` is the converted directory; `fuel` bounds the iterations, each
of which moves `files` forward. -/
def multiLoop (ds : List Char) : Nat → List Char → MultiState → Option MultiState
  | 0, _, _ => none
  | fuel + 1, files, st =>
    match files with
    | [] => none
    | c :: _ =>
      if c = NUL then some st
      else
        match skipString files with
        | none => none
        | some files1 =>
          match files1 with
          | [] => none
          | c1 :: _ =>
            if c1 ≠ NUL then
              match ConvertExternalFilename files1 with
              | none => none
              | some filenameBuf =>
                multiLoop ds fuel files1
                  { returnList := st.returnList ++ [ds ++ ['/'] ++ filenameBuf],
                    count := st.count + 1, gotFilename := true }
            else multiLoop ds fuel files1 st

/-- The branch `ofn.Flags & OFN_ALLOWMULTISELECT` of GetFileName: the list of
names decoded from the dynamic file buffer, and `gotFilename`. -/
def decodeMulti (files : List Char) : Option (List (List Char) × Bool) :=
  match ConvertExternalFilename files with
  | none => none
  | some ds =>
    match multiLoop ds (files.length + 1) files
        { returnList := [], count := 0, gotFilename := false } with
    | none => none
    | some st =>
      if st.count = 0 then
        some (st.returnList ++ [ds], st.gotFilename || decide (ds.length > 0))
      else some (st.returnList, st.gotFilename)

/-- A buffer of the form `s0 NUL s1 NUL .. sn NUL NUL`. -/
def multiBuffer (s0 : List Char) (ss : List (List Char)) : List Char :=
  s0 ++ [NUL] ++ (ss.map fun si => si ++ [NUL]).flatten ++ [NUL]

/-- The result list the multi-selection decoding is to give for directory
`s0` and names `ss`: every name joined to the directory with a slash, or the
directory alone when there is no name; backslashes become slashes. -/
def expectedMulti (s0 : List Char) (ss : List (List Char)) : List (List Char) :=
  if ss = [] then [s0.map normSlash]
  else ss.map fun si => s0.map normSlash ++ ['/'] ++ si.map normSlash

/-- A `GlobPattern` list of tkFileFilter.h: the patterns of one clause. -/
structure FileFilterClause where
  patterns : List (List Char)
deriving DecidableEq, Repr

/-- A `FileFilter` of tkFileFilter.h: a type name and its clauses. -/
structure FileFilter where
  name : List Char
  clauses : List FileFilterClause
deriving DecidableEq, Repr

/-- The loop over `globPtr` in MakeFilter: `p` is the text written so far,
`sep` the separator to put before the next pattern. -/
def MakeFilter.globs (pass : Nat) :
    List Char × List Char → List (List Char) → List Char × List Char
  | st, [] => st
  | (p, sep), g :: gs =>
    MakeFilter.globs pass (p ++ sep ++ g, if pass = 1 then [','] else [';']) gs

/-- The loop over `clausePtr` in MakeFilter. -/
def MakeFilter.clauses (pass : Nat) :
    List Char × List Char → List FileFilterClause → List Char × List Char
  | st, [] => st
  | st, c :: cs => MakeFilter.clauses pass (MakeFilter.globs pass st c.patterns) cs

/-- One iteration of `for (pass = 1; pass <= 2; pass++)` in MakeFilter. -/
def MakeFilter.pass (pass : Nat) (p : List Char) (filterPtr : FileFilter) : List Char :=
  let p1 := (MakeFilter.clauses pass (p, []) filterPtr.clauses).1
  let p2 := if pass = 1 then p1 ++ [')'] else p1
  p2 ++ [NUL]

/-- State of the loop over `filterPtr` in MakeFilter: the text written, the
index counter `ix` and `*indexPtr`. -/
structure FilterState where
  p : List Char
  ix : Nat
  index : Nat
deriving DecidableEq, Repr

/-- The loop over `filterPtr` in MakeFilter. -/
def MakeFilter.filters (initial : Option (List Char)) :
    FilterState → List FileFilter → FilterState
  | st, [] => st
  | st, f :: fs =>
    let ix := st.ix + 1
    let index := if initial = some f.name then ix else st.index
    let p0 := st.p ++ f.name ++ [' ', '(']
    let p1 := MakeFilter.pass 1 p0 f
    let p2 := MakeFilter.pass 2 p1 f
    MakeFilter.filters initial { p := p2, ix := ix, index := index } fs

/-- The function `MakeFilter`.  `flist` is what `TkGetFileFilters` parsed from
the `-filetypes` value (`none` when it failed), `initial` the initial type
name and `index` the value of `*indexPtr` on entry.  The result is the text
appended to `dsPtr` with the new `*indexPtr`, or `none` for `TCL_ERROR`. -/
def MakeFilter (flist : Option (List FileFilter)) (initial : Option (List Char))
    (index : Nat) : Option (List Char × Nat) :=
  match flist with
  | none => none
  | some [] =>
    some ("All Files (*.*)".toList ++ [NUL, '*', '.', '*', NUL, NUL], index)
  | some (f :: fs) =>
    let st := MakeFilter.filters initial { p := [], ix := 0, index := index } (f :: fs)
    some (st.p ++ [NUL], st.index)

/-- All glob patterns of all clauses of a filter, in order. -/
def FileFilter.allPatterns (f : FileFilter) : List (List Char) :=
  (f.clauses.map fun c => c.patterns).flatten

/-- The display segment `name (pattern,pattern)` of a filter. -/
def FileFilter.display (f : FileFilter) : List Char :=
  f.name ++ " (".toList ++ [','].intercalate f.allPatterns ++ [')']

/-- Extended error code `FNERR_INVALIDFILENAME` of cderr.h (Windows SDK). -/
def FNERR_INVALIDFILENAME : Int := 0x3002
/-- Extended error code `FNERR_BUFFERTOOSMALL` of cderr.h (Windows SDK). -/
def FNERR_BUFFERTOOSMALL : Int := 0x3003

/-- Flag `OFN_OVERWRITEPROMPT` of commdlg.h (Windows SDK), as the next eight. -/
def OFN_OVERWRITEPROMPT : Nat := 0x2
def OFN_HIDEREADONLY : Nat := 0x4
def OFN_NOCHANGEDIR : Nat := 0x8
def OFN_ENABLEHOOK : Nat := 0x20
def OFN_ALLOWMULTISELECT : Nat := 0x200
def OFN_PATHMUSTEXIST : Nat := 0x800
def OFN_FILEMUSTEXIST : Nat := 0x1000
def OFN_EXPLORER : Nat := 0x80000
def OFN_ENABLESIZING : Nat := 0x800000

/-- The values of `useNewFileDialogs`: `FDLG_STATE_INIT`, `FDLG_STATE_USE_NEW`
and `FDLG_STATE_USE_OLD`. -/
inductive FdlgState where
  | INIT
  | USE_NEW
  | USE_OLD
deriving DecidableEq, Repr

/-- A value held by the interpreter as result: a string or a list. -/
inductive TclValue where
  | str (chars : List Char)
  | list (elems : List (List Char))
deriving DecidableEq, Repr

/-- The result state of the interpreter: the result object and the words of
the error code (none when no error code was set). -/
structure InterpResult where
  result : TclValue
  errorCode : List String
deriving DecidableEq, Repr

/-- The interpreter result after `Tcl_ResetResult`. -/
def InterpResult.reset : InterpResult := { result := TclValue.str [], errorCode := [] }

/-- The struct `OFNOpts`.  `filterObj` and `typeVariableObj` are the texts of
the option values (`none` for NULL), `initialTypeObj` the value of the type
variable (`none` for NULL). -/
structure OFNOpts where
  extension : Option (List Char)
  title : Option (List Char)
  filterObj : Option String
  typeVariableObj : Option String
  initialTypeObj : Option (List Char)
  utfDirString : List Char
  multi : Bool
  confirmOverwrite : Bool
  file : List Char
deriving DecidableEq, Repr

/-- Everything outside GetFileName that one invocation consults: the
per-thread latch, the COM and common-dialog services, and the Tcl library
calls whose outcome depends on the interpreter. -/
structure FileDialogEnv where
  /-- `tsdPtr->useNewFileDialogs` on entry -/
  useNewFileDialogs : FdlgState
  /-- whether `CoInitialize` succeeds -/
  coInitialize : Bool
  /-- whether `CoCreateInstance` succeeds and stores an interface pointer
  (argument: the `open` flag, which selects the class) -/
  coCreateInstance : Bool → Bool
  /-- the path the user accepts in the dialog displayed by `Show`, `none` when
  the user cancels it -/
  modernAccepted : Option (List Char)
  /-- `TkGetFileFilters` on the `-filetypes` value: the parsed list, `none`
  when it returns `TCL_ERROR` -/
  getFileFilters : Option String → Option (List FileFilter)
  /-- the interpreter result `TkGetFileFilters` leaves when it fails -/
  filterError : InterpResult
  /-- the value returned by `GetOpenFileName` or `GetSaveFileName` -/
  winCode : Int
  /-- the value of `CommDlgExtendedError()` after that call -/
  cdlgerr : Int
  /-- the buffer `ofn.lpstrFile` after that call -/
  lpstrFile : List Char
  /-- `ofn.nFilterIndex` after that call -/
  nFilterIndex : Nat
  /-- the buffer `ofnData.dynFileBuffer` after that call (OFNHookProc fills it) -/
  dynFileBuffer : List Char
  /-- storing the selected type name in the `-typevariable` variable (two
  calls of `Tcl_ListObjGetElements` and one of `Tcl_ObjSetVar2`): `none` when
  all succeed, else the interpreter result the failing call leaves -/
  typeStore : Option InterpResult

/-- What GetFileNameVista returns and does. -/
structure VistaResult where
  code : Int
  useNewFileDialogs : FdlgState
  /-- whether `Show` was called on a dialog interface -/
  shown : Bool
deriving DecidableEq, Repr

/-- The function `GetFileNameVista`. -/
def GetFileNameVista (env : FileDialogEnv) (isOpen : Bool) : Except Fault VistaResult :=
  match env.useNewFileDialogs with
  | FdlgState.USE_OLD =>
    Except.ok { code := TCL_CONTINUE, useNewFileDialogs := FdlgState.USE_OLD, shown := false }
  | FdlgState.INIT =>
    if !env.coInitialize then
      Except.ok { code := TCL_CONTINUE, useNewFileDialogs := FdlgState.USE_OLD, shown := false }
    else if !env.coCreateInstance isOpen then
      Except.ok { code := TCL_CONTINUE, useNewFileDialogs := FdlgState.USE_OLD, shown := false }
    else
      Except.ok { code := TCL_OK, useNewFileDialogs := FdlgState.USE_NEW, shown := true }
  | FdlgState.USE_NEW =>
    if env.coCreateInstance isOpen then
      Except.ok { code := TCL_OK, useNewFileDialogs := FdlgState.USE_NEW, shown := true }
    else Except.error Fault.nullDeref

/-- What an invocation of GetFileName returns and leaves behind. -/
structure FileDialogResult where
  /-- the value returned -/
  code : Int
  /-- the interpreter result on return -/
  interp : InterpResult
  /-- `tsdPtr->useNewFileDialogs` on return -/
  useNewFileDialogs : FdlgState
  /-- whether the dialog of GetFileNameVista was displayed -/
  modernShown : Bool
  /-- whether `GetOpenFileName` or `GetSaveFileName` was called -/
  legacyShown : Bool
  /-- the value handed to `Tcl_SetObjResult` by the branch that decodes the
  selection, `none` when that branch was not taken -/
  decoded : Option TclValue
deriving DecidableEq, Repr

/-- The value of `ofn.Flags` GetFileName builds. -/
def GetFileName.flags (ofnOpts : OFNOpts) (isOpen : Bool) : Nat :=
  let f0 := OFN_HIDEREADONLY ||| OFN_PATHMUSTEXIST ||| OFN_NOCHANGEDIR ||| OFN_EXPLORER
    ||| OFN_ENABLEHOOK ||| OFN_ENABLESIZING
  let f1 :=
    if isOpen then f0 ||| OFN_FILEMUSTEXIST
    else if ofnOpts.confirmOverwrite then f0 ||| OFN_OVERWRITEPROMPT
    else f0
  if ofnOpts.multi then f1 ||| OFN_ALLOWMULTISELECT else f1

/-- The decoding of the selection in GetFileName: the value set as result and
`gotFilename`; `none` when a buffer holds no terminated string. -/
def GetFileName.decode (flags : Nat) (env : FileDialogEnv) : Option (TclValue × Bool) :=
  if flags &&& OFN_ALLOWMULTISELECT ≠ 0 then
    (decodeMulti env.dynFileBuffer).map fun r => (TclValue.list r.1, r.2)
  else
    (ConvertExternalFilename env.lpstrFile).map fun ds =>
      (TclValue.str ds, decide (ds.length > 0))

/-- The part of GetFileName that processes the results of the native call.
`result` is the value of the variable `result` at that point. -/
def GetFileName.process (result : Int) (ofnOpts : OFNOpts) (env : FileDialogEnv)
    (isOpen : Bool) : Except Fault (Int × InterpResult × Option TclValue) :=
  let flags := GetFileName.flags ofnOpts isOpen
  if env.winCode ≠ 0
      ∨ (env.cdlgerr = FNERR_BUFFERTOOSMALL ∧ flags &&& OFN_ALLOWMULTISELECT ≠ 0) then
    match GetFileName.decode flags env with
    | none => Except.error Fault.outOfBounds
    | some (value, gotFilename) =>
      if env.nFilterIndex > 0 ∧ gotFilename = true ∧ ofnOpts.typeVariableObj ≠ none
          ∧ ofnOpts.filterObj ≠ none then
        match env.typeStore with
        | some failure => Except.ok (TCL_ERROR, failure, some value)
        | none => Except.ok (TCL_OK, { result := value, errorCode := [] }, some value)
      else Except.ok (TCL_OK, { result := value, errorCode := [] }, some value)
  else if env.cdlgerr = FNERR_INVALIDFILENAME then
    match ConvertExternalFilename env.lpstrFile with
    | none => Except.error Fault.outOfBounds
    | some name =>
      Except.ok (result,
        { result := TclValue.str ("invalid filename \"".toList ++ name ++ ['"']),
          errorCode := ["TK", "FILEDIALOG", "INVALID_FILENAME"] },
        none)
  else Except.ok (TCL_OK, InterpResult.reset, none)

/-- The function `GetFileName`.  `parsed` is the value returned by
ParseOFNOptions, `ofnOpts` the options it filled in and `interp` the
interpreter result it left. -/
def GetFileName (parsed : Int) (ofnOpts : OFNOpts) (interp : InterpResult)
    (env : FileDialogEnv) (isOpen : Bool) : Except Fault FileDialogResult :=
  if parsed ≠ TCL_OK then
    Except.ok { code := parsed, interp := interp,
                useNewFileDialogs := env.useNewFileDialogs,
                modernShown := false, legacyShown := false, decoded := none }
  else
    match GetFileNameVista env isOpen with
    | Except.error f => Except.error f
    | Except.ok v =>
      if v.code ≠ TCL_CONTINUE then
        Except.ok { code := v.code, interp := interp,
                    useNewFileDialogs := v.useNewFileDialogs,
                    modernShown := v.shown, legacyShown := false, decoded := none }
      else
        match MakeFilter (env.getFileFilters ofnOpts.filterObj) ofnOpts.initialTypeObj 0 with
        | none =>
          Except.ok { code := v.code, interp := env.filterError,
                      useNewFileDialogs := v.useNewFileDialogs,
                      modernShown := v.shown, legacyShown := false, decoded := none }
        | some _ =>
          match GetFileName.process v.code ofnOpts env isOpen with
          | Except.error f => Except.error f
          | Except.ok (code, res, dec) =>
            Except.ok { code := code, interp := res,
                        useNewFileDialogs := v.useNewFileDialogs,
                        modernShown := v.shown, legacyShown := true, decoded := dec }

/-- Options as ParseOFNOptions leaves them when no option is given. -/
def defaultOFNOpts : OFNOpts :=
  { extension := none, title := none, filterObj := none, typeVariableObj := none,
    initialTypeObj := none, utfDirString := [], multi := false, confirmOverwrite := true,
    file := [NUL] }

/-- A concrete environment for evaluating the definitions: the legacy dialog
is in use, no filter is given, and the user cancels the dialog. -/
def cancelledEnv : FileDialogEnv :=
  { useNewFileDialogs := FdlgState.USE_OLD, coInitialize := true,
    coCreateInstance := fun _ => true, modernAccepted := none,
    getFileFilters := fun _ => some [],
    filterError := { result := TclValue.str "bad file type".toList, errorCode := [] },
    winCode := 0, cdlgerr := 0, lpstrFile := [NUL], nFilterIndex := 0,
    dynFileBuffer := [NUL, NUL], typeStore := none }

/-! ## tkWinDialog.c : the message box -/

/-- Message box type `MB_OK` of winuser.h (Windows SDK), as the constants that
follow: the other types, the icons, the default-button flags, the two mode
flags and the button identifiers. -/
def MB_OK : Int := 0
def MB_OKCANCEL : Int := 1
def MB_ABORTRETRYIGNORE : Int := 2
def MB_YESNOCANCEL : Int := 3
def MB_YESNO : Int := 4
def MB_RETRYCANCEL : Int := 5
def MB_ICONERROR : Int := 0x10
def MB_ICONQUESTION : Int := 0x20
def MB_ICONWARNING : Int := 0x30
def MB_ICONINFORMATION : Int := 0x40
def MB_DEFBUTTON1 : Nat := 0
def MB_DEFBUTTON2 : Nat := 0x100
def MB_DEFBUTTON3 : Nat := 0x200
def MB_DEFBUTTON4 : Nat := 0x300
/-- The mask `MB_DEFMASK` of winuser.h: the bits holding the default button. -/
def MB_DEFMASK : Nat := 0xF00
def MB_TASKMODAL : Nat := 0x2000
def MB_SETFOREGROUND : Nat := 0x10000
def IDOK : Int := 1
def IDCANCEL : Int := 2
def IDABORT : Int := 3
def IDRETRY : Int := 4
def IDIGNORE : Int := 5
def IDYES : Int := 6
def IDNO : Int := 7

/-- A `TkStateMap` table: the entries before the terminating entry, and the
`numKey` of the terminating entry (whose `strKey` is NULL). -/
structure TkStateMap where
  entries : List (Int × String)
  endKey : Int
deriving DecidableEq, Repr

/-- The table `iconMap`. -/
def iconMap : TkStateMap :=
  { entries := [(MB_ICONERROR, "error"), (MB_ICONINFORMATION, "info"),
                (MB_ICONQUESTION, "question"), (MB_ICONWARNING, "warning")],
    endKey := -1 }

/-- The table `typeMap`. -/
def typeMap : TkStateMap :=
  { entries := [(MB_ABORTRETRYIGNORE, "abortretryignore"), (MB_OK, "ok"),
                (MB_OKCANCEL, "okcancel"), (MB_RETRYCANCEL, "retrycancel"),
                (MB_YESNO, "yesno"), (MB_YESNOCANCEL, "yesnocancel")],
    endKey := -1 }

/-- The table `buttonMap`. -/
def buttonMap : TkStateMap :=
  { entries := [(IDABORT, "abort"), (IDRETRY, "retry"), (IDIGNORE, "ignore"), (IDOK, "ok"),
                (IDCANCEL, "cancel"), (IDNO, "no"), (IDYES, "yes")],
    endKey := -1 }

/-- The table `buttonFlagMap`. -/
def buttonFlagMap : List Nat := [MB_DEFBUTTON1, MB_DEFBUTTON2, MB_DEFBUTTON3, MB_DEFBUTTON4]

/-- One entry of the table `allowedTypes`. -/
structure AllowedType where
  type : Int
  btnIds : List Int
deriving DecidableEq, Repr

/-- The table `allowedTypes`. -/
def allowedTypes : List AllowedType :=
  [ { type := MB_ABORTRETRYIGNORE, btnIds := [IDABORT, IDRETRY, IDIGNORE] },
    { type := MB_OK, btnIds := [IDOK, -1, -1] },
    { type := MB_OKCANCEL, btnIds := [IDOK, IDCANCEL, -1] },
    { type := MB_RETRYCANCEL, btnIds := [IDRETRY, IDCANCEL, -1] },
    { type := MB_YESNO, btnIds := [IDYES, IDNO, -1] },
    { type := MB_YESNOCANCEL, btnIds := [IDYES, IDNO, IDCANCEL] } ]

/-- Modelled from the spec: the lookup of `TkFindStateNumObj` (tkUtil.c, not
among the sources), by which the message box validates a button, icon or type
name against its table: the number of the entry whose name is exactly the
value, and the number of the terminating entry (negative in the tables of the
message box) when there is none. -/
def TkFindStateNumObj (mapPtr : TkStateMap) (key : String) : Int :=
  match mapPtr.entries.find? (fun e => e.2 == key) with
  | some e => e.1
  | none => mapPtr.endKey

/-- Modelled from the spec: `TkFindStateString` (tkUtil.c, not among the
sources), which gives back the name of a table entry from its number (the
symbolic name of a button); NULL (`none`) when no entry has the number. -/
def TkFindStateString (mapPtr : TkStateMap) (numKey : Int) : Option String :=
  (mapPtr.entries.find? (fun e => e.1 == numKey)).map (fun e => e.2)

/-- The array `optionStrings` of Tk_MessageBoxObjCmd. -/
def optionStrings : List String :=
  ["-default", "-detail", "-icon", "-message", "-parent", "-title", "-type"]

/-- A window of the toolkit. -/
abbrev Window := Nat

/-- What one invocation of Tk_MessageBoxObjCmd consults outside itself. -/
structure MsgBoxEnv where
  /-- the interpreter result `Tcl_GetIndexFromObjStruct` leaves for a name
  that is not an option -/
  badOption : String → InterpResult
  /-- the interpreter result `TkFindStateNumObj` leaves for a value (second
  argument) of an option (first argument) that is not in its table -/
  badValue : String → String → InterpResult
  /-- `Tk_NameToWindow`: the window of a path name, `none` for NULL -/
  nameToWindow : String → Option Window
  /-- the interpreter result `Tk_NameToWindow` leaves when it fails -/
  badWindow : String → InterpResult
  /-- the top-level window found by `while (!Tk_IsTopLevel(parent)) parent = Tk_Parent(parent)` -/
  topLevel : Window → Window
  /-- the native `MessageBox`: owner, text, title and flags to the button pressed -/
  messageBox : Window → String → String → Nat → Int

/-- The local variables of Tk_MessageBoxObjCmd that the option loop sets. -/
structure MsgBoxVars where
  defaultBtn : Int
  detailObj : Option String
  icon : Int
  messageObj : Option String
  parent : Window
  titleObj : Option String
  type : Int
deriving DecidableEq, Repr

/-- What an invocation of a dialog command with a string result returns: the
code, the interpreter result, and the native calls made (owner, text, title,
flags). -/
structure MsgBoxResult where
  code : Int
  interp : InterpResult
  shown : List (Window × String × String × Nat)
deriving DecidableEq, Repr

/-- A failed invocation: `TCL_ERROR` with the interpreter result given, no
native call. -/
def MsgBoxResult.failure (interp : InterpResult) : MsgBoxResult :=
  { code := TCL_ERROR, interp := interp, shown := [] }

/-- The loop `for (i = 1; i < objc; i += 2)` of Tk_MessageBoxObjCmd over the
arguments that follow the command name: the variables on success, the result
returned on failure. -/
def Tk_MessageBoxObjCmd.options (env : MsgBoxEnv) (tkwin : Window) :
    List String → MsgBoxVars → Except MsgBoxResult MsgBoxVars
  | [], vars => Except.ok vars
  | [optionPtr], _ =>
    if optionStrings.contains optionPtr then
      Except.error (MsgBoxResult.failure
        { result := TclValue.str ("value for \"" ++ optionPtr ++ "\" missing").toList,
          errorCode := ["TK", "MSGBOX", "VALUE"] })
    else Except.error (MsgBoxResult.failure (env.badOption optionPtr))
  | optionPtr :: valuePtr :: rest, vars =>
    match optionStrings.indexOf? optionPtr with
    | none => Except.error (MsgBoxResult.failure (env.badOption optionPtr))
    | some index =>
      if index = 0 then
        let defaultBtn := TkFindStateNumObj buttonMap valuePtr
        if defaultBtn < 0 then
          Except.error (MsgBoxResult.failure (env.badValue optionPtr valuePtr))
        else Tk_MessageBoxObjCmd.options env tkwin rest { vars with defaultBtn := defaultBtn }
      else if index = 1 then
        Tk_MessageBoxObjCmd.options env tkwin rest { vars with detailObj := some valuePtr }
      else if index = 2 then
        let icon := TkFindStateNumObj iconMap valuePtr
        if icon < 0 then
          Except.error (MsgBoxResult.failure (env.badValue optionPtr valuePtr))
        else Tk_MessageBoxObjCmd.options env tkwin rest { vars with icon := icon }
      else if index = 3 then
        Tk_MessageBoxObjCmd.options env tkwin rest { vars with messageObj := some valuePtr }
      else if index = 4 then
        match env.nameToWindow valuePtr with
        | none => Except.error (MsgBoxResult.failure (env.badWindow valuePtr))
        | some parent =>
          Tk_MessageBoxObjCmd.options env tkwin rest { vars with parent := parent }
      else if index = 5 then
        Tk_MessageBoxObjCmd.options env tkwin rest { vars with titleObj := some valuePtr }
      else
        let type := TkFindStateNumObj typeMap valuePtr
        if type < 0 then
          Except.error (MsgBoxResult.failure (env.badValue optionPtr valuePtr))
        else Tk_MessageBoxObjCmd.options env tkwin rest { vars with type := type }

/-- The loop `for (j = 0; j < 3; j++)` of Tk_MessageBoxObjCmd: the first
position from `j` on at which `btnIds` holds `defaultBtn`, else -1. -/
def Tk_MessageBoxObjCmd.findButton (defaultBtn : Int) : List Int → Int → Int
  | [], _ => -1
  | b :: rest, j =>
    if b = defaultBtn then j else Tk_MessageBoxObjCmd.findButton defaultBtn rest (j + 1)

/-- The loop `for (i = 0; i < NUM_TYPES; i++)` of Tk_MessageBoxObjCmd over the
entries of `allowedTypes`: `defaultBtnIdx` when the loop ends, `none` when it
returns with the error for an invalid default button. -/
def Tk_MessageBoxObjCmd.defaultIndex (type defaultBtn : Int) : List AllowedType → Option Int
  | [] => some (-1)
  | a :: rest =>
    if type = a.type then
      let defaultBtnIdx := Tk_MessageBoxObjCmd.findButton defaultBtn a.btnIds 0
      if defaultBtnIdx < 0 then none else some defaultBtnIdx
    else Tk_MessageBoxObjCmd.defaultIndex type defaultBtn rest

/-- The code of Tk_MessageBoxObjCmd after the option loop. -/
def Tk_MessageBoxObjCmd.finish (env : MsgBoxEnv) (vars : MsgBoxVars) :
    Except Fault MsgBoxResult :=
  let parent := env.topLevel vars.parent
  let display (flags0 : Nat) : Except Fault MsgBoxResult :=
    let flags := flags0 ||| vars.icon.toNat ||| vars.type.toNat ||| MB_TASKMODAL
      ||| MB_SETFOREGROUND
    let tmpObj :=
      match vars.detailObj with
      | some detail => vars.messageObj.getD "" ++ "\n\n" ++ detail
      | none => vars.messageObj.getD ""
    let title := vars.titleObj.getD ""
    let winCode := env.messageBox parent tmpObj title flags
    Except.ok
      { code := TCL_OK,
        interp := { result := TclValue.str ((TkFindStateString buttonMap winCode).getD "").toList,
                    errorCode := [] },
        shown := [(parent, tmpObj, title, flags)] }
  if vars.defaultBtn ≥ 0 then
    match Tk_MessageBoxObjCmd.defaultIndex vars.type vars.defaultBtn allowedTypes with
    | none =>
      Except.ok (MsgBoxResult.failure
        { result := TclValue.str ("invalid default button \""
            ++ (TkFindStateString buttonMap vars.defaultBtn).getD "" ++ "\"").toList,
          errorCode := ["TK", "MSGBOX", "DEFAULT"] })
    | some defaultBtnIdx =>
      if defaultBtnIdx < 0 then Except.error Fault.outOfBounds
      else
        match buttonFlagMap.get? defaultBtnIdx.toNat with
        | none => Except.error Fault.outOfBounds
        | some flags0 => display flags0
  else display 0

/-- The function `Tk_MessageBoxObjCmd`; `args` are the arguments that follow
the command name and `tkwin` is the main window. -/
def Tk_MessageBoxObjCmd (env : MsgBoxEnv) (tkwin : Window) (args : List String) :
    Except Fault MsgBoxResult :=
  match Tk_MessageBoxObjCmd.options env tkwin args
      { defaultBtn := -1, detailObj := none, icon := MB_ICONINFORMATION, messageObj := none,
        parent := tkwin, titleObj := none, type := MB_OK } with
  | Except.error r => Except.ok r
  | Except.ok vars => Tk_MessageBoxObjCmd.finish env vars

/-- The names of the button types. -/
def typeNames : List String :=
  ["abortretryignore", "ok", "okcancel", "retrycancel", "yesno", "yesnocancel"]

/-- The names of the buttons. -/
def buttonNames : List String := ["abort", "retry", "ignore", "ok", "cancel", "no", "yes"]

/-- The buttons listed for a type name in `allowedTypes`, by name. -/
def buttonsOf (typeName : String) : List String :=
  match allowedTypes.find? (fun a => a.type == TkFindStateNumObj typeMap typeName) with
  | some a => a.btnIds.filterMap (fun b => TkFindStateString buttonMap b)
  | none => []

/-- A concrete environment for evaluating the message box: every window is
its own top level, and the user presses the button `ok`. -/
def okEnv : MsgBoxEnv :=
  { badOption := fun _ => { result := TclValue.str "bad option".toList, errorCode := [] },
    badValue := fun _ _ => { result := TclValue.str "bad value".toList, errorCode := [] },
    nameToWindow := fun _ => some 0,
    badWindow := fun _ => { result := TclValue.str "bad window".toList, errorCode := [] },
    topLevel := fun w => w,
    messageBox := fun _ _ _ _ => IDOK }

/-- The value of `defaultBtnIdx` the message box computes for a type name and
a button name: `none` when the loop over `allowedTypes` ends in the error. -/
def defaultIndexOf (typeName buttonName : String) : Option Int :=
  Tk_MessageBoxObjCmd.defaultIndex (TkFindStateNumObj typeMap typeName)
    (TkFindStateNumObj buttonMap buttonName) allowedTypes

/-- The variables of Tk_MessageBoxObjCmd after the options `-type` and
`-default` alone have been read. -/
def typeAndDefault (tkwin : Window) (typeName buttonName : String) : MsgBoxVars :=
  { defaultBtn := TkFindStateNumObj buttonMap buttonName, detailObj := none,
    icon := MB_ICONINFORMATION, messageObj := none, parent := tkwin, titleObj := none,
    type := TkFindStateNumObj typeMap typeName }

/-- The flags of the native calls in a result. -/
def nativeFlags (res : Except Fault MsgBoxResult) : List Nat :=
  match res with
  | Except.ok r => r.shown.map fun call => call.2.2.2
  | Except.error _ => []

/-! ## tkMain.c : the startup script -/

/-- The expression `s[0]` for a C string: its first character, the terminator
when it is empty. -/
def firstChar (s : String) : Char := s.toList.headD NUL

/-- The test `0 == _tcsncmp(a, b, n)`: the first `n` characters of the two
strings agree (a string shorter than `n` has to agree up to its terminator,
that is as a whole). -/
def tcsncmpEq (a b : String) (n : Nat) : Bool := a.toList.take n == b.toList.take n

/-- The startup script of `Tcl_SetStartupScript`: a path and an encoding name
(`none` for NULL). -/
structure StartupScript where
  path : String
  encodingName : Option String
deriving DecidableEq, Repr

/-- The state of Tk_MainEx after the startup script is resolved.  `argv` is
the argument vector from the position the pointer `argv` has reached; `argc`
is its length. -/
structure Resolved where
  /-- what `Tcl_GetStartupScript` now gives -/
  script : Option StartupScript
  argv : List String
  /-- the variable `zipval` (`none` for NULL) -/
  zipval : Option String
  /-- the variable `autoRun` -/
  autoRun : Bool
deriving DecidableEq, Repr

/-- The block of Tk_MainEx that parses the first few command line arguments.
`zipfs` says whether `ZIPFS_IN_TCL` is defined and `preset` is the startup
script the application has set before the call (`none` for NULL). -/
def Tk_MainEx.resolve (zipfs : Bool) (preset : Option StartupScript) (argv : List String) :
    Resolved :=
  let argc := argv.length
  match preset with
  | some script => { script := some script, argv := argv, zipval := none, autoRun := true }
  | none =>
    if argc > 3 ∧ argv.getD 1 "" = "-encoding" ∧ firstChar (argv.getD 3 "") ≠ '-' then
      { script := some { path := argv.getD 3 "", encodingName := some (argv.getD 2 "") },
        argv := argv.drop 3, zipval := none, autoRun := true }
    else if argc > 1 then
      let length := (argv.getD 1 "").length
      if zipfs ∧ length ≥ 2 ∧ tcsncmpEq "-zip" (argv.getD 1 "") length = true then
        let argv1 := argv.drop 1
        if argv1.length > 1 ∧ firstChar (argv1.getD 1 "") ≠ '-' then
          { script := none, argv := argv1.drop 1, zipval := some (argv1.getD 1 ""),
            autoRun := false }
        else { script := none, argv := argv1, zipval := none, autoRun := true }
      else if firstChar (argv.getD 1 "") ≠ '-' then
        { script := some { path := argv.getD 1 "", encodingName := none },
          argv := argv.drop 1, zipval := none, autoRun := true }
      else { script := none, argv := argv, zipval := none, autoRun := true }
    else if argc > 2 ∧ (argv.getD 1 "").length ≠ 0 ∧ (argv.getD 1 "").length > 1
        ∧ tcsncmpEq "-file" (argv.getD 1 "") (argv.getD 1 "").length = true
        ∧ firstChar (argv.getD 2 "") ≠ '-' then
      { script := some { path := argv.getD 2 "", encodingName := none },
        argv := argv.drop 2, zipval := none, autoRun := true }
    else { script := none, argv := argv, zipval := none, autoRun := true }

/-- The global variables `argv0`, `argc` and `argv` as Tk_MainEx sets them. -/
structure Globals where
  argv0 : String
  argc : Int
  argv : List String
deriving DecidableEq, Repr

/-- The statements of Tk_MainEx that set `argv0`, `argc` and `argv`, right
after the startup script is resolved: `argv0` is the script path, or
`argv[0]` when there is none; then `argc--; argv++` and the `argc` entries
left make the list `argv`. -/
def Tk_MainEx.globals (r : Resolved) : Globals :=
  let appName :=
    match r.script with
    | none => r.argv.getD 0 ""
    | some script => script.path
  { argv0 := appName, argc := (r.argv.length : Int) - 1, argv := r.argv.drop 1 }

/-- The name of the variable Prompt looks up. -/
def promptVariable (isPtr : InteractiveState) : String :=
  if isPtr.gotPartial then "tcl_prompt2" else "tcl_prompt1"

/-! ## tkWinDialog.c : option names -/

/-- Whether `key` is an abbreviation of `entry`: its characters are the first
characters of `entry`. -/
def abbreviates (key entry : String) : Bool := key.toList.isPrefixOf entry.toList

/-- The lookup of `Tcl_GetIndexFromObjStruct` (Tcl library) as the dialogs use
it: the index of the table entry equal to `key`; failing that, unless `exact`
(the flag `TCL_EXACT`) is set or `key` is empty, the index of the only entry
that `key` abbreviates; `none` (the call returns `TCL_ERROR`) otherwise. -/
def Tcl_GetIndexFromObjStruct (table : List String) (exact : Bool) (key : String) :
    Option Nat :=
  match table.indexOf? key with
  | some index => some index
  | none =>
    if exact ∨ key = "" then none
    else
      match (List.range table.length).filter (fun i => abbreviates key (table.getD i "")) with
      | [index] => some index
      | _ => none

/-! ## tkWinDialog.c : the directory chooser -/

/-- The struct `ChooseDir` (the `interp` member is not used by the model). -/
structure ChooseDir where
  /-- Initial folder to use -/
  initDir : List Char
  /-- Returned folder to use -/
  retDir : List Char
  /-- True if file must exist to return from callback -/
  mustExist : Bool
deriving DecidableEq, Repr

/-- A message of the folder browser to its callback, with what the native
services answer while the callback handles it. -/
inductive BffMessage where
  /-- `BFFM_VALIDATEFAILED` for a typed path: whether `Tcl_TranslateFileName`
  translates it, whether `SetCurrentDirectory` on the translation succeeds,
  what `GetFullPathName` stores for it, and what `GetCurrentDirectory` stores
  after a successful change -/
  | validateFailed (translated : Bool) (setCurrentDirectory : Bool)
      (fullPathName : List Char) (currentDirectory : List Char)
  /-- `BFFM_SELCHANGED` for an item: the path `SHGetPathFromIDList` gives,
  `none` when the item is no file system folder -/
  | selChanged (path : Option (List Char))
  /-- `BFFM_INITIALIZED`; for an initial directory that begins with a
  backslash, whether it can be parsed into an item -/
  | initialized (parsed : Bool)
  /-- any other message -/
  | other
deriving DecidableEq, Repr

/-- The calls of the callback into the native dialog services. -/
inductive DirCall where
  /-- `MessageBox(NULL, text, NULL, MB_ICONEXCLAMATION|MB_OK)` -/
  | alert (text : List Char)
  /-- `SendMessage(hwnd, BFFM_ENABLEOK, 0, flag)` -/
  | enableOk (flag : Bool)
  /-- `SendMessage(hwnd, BFFM_SETSTATUSTEXT, 0, path)` -/
  | setStatusText (path : List Char)
  /-- `SendMessage(hwnd, BFFM_SETSELECTION, ..)` for the initial directory -/
  | setSelection (path : List Char)
deriving DecidableEq, Repr

/-- What one invocation of the callback leaves and returns. -/
structure ValidateResult where
  data : ChooseDir
  /-- the value returned: 0 for default processing, 1 to keep the dialog open -/
  value : Nat
  calls : List DirCall
deriving DecidableEq, Repr

/-- The function `ChooseDirectoryValidateProc` (without the debug hook). -/
def ChooseDirectoryValidateProc (chooseDirSharedData : ChooseDir) (message : BffMessage) :
    ValidateResult :=
  let data0 : ChooseDir := { chooseDirSharedData with retDir := [] }
  match message with
  | BffMessage.validateFailed translated setCurrentDirectory fullPathName currentDirectory =>
    if !translated then { data := { data0 with retDir := [] }, value := 1, calls := [] }
    else if !setCurrentDirectory then
      let data1 : ChooseDir := { data0 with retDir := fullPathName }
      if data1.mustExist then
        { data := { data1 with retDir := [] }, value := 1,
          calls := [DirCall.alert ("Directory '".toList ++ data1.retDir
            ++ "' does not exist,\nplease select or enter an existing directory.".toList)] }
      else { data := data1, value := 0, calls := [] }
    else { data := { data0 with retDir := currentDirectory }, value := 0, calls := [] }
  | BffMessage.selChanged path =>
    match path with
    | some selDir =>
      { data := data0, value := 1,
        calls := [DirCall.setStatusText selDir, DirCall.enableOk true] }
    | none => { data := data0, value := 1, calls := [DirCall.enableOk false] }
  | BffMessage.initialized parsed =>
    let select : List DirCall :=
      if data0.initDir.head? = some '\\' then
        if parsed then [DirCall.setSelection data0.initDir] else []
      else [DirCall.setSelection data0.initDir]
    { data := data0, value := 0, calls := select ++ [DirCall.enableOk true] }
  | BffMessage.other => { data := data0, value := 0, calls := [] }

/-- The folder browser running its callback over a sequence of messages: the
shared data after the last one and all the calls and returned values. -/
def browseMessages : ChooseDir → List BffMessage → ChooseDir × List Nat × List DirCall
  | data, [] => (data, [], [])
  | data, m :: ms =>
    let r := ChooseDirectoryValidateProc data m
    let rest := browseMessages r.data ms
    (rest.1, r.value :: rest.2.1, r.calls ++ rest.2.2)

/-- The item the folder browser returns, as `SHGetPathFromIDList` sees it:
whether it converts to a path, and the string the call leaves in `path`. -/
structure BrowsedItem where
  converts : Bool
  path : List Char
deriving DecidableEq, Repr

/-- What one invocation of Tk_ChooseDirectoryObjCmd consults outside itself. -/
structure DirEnv where
  /-- the interpreter result `Tcl_GetIndexFromObjStruct` leaves for a word
  that names no option -/
  badOption : String → InterpResult
  /-- `Tcl_TranslateFileName` on the `-initialdir` value, `none` for NULL -/
  translateFileName : String → Option (List Char)
  /-- the interpreter result it leaves when it fails -/
  badFileName : String → InterpResult
  /-- `GetFullPathName` on the translated initial directory -/
  getFullPathName : List Char → List Char
  /-- `Tcl_GetBooleanFromObj`, `none` when it returns `TCL_ERROR` -/
  getBoolean : String → Option Bool
  /-- the interpreter result it leaves when it fails -/
  badBoolean : String → InterpResult
  /-- `Tk_NameToWindow`, `none` for NULL -/
  nameToWindow : String → Option Window
  /-- the interpreter result it leaves when it fails -/
  badWindow : String → InterpResult
  /-- `GetCurrentDirectory` before the dialog -/
  currentDirectory : List Char
  /-- whether `SHGetMalloc` returns `NOERROR` -/
  shGetMalloc : Bool
  /-- the messages the browser sends to the callback, in order -/
  messages : List BffMessage
  /-- the item `SHBrowseForFolder` returns, `none` for NULL -/
  pidl : Option BrowsedItem

/-- The local variables of Tk_ChooseDirectoryObjCmd that the option loop sets. -/
structure DirVars where
  cdCBData : ChooseDir
  tkwin : Window
  utfTitle : Option String
deriving DecidableEq, Repr

/-- What an invocation of Tk_ChooseDirectoryObjCmd returns and does. -/
structure DirResult where
  code : Int
  interp : InterpResult
  /-- whether `SHBrowseForFolder` was called -/
  browsed : Bool
  /-- the calls made by the callback -/
  calls : List DirCall
  /-- the values returned by the callback, one per message -/
  values : List Nat
deriving DecidableEq, Repr

/-- The result of `goto cleanup` from the option loop: the initial value
`TCL_ERROR` of `result`, no dialog. -/
def DirResult.failure (interp : InterpResult) : DirResult :=
  { code := TCL_ERROR, interp := interp, browsed := false, calls := [], values := [] }

/-- The array `optionStrings` of Tk_ChooseDirectoryObjCmd. -/
def dirOptionStrings : List String := ["-initialdir", "-mustexist", "-parent", "-title"]

/-- The loop `for (i = 1; i < objc; i += 2)` of Tk_ChooseDirectoryObjCmd over
the arguments that follow the command name. -/
def Tk_ChooseDirectoryObjCmd.options (env : DirEnv) :
    List String → DirVars → Except DirResult DirVars
  | [], vars => Except.ok vars
  | [optionPtr], _ =>
    match Tcl_GetIndexFromObjStruct dirOptionStrings false optionPtr with
    | none => Except.error (DirResult.failure (env.badOption optionPtr))
    | some _ =>
      Except.error (DirResult.failure
        { result := TclValue.str ("value for \"" ++ optionPtr ++ "\" missing").toList,
          errorCode := ["TK", "DIRDIALOG", "VALUE"] })
  | optionPtr :: valuePtr :: rest, vars =>
    match Tcl_GetIndexFromObjStruct dirOptionStrings false optionPtr with
    | none => Except.error (DirResult.failure (env.badOption optionPtr))
    | some index =>
      if index = 0 then
        match env.translateFileName valuePtr with
        | none => Except.error (DirResult.failure (env.badFileName valuePtr))
        | some initDirString =>
          Tk_ChooseDirectoryObjCmd.options env rest
            { vars with cdCBData :=
                { vars.cdCBData with initDir := env.getFullPathName initDirString } }
      else if index = 1 then
        match env.getBoolean valuePtr with
        | none => Except.error (DirResult.failure (env.badBoolean valuePtr))
        | some mustExist =>
          Tk_ChooseDirectoryObjCmd.options env rest
            { vars with cdCBData := { vars.cdCBData with mustExist := mustExist } }
      else if index = 2 then
        match env.nameToWindow valuePtr with
        | none => Except.error (DirResult.failure (env.badWindow valuePtr))
        | some tkwin => Tk_ChooseDirectoryObjCmd.options env rest { vars with tkwin := tkwin }
      else
        Tk_ChooseDirectoryObjCmd.options env rest { vars with utfTitle := some valuePtr }

/-- The function `Tcl_ResetResult` on the result state of the interpreter:
whatever was set is discarded. -/
def Tcl_ResetResult (_ : InterpResult) : InterpResult := InterpResult.reset

/-- The code of Tk_ChooseDirectoryObjCmd after the option loop: the browser
is run and its result processed (`path` holds a string; the string set as
result is `ConvertExternalFilename` of it).  The interpreter result is empty
when the command starts. -/
def Tk_ChooseDirectoryObjCmd.browse (env : DirEnv) (vars : DirVars) : DirResult :=
  let data0 : ChooseDir :=
    if vars.cdCBData.initDir.length = 0 then
      { vars.cdCBData with initDir := env.currentDirectory }
    else vars.cdCBData
  if env.shGetMalloc then
    let b := browseMessages data0 env.messages
    let path : List Char :=
      match env.pidl with
      | some item => item.path
      | none => if b.1.retDir.length > 0 then b.1.retDir else []
    let interp1 : InterpResult :=
      match env.pidl with
      | some item =>
        if !item.converts then
          { result := TclValue.str "error: not a file system folder".toList,
            errorCode := ["TK", "DIRDIALOG", "PSEUDO"] }
        else InterpResult.reset
      | none => InterpResult.reset
    let interp2 := Tcl_ResetResult interp1
    let interp3 : InterpResult :=
      if path ≠ [] then { result := TclValue.str (path.map normSlash), errorCode := [] }
      else interp2
    { code := TCL_OK, interp := interp3, browsed := true, calls := b.2.2, values := b.2.1 }
  else
    { code := TCL_OK, interp := Tcl_ResetResult InterpResult.reset, browsed := false,
      calls := [], values := [] }

/-- The function `Tk_ChooseDirectoryObjCmd`; `args` are the arguments that
follow the command name and `tkwin` is the main window. -/
def Tk_ChooseDirectoryObjCmd (env : DirEnv) (tkwin : Window) (args : List String) :
    DirResult :=
  match Tk_ChooseDirectoryObjCmd.options env args
      { cdCBData := { initDir := [], retDir := [], mustExist := false }, tkwin := tkwin,
        utfTitle := none } with
  | Except.error r => r
  | Except.ok vars => Tk_ChooseDirectoryObjCmd.browse env vars

/-- A concrete environment for evaluating the directory chooser: Tcl booleans
are `0` and `1`, every name is a window, the current directory is `C:\`, no
message reaches the callback and the user cancels. -/
def cancelledDirEnv : DirEnv :=
  { badOption := fun _ => { result := TclValue.str "bad option".toList, errorCode := [] },
    translateFileName := fun name => some name.toList,
    badFileName := fun _ => { result := TclValue.str "bad file name".toList, errorCode := [] },
    getFullPathName := fun p => p,
    getBoolean := fun v => if v = "1" then some true else if v = "0" then some false else none,
    badBoolean := fun _ => { result := TclValue.str "bad boolean".toList, errorCode := [] },
    nameToWindow := fun _ => some 0,
    badWindow := fun _ => { result := TclValue.str "bad window".toList, errorCode := [] },
    currentDirectory := ['C', ':', '\\'],
    shGetMalloc := true,
    messages := [],
    pidl := none }

/-! ## tkWinDialog.c : the color chooser -/

/-- The macro `RGB` of wingdi.h (Windows SDK): the `COLORREF` with the low
bytes of `r`, `g` and `b` as its three low bytes. -/
def RGB (r g b : Nat) : Nat := (r % 256) ||| ((g % 256) <<< 8) ||| ((b % 256) <<< 16)

/-- The macro `GetRValue` of wingdi.h: the low byte. -/
def GetRValue (rgb : Nat) : Nat := rgb % 256
/-- The macro `GetGValue` of wingdi.h: the low byte of the low word shifted by 8. -/
def GetGValue (rgb : Nat) : Nat := ((rgb % 65536) >>> 8) % 256
/-- The macro `GetBValue` of wingdi.h: the low byte of the value shifted by 16. -/
def GetBValue (rgb : Nat) : Nat := (rgb >>> 16) % 256

/-- The conversion of a `COLORREF` (32 bits, unsigned) to the type `long` of
the static `oldColor` (32 bits, signed). -/
def longOfColor (rgb : Nat) : Int :=
  if rgb % 2 ^ 32 < 2 ^ 31 then ((rgb % 2 ^ 32 : Nat) : Int)
  else ((rgb % 2 ^ 32 : Nat) : Int) - 2 ^ 32

/-- The conversion of a `long` to a `COLORREF`. -/
def colorOfLong (value : Int) : Nat := (value % 2 ^ 32).toNat

/-- The conversion `%02x` of printf for a non-negative value: its digits in
base 16, lower case, with a zero in front when there is only one. -/
def printf02x (value : Nat) : List Char :=
  List.replicate (2 - (Nat.toDigits 16 value).length) '0' ++ Nat.toDigits 16 value

/-- The statics of Tk_ChooseColorObjCmd. -/
structure ColorStatics where
  inited : Bool
  dwCustColors : List Nat
  /-- the color selected last time -/
  oldColor : Int
deriving DecidableEq, Repr

/-- The statics when the process starts. -/
def ColorStatics.start : ColorStatics :=
  { inited := false, dwCustColors := List.replicate 16 0, oldColor := 0 }

/-- What one invocation of Tk_ChooseColorObjCmd consults outside itself. -/
structure ColorEnv where
  /-- the interpreter result `Tcl_GetIndexFromObjStruct` leaves for a word
  that names no option -/
  badOption : String → InterpResult
  /-- `Tk_GetColor`: the fields red, green and blue of the color, `none` for NULL -/
  getColor : String → Option (Nat × Nat × Nat)
  /-- the interpreter result it leaves when it fails -/
  badColor : String → InterpResult
  /-- `Tk_NameToWindow`, `none` for NULL -/
  nameToWindow : String → Option Window
  /-- the interpreter result it leaves when it fails -/
  badWindow : String → InterpResult
  /-- the value returned by the native `ChooseColor` -/
  winCode : Int
  /-- the field `rgbResult` after that call -/
  rgbResult : Nat
  /-- the custom colors after that call -/
  custColors : List Nat

/-- The local variables of Tk_ChooseColorObjCmd that the option loop sets. -/
structure ColorVars where
  parent : Window
  /-- `chooseColor.rgbResult` -/
  rgbResult : Nat
  /-- `chooseColor.lCustData`, the title -/
  title : Option String
deriving DecidableEq, Repr

/-- What an invocation of Tk_ChooseColorObjCmd returns and does: the native
calls are recorded with the owner, the color the dialog starts from and the
title. -/
structure ColorResult where
  code : Int
  interp : InterpResult
  shown : List (Window × Nat × Option String)
deriving DecidableEq, Repr

/-- The array `optionStrings` of Tk_ChooseColorObjCmd. -/
def colorOptionStrings : List String := ["-initialcolor", "-parent", "-title"]

/-- The loop `for (i = 1; i < objc; i += 2)` of Tk_ChooseColorObjCmd over the
arguments that follow the command name: the variables, or the interpreter
result on `return TCL_ERROR`. -/
def Tk_ChooseColorObjCmd.options (env : ColorEnv) (tkwin : Window) :
    List String → ColorVars → Except InterpResult ColorVars
  | [], vars => Except.ok vars
  | [optionPtr], _ =>
    match Tcl_GetIndexFromObjStruct colorOptionStrings true optionPtr with
    | none => Except.error (env.badOption optionPtr)
    | some _ =>
      Except.error
        { result := TclValue.str ("value for \"" ++ optionPtr ++ "\" missing").toList,
          errorCode := ["TK", "COLORDIALOG", "VALUE"] }
  | optionPtr :: valuePtr :: rest, vars =>
    match Tcl_GetIndexFromObjStruct colorOptionStrings true optionPtr with
    | none => Except.error (env.badOption optionPtr)
    | some index =>
      if index = 0 then
        match env.getColor valuePtr with
        | none => Except.error (env.badColor valuePtr)
        | some (red, green, blue) =>
          Tk_ChooseColorObjCmd.options env tkwin rest
            { vars with rgbResult := RGB (red / 0x100) (green / 0x100) (blue / 0x100) }
      else if index = 1 then
        match env.nameToWindow valuePtr with
        | none => Except.error (env.badWindow valuePtr)
        | some parent => Tk_ChooseColorObjCmd.options env tkwin rest { vars with parent := parent }
      else Tk_ChooseColorObjCmd.options env tkwin rest { vars with title := some valuePtr }

/-- The statics after the block `if (inited == 0)` of Tk_ChooseColorObjCmd. -/
def Tk_ChooseColorObjCmd.init (statics : ColorStatics) : ColorStatics :=
  if statics.inited = false then
    { inited := true,
      dwCustColors := (List.range 16).map fun i => RGB (255 - i * 10) i (i * 10),
      oldColor := longOfColor (RGB 0xa0 0xa0 0xa0) }
  else statics

/-- The function `Tk_ChooseColorObjCmd`: the result and the statics it
leaves; `args` are the arguments that follow the command name. -/
def Tk_ChooseColorObjCmd (env : ColorEnv) (statics : ColorStatics) (tkwin : Window)
    (args : List String) : ColorResult × ColorStatics :=
  let st1 := Tk_ChooseColorObjCmd.init statics
  match Tk_ChooseColorObjCmd.options env tkwin args
      { parent := tkwin, rgbResult := colorOfLong st1.oldColor, title := none } with
  | Except.error interp => ({ code := TCL_ERROR, interp := interp, shown := [] }, st1)
  | Except.ok vars =>
    let rgbResult := env.rgbResult % 2 ^ 32
    let st2 : ColorStatics := { st1 with dwCustColors := env.custColors }
    if env.winCode ≠ 0 then
      ({ code := TCL_OK,
         interp := { result := TclValue.str (['#'] ++ printf02x (GetRValue rgbResult)
                       ++ printf02x (GetGValue rgbResult) ++ printf02x (GetBValue rgbResult)),
                     errorCode := [] },
         shown := [(vars.parent, vars.rgbResult, vars.title)] },
       { st2 with oldColor := longOfColor rgbResult })
    else
      ({ code := TCL_OK, interp := InterpResult.reset,
         shown := [(vars.parent, vars.rgbResult, vars.title)] }, st2)

/-- The color an invocation given no `-initialcolor` starts the dialog from,
as the statics determine it. -/
def rememberedColor (statics : ColorStatics) : Nat :=
  colorOfLong (Tk_ChooseColorObjCmd.init statics).oldColor

/-- The value of a lower-case hexadecimal digit. -/
def hexValue (c : Char) : Option Nat :=
  if '0' ≤ c ∧ c ≤ '9' then some (c.toNat - '0'.toNat)
  else if 'a' ≤ c ∧ c ≤ 'f' then some (c.toNat - 'a'.toNat + 10)
  else none

/-- The value of a pair of lower-case hexadecimal digits. -/
def parseHexPair (digits : List Char) : Option Nat :=
  match digits with
  | [hi, lo] =>
    match hexValue hi, hexValue lo with
    | some h, some l => some (16 * h + l)
    | _, _ => none
  | _ => none

/-- A concrete environment for evaluating the color chooser: colors are not
known by name, every name is a window, and the user accepts the color with
red 0x12, green 0xab and blue 0xff. -/
def acceptingColorEnv : ColorEnv :=
  { badOption := fun _ => { result := TclValue.str "bad option".toList, errorCode := [] },
    getColor := fun _ => none,
    badColor := fun _ => { result := TclValue.str "unknown color".toList, errorCode := [] },
    nameToWindow := fun _ => some 0,
    badWindow := fun _ => { result := TclValue.str "bad window".toList, errorCode := [] },
    winCode := 1,
    rgbResult := 0xffab12,
    custColors := List.replicate 16 0 }

/-! ## tkWinDialog.c : the font chooser configuration -/

/-- The members of the struct `HookData` that `tk fontchooser configure` reads
and writes (`none` for NULL); `visible` is the value of
`hdPtr->hwnd && IsWindow(hdPtr->hwnd)`. -/
structure HookData where
  parentObj : Option String
  titleObj : Option String
  fontObj : Option String
  cmdObj : Option String
  visible : Bool
deriving DecidableEq, Repr

/-- The array `optionStrings` of FontchooserConfigureCmd. -/
def fontOptionStrings : List String := ["-parent", "-title", "-font", "-command", "-visible"]

/-- The function `FontchooserCget`: the text of the value of an option. -/
def FontchooserCget (hdPtr : HookData) (optionIndex : Nat) : String :=
  match optionIndex with
  | 0 => match hdPtr.parentObj with
    | some parentObj => parentObj
    | none => "."
  | 1 => match hdPtr.titleObj with
    | some titleObj => titleObj
    | none => ""
  | 2 => match hdPtr.fontObj with
    | some fontObj => fontObj
    | none => ""
  | 3 => match hdPtr.cmdObj with
    | some cmdObj => cmdObj
    | none => ""
  | 4 => if hdPtr.visible then "1" else "0"
  | _ => ""

/-- What one invocation of FontchooserConfigureCmd consults outside itself. -/
structure FontEnv where
  /-- the interpreter result `Tcl_GetIndexFromObjStruct` leaves for a word
  that names no option -/
  badOption : String → InterpResult
  /-- `Tk_NameToWindow`, `none` for NULL -/
  nameToWindow : String → Option Window
  /-- the interpreter result it leaves when it fails -/
  badWindow : String → InterpResult

/-- What an invocation of FontchooserConfigureCmd returns and leaves behind:
the code, the interpreter result and the stored configuration. -/
structure FontResult where
  code : Int
  interp : InterpResult
  hd : HookData
deriving DecidableEq, Repr

/-- The branch `objc == 1` of FontchooserConfigureCmd: the dictionary of all
options, as the list of its keys and values. -/
def FontchooserConfigureCmd.all (hdPtr : HookData) : TclValue :=
  TclValue.list (((List.range fontOptionStrings.length).map fun i =>
    [(fontOptionStrings.getD i "").toList, (FontchooserCget hdPtr i).toList]).flatten)

/-- The loop `for (i = 1; i < objc; i += 2)` of FontchooserConfigureCmd over
the arguments that follow the command name, from the stored configuration
`hdPtr`.  The interpreter result is empty when the command starts. -/
def FontchooserConfigureCmd.loop (env : FontEnv) (objc : Nat) :
    List String → HookData → FontResult
  | [], hdPtr => { code := TCL_OK, interp := InterpResult.reset, hd := hdPtr }
  | [optionPtr], hdPtr =>
    match Tcl_GetIndexFromObjStruct fontOptionStrings false optionPtr with
    | none => { code := TCL_ERROR, interp := env.badOption optionPtr, hd := hdPtr }
    | some optionIndex =>
      if objc = 2 then
        { code := TCL_OK,
          interp := { result := TclValue.str (FontchooserCget hdPtr optionIndex).toList,
                      errorCode := [] },
          hd := hdPtr }
      else
        { code := TCL_ERROR,
          interp := { result := TclValue.str ("value for \"" ++ optionPtr ++ "\" missing").toList,
                      errorCode := ["TK", "FONTDIALOG", "VALUE"] },
          hd := hdPtr }
  | optionPtr :: valuePtr :: rest, hdPtr =>
    match Tcl_GetIndexFromObjStruct fontOptionStrings false optionPtr with
    | none => { code := TCL_ERROR, interp := env.badOption optionPtr, hd := hdPtr }
    | some optionIndex =>
      if objc = 2 then
        { code := TCL_OK,
          interp := { result := TclValue.str (FontchooserCget hdPtr optionIndex).toList,
                      errorCode := [] },
          hd := hdPtr }
      else if optionIndex = 4 then
        { code := TCL_ERROR,
          interp :=
            { result := TclValue.str
                "cannot change read-only option \"-visible\": use the show or hide command".toList,
              errorCode := ["TK", "FONTDIALOG", "READONLY"] },
          hd := hdPtr }
      else if optionIndex = 0 then
        match env.nameToWindow valuePtr with
        | none => { code := TCL_ERROR, interp := env.badWindow valuePtr, hd := hdPtr }
        | some _ =>
          FontchooserConfigureCmd.loop env objc rest { hdPtr with parentObj := some valuePtr }
      else if optionIndex = 1 then
        FontchooserConfigureCmd.loop env objc rest { hdPtr with titleObj := some valuePtr }
      else if optionIndex = 2 then
        FontchooserConfigureCmd.loop env objc rest
          { hdPtr with fontObj := if valuePtr.length ≠ 0 then some valuePtr else none }
      else if optionIndex = 3 then
        FontchooserConfigureCmd.loop env objc rest
          { hdPtr with cmdObj := if valuePtr.length ≠ 0 then some valuePtr else none }
      else FontchooserConfigureCmd.loop env objc rest hdPtr

/-- The function `FontchooserConfigureCmd`; `args` are the arguments that
follow the command name (`objc` is their number plus one) and `hdPtr` is the
configuration stored for the interpreter. -/
def FontchooserConfigureCmd (env : FontEnv) (hdPtr : HookData) (args : List String) :
    FontResult :=
  if args.length + 1 = 1 then
    { code := TCL_OK,
      interp := { result := FontchooserConfigureCmd.all hdPtr, errorCode := [] },
      hd := hdPtr }
  else FontchooserConfigureCmd.loop env (args.length + 1) args hdPtr

/-- A concrete environment for evaluating the font chooser configuration:
every name is a window. -/
def fontEnv : FontEnv :=
  { badOption := fun _ => { result := TclValue.str "bad option".toList, errorCode := [] },
    nameToWindow := fun _ => some 0,
    badWindow := fun _ => { result := TclValue.str "bad window path name".toList,
                            errorCode := [] } }

/-- A stored configuration in which nothing is set. -/
def HookData.start : HookData :=
  { parentObj := none, titleObj := none, fontObj := none, cmdObj := none, visible := false }

/-- Whether the word of `args` (`objc - 1` words) at the option position `i` is one of those on
which FontchooserConfigureCmd gives up: it names no option, it is the last
word but not the only one (its value is missing), it names `-visible`, or it
names `-parent` and the value after it is not the name of a window. -/
def FontchooserConfigureCmd.failsAt (env : FontEnv) (objc : Nat) (args : List String)
    (i : Nat) : Bool :=
  let optionIndex := Tcl_GetIndexFromObjStruct fontOptionStrings false (args.getD i "")
  optionIndex == none || (i + 1 == args.length && objc != 2) || optionIndex == some 4
    || (optionIndex == some 0 && env.nameToWindow (args.getD (i + 1) "") == none)

/-! ## tkWinDialog.c : the options of the file dialogs -/

/-- The enumeration `options` of ParseOFNOptions. -/
inductive FileOption where
  | FILE_DEFAULT
  | FILE_TYPES
  | FILE_INITDIR
  | FILE_INITFILE
  | FILE_PARENT
  | FILE_TITLE
  | FILE_TYPEVARIABLE
  | FILE_MULTIPLE
  | FILE_CONFIRMOW
deriving DecidableEq, Repr

/-- The array `saveOptions` of ParseOFNOptions. -/
def saveOptions : List (String × FileOption) :=
  [("-confirmoverwrite", FileOption.FILE_CONFIRMOW),
   ("-defaultextension", FileOption.FILE_DEFAULT),
   ("-filetypes", FileOption.FILE_TYPES),
   ("-initialdir", FileOption.FILE_INITDIR),
   ("-initialfile", FileOption.FILE_INITFILE),
   ("-parent", FileOption.FILE_PARENT),
   ("-title", FileOption.FILE_TITLE),
   ("-typevariable", FileOption.FILE_TYPEVARIABLE)]

/-- The array `openOptions` of ParseOFNOptions. -/
def openOptions : List (String × FileOption) :=
  [("-defaultextension", FileOption.FILE_DEFAULT),
   ("-filetypes", FileOption.FILE_TYPES),
   ("-initialdir", FileOption.FILE_INITDIR),
   ("-initialfile", FileOption.FILE_INITFILE),
   ("-multiple", FileOption.FILE_MULTIPLE),
   ("-parent", FileOption.FILE_PARENT),
   ("-title", FileOption.FILE_TITLE),
   ("-typevariable", FileOption.FILE_TYPEVARIABLE)]

/-- What one invocation of ParseOFNOptions consults outside itself. -/
structure ParseEnv where
  /-- the interpreter result `Tcl_GetIndexFromObjStruct` leaves for a word
  that names no option -/
  badOption : String → InterpResult
  /-- `Tcl_TranslateFileName`, `none` for NULL -/
  translateFileName : String → Option (List Char)
  /-- the interpreter result it leaves when it fails -/
  badFileName : String → InterpResult
  /-- the contents `Tcl_UtfToExternal` leaves in the buffer `file` -/
  utfToExternal : List Char → List Char
  /-- `Tk_NameToWindow`, `none` for NULL -/
  nameToWindow : String → Option Window
  /-- the interpreter result it leaves when it fails -/
  badWindow : String → InterpResult
  /-- `Tcl_ObjGetVar2` on a global variable: its value, `none` for NULL -/
  getVar : String → Option (List Char)
  /-- `Tcl_GetBooleanFromObj`, `none` when it returns `TCL_ERROR` -/
  getBoolean : String → Option Bool
  /-- the interpreter result it leaves when it fails -/
  badBoolean : String → InterpResult

/-- The loop `for (i = 1; i < objc; i += 2)` of ParseOFNOptions over the
arguments that follow the command name.  The state is `optsPtr->tkwin` and the
other members of `*optsPtr`; `Except.error` carries the interpreter result
with which the function returns `TCL_ERROR`. -/
def ParseOFNOptions.loop (env : ParseEnv) (options : List (String × FileOption)) :
    List String → Window × OFNOpts → Except InterpResult (Window × OFNOpts)
  | [], opts => Except.ok opts
  | [optionPtr], _ =>
    match Tcl_GetIndexFromObjStruct (options.map Prod.fst) false optionPtr with
    | none => Except.error (env.badOption optionPtr)
    | some index =>
      Except.error
        { result := TclValue.str ("value for \""
            ++ (options.getD index ("", FileOption.FILE_DEFAULT)).1 ++ "\" missing").toList,
          errorCode := ["TK", "FILEDIALOG", "VALUE"] }
  | optionPtr :: valuePtr :: rest, (tkwin, opts) =>
    match Tcl_GetIndexFromObjStruct (options.map Prod.fst) false optionPtr with
    | none => Except.error (env.badOption optionPtr)
    | some index =>
      let string := valuePtr.toList
      match (options.getD index ("", FileOption.FILE_DEFAULT)).2 with
      | FileOption.FILE_DEFAULT =>
        let extension := if string.head? = some '.' then string.tail else string
        ParseOFNOptions.loop env options rest (tkwin, { opts with extension := some extension })
      | FileOption.FILE_TYPES =>
        ParseOFNOptions.loop env options rest (tkwin, { opts with filterObj := some valuePtr })
      | FileOption.FILE_INITDIR =>
        match env.translateFileName valuePtr with
        | none => Except.error (env.badFileName valuePtr)
        | some utfDirString =>
          ParseOFNOptions.loop env options rest (tkwin, { opts with utfDirString := utfDirString })
      | FileOption.FILE_INITFILE =>
        match env.translateFileName valuePtr with
        | none => Except.error (env.badFileName valuePtr)
        | some ds =>
          ParseOFNOptions.loop env options rest (tkwin, { opts with file := env.utfToExternal ds })
      | FileOption.FILE_PARENT =>
        match env.nameToWindow valuePtr with
        | none => Except.error (env.badWindow valuePtr)
        | some parent => ParseOFNOptions.loop env options rest (parent, opts)
      | FileOption.FILE_TITLE =>
        ParseOFNOptions.loop env options rest (tkwin, { opts with title := some string })
      | FileOption.FILE_TYPEVARIABLE =>
        ParseOFNOptions.loop env options rest
          (tkwin, { opts with typeVariableObj := some valuePtr,
                              initialTypeObj := env.getVar valuePtr })
      | FileOption.FILE_MULTIPLE =>
        match env.getBoolean valuePtr with
        | none => Except.error (env.badBoolean valuePtr)
        | some multi => ParseOFNOptions.loop env options rest (tkwin, { opts with multi := multi })
      | FileOption.FILE_CONFIRMOW =>
        match env.getBoolean valuePtr with
        | none => Except.error (env.badBoolean valuePtr)
        | some confirmOverwrite =>
          ParseOFNOptions.loop env options rest
            (tkwin, { opts with confirmOverwrite := confirmOverwrite })

/-- The function `ParseOFNOptions`; `args` are the arguments that follow the
command name, `clientData` is the main window and `isOpen` is the parameter
`open`.  `Except.ok` stands for the return value `TCL_OK` and holds
`optsPtr->tkwin` and the other members of `*optsPtr`; `Except.error` stands
for `TCL_ERROR` and holds the interpreter result. -/
def ParseOFNOptions (env : ParseEnv) (clientData : Window) (args : List String)
    (isOpen : Bool) : Except InterpResult (Window × OFNOpts) :=
  let options := if isOpen then openOptions else saveOptions
  ParseOFNOptions.loop env options args
    (clientData,
     { extension := none, title := none, filterObj := none, typeVariableObj := none,
       initialTypeObj := none, utfDirString := [], multi := false, confirmOverwrite := true,
       file := [NUL] })

/-- The start of `GetFileName` on the arguments of the command: the options
are parsed by ParseOFNOptions, and the code modelled by `GetFileName` gets the
value it returned, the options and the interpreter result. -/
def GetFileName.ofArgs (penv : ParseEnv) (env : FileDialogEnv) (clientData : Window)
    (args : List String) (isOpen : Bool) : Except Fault FileDialogResult :=
  match ParseOFNOptions penv clientData args isOpen with
  | Except.error interp => GetFileName TCL_ERROR defaultOFNOpts interp env isOpen
  | Except.ok parsed => GetFileName TCL_OK parsed.2 InterpResult.reset env isOpen

/-- The function `Tk_GetOpenFileObjCmd`. -/
def Tk_GetOpenFileObjCmd (penv : ParseEnv) (env : FileDialogEnv) (clientData : Window)
    (args : List String) : Except Fault FileDialogResult :=
  GetFileName.ofArgs penv env clientData args true

/-- The function `Tk_GetSaveFileObjCmd`. -/
def Tk_GetSaveFileObjCmd (penv : ParseEnv) (env : FileDialogEnv) (clientData : Window)
    (args : List String) : Except Fault FileDialogResult :=
  GetFileName.ofArgs penv env clientData args false

/-- A concrete environment for evaluating ParseOFNOptions: every file name
translates to itself, every name is the window 7, no variable is set and the
Tcl booleans are `0` and `1`. -/
def parseEnv : ParseEnv :=
  { badOption := fun _ => { result := TclValue.str "bad option".toList, errorCode := [] },
    translateFileName := fun name => some name.toList,
    badFileName := fun _ => { result := TclValue.str "bad file name".toList, errorCode := [] },
    utfToExternal := fun ds => ds ++ [NUL],
    nameToWindow := fun _ => some 7,
    badWindow := fun _ => { result := TclValue.str "bad window path name".toList,
                            errorCode := [] },
    getVar := fun _ => none,
    getBoolean := fun v => if v = "1" then some true else if v = "0" then some false else none,
    badBoolean := fun _ => { result := TclValue.str "expected boolean value".toList,
                             errorCode := [] } }

/-- The names of an option table, in order. -/
def optionNames (options : List (String × FileOption)) : List String := options.map Prod.fst

/-- The seven options that the open and the save dialog share. -/
def sharedOptions : List String :=
  ["-defaultextension", "-filetypes", "-initialdir", "-initialfile", "-parent", "-title",
   "-typevariable"]

/-- Whether `key` is, in the words of the documentation of
`Tcl_GetIndexFromObj`, accepted for a table: it is an entry of the table, or,
when abbreviations are allowed (`exact` is false), it is not empty and it
abbreviates exactly one entry. -/
def resolves (table : List String) (exact : Bool) (key : String) : Bool :=
  table.contains key
    || (!exact && key != "" && (table.filter (fun entry => abbreviates key entry)).length == 1)

/-! ## tkMain.c : the channel handler of StdinProc -/

/-- The interest mask of the handler `StdinProc` on every channel after the
calls of a trace, from the masks before it: `Tcl_CreateChannelHandler` sets
the mask of the handler on its channel (0 leaves the handler without events)
and `Tcl_DeleteChannelHandler` removes the handler (mask 0). -/
def handlerMasks (masks : Option Channel → Nat) : List Action → Option Channel → Nat
  | [] => masks
  | Action.createChannelHandler chan mask :: rest =>
    handlerMasks (fun c => if c = chan then mask else masks c) rest
  | Action.deleteChannelHandler chan :: rest =>
    handlerMasks (fun c => if c = chan then 0 else masks c) rest
  | _ :: rest => handlerMasks masks rest

/-- Whether a call registers or removes a channel handler. -/
def registers : Action → Bool
  | Action.createChannelHandler _ _ => true
  | Action.deleteChannelHandler _ => true
  | _ => false

/-- Whether a trace contains a call of `Tcl_ResetResult`. -/
def resets (trace : List Action) : Bool := trace.contains Action.resetResult

/-! ## tkWinDialog.c : the calls of GetFileNameVista and the dialog latch -/

/-- The calls GetFileNameVista makes on the COM library and on the dialog
interface.  `valid` tells whether `fdlgPtr` points to an interface when the
call is made through it. -/
inductive ComCall where
  | CoInitialize
  | CoCreateInstance (isOpen : Bool)
  | CoUninitialize
  | Show (valid : Bool)
  | Release (valid : Bool)
deriving DecidableEq, Repr

/-- The calls an invocation of `GetFileNameVista` makes, in order, up to its
return or to the call through a NULL `fdlgPtr`. -/
def GetFileNameVista.calls (env : FileDialogEnv) (isOpen : Bool) : List ComCall :=
  match env.useNewFileDialogs with
  | FdlgState.USE_OLD => []
  | FdlgState.INIT =>
    if !env.coInitialize then [ComCall.CoInitialize]
    else if !env.coCreateInstance isOpen then
      [ComCall.CoInitialize, ComCall.CoCreateInstance isOpen, ComCall.CoUninitialize]
    else
      [ComCall.CoInitialize, ComCall.CoCreateInstance isOpen, ComCall.Show true,
       ComCall.Release true]
  | FdlgState.USE_NEW =>
    if env.coCreateInstance isOpen then
      [ComCall.CoCreateInstance isOpen, ComCall.Show true, ComCall.Release true]
    else [ComCall.CoCreateInstance isOpen, ComCall.Show false]

/-- One invocation of GetFileNameVista in a sequence: what it returned, or the
fault that ended it, and the calls it made. -/
structure VistaStep where
  result : Except Fault VistaResult
  calls : List ComCall

/-- A sequence of invocations of GetFileNameVista on one thread, from the
value `latch` of `useNewFileDialogs`: each invocation has its own outcomes of
the COM calls and its own `open` flag, and starts from the latch the previous
one left; nothing runs after a fault. -/
def runVista (latch : FdlgState) : List (FileDialogEnv × Bool) → List VistaStep
  | [] => []
  | (env, isOpen) :: rest =>
    match GetFileNameVista { env with useNewFileDialogs := latch } isOpen with
    | Except.error f =>
      [{ result := Except.error f,
         calls := GetFileNameVista.calls { env with useNewFileDialogs := latch } isOpen }]
    | Except.ok v =>
      { result := Except.ok v,
        calls := GetFileNameVista.calls { env with useNewFileDialogs := latch } isOpen }
        :: runVista v.useNewFileDialogs rest

/-- The numbers of the entries of a `TkStateMap` table. -/
def TkStateMap.numKeys (mapPtr : TkStateMap) : List Int := mapPtr.entries.map Prod.fst

/-! ## tkWinDialog.c : logical fonts of the font chooser -/

/-- The function `MulDiv` of the Windows API (not part of the sources), as its
documentation describes it: the product of the first two arguments divided by
the third, rounded to the nearest integer (halves away from zero), and -1
when the divisor is 0 or the result does not fit in 32 bits. -/
def MulDiv (nNumber nNumerator nDenominator : Int) : Int :=
  if nDenominator = 0 then -1
  else
    let a := if nDenominator < 0 then -nNumber else nNumber
    let c := if nDenominator < 0 then -nDenominator else nDenominator
    let prod := a * nNumerator
    let ret := if 0 ≤ prod then (prod + c / 2) / c else -((-prod + c / 2) / c)
    if ret > 2147483647 ∨ ret < -2147483647 then -1 else ret

/-- Font weight `TK_FW_BOLD` of tkFont.h. -/
def TK_FW_BOLD : Int := 1
/-- Font slant `TK_FS_ROMAN` of tkFont.h. -/
def TK_FS_ROMAN : Int := 0
/-- Weight `FW_BOLD` of wingdi.h. -/
def FW_BOLD : Int := 700
/-- Size `LF_FACESIZE` of wingdi.h. -/
def LF_FACESIZE : Nat := 32

/-- The members of the struct `TkFontAttributes` that the font chooser reads. -/
structure TkFontAttributes where
  family : String
  size : Int
  weight : Int
  slant : Int
  underline : Bool
  overstrike : Bool
deriving DecidableEq, Repr

/-- The members of the struct `LOGFONT` that the font chooser sets and reads. -/
structure LOGFONT where
  lfFaceName : String
  lfHeight : Int
  lfWeight : Int
  lfItalic : Bool
  lfUnderline : Bool
  lfStrikeOut : Bool
deriving DecidableEq, Repr

/-- The logical font FontchooserShowCmd builds, in a zeroed `LOGFONT`, from
the attributes of the configured font.  `points` is the value of
`TkFontGetPoints(tkwin, fontPtr->fa.size)` and `dpi` that of
`GetDeviceCaps(hdc, LOGPIXELSY)`. -/
def FontchooserShowCmd.logfont (fa : TkFontAttributes) (points dpi : Int) : LOGFONT :=
  { lfFaceName := String.mk (fa.family.toList.take (LF_FACESIZE - 1)),
    lfHeight := -MulDiv points dpi 72,
    lfWeight := if fa.weight = TK_FW_BOLD then FW_BOLD else 0,
    lfItalic := if fa.slant ≠ TK_FS_ROMAN then true else false,
    lfUnderline := if fa.underline then true else false,
    lfStrikeOut := if fa.overstrike then true else false }

/-- The font description `GetFontObj` returns: the elements of the list. -/
structure FontDescription where
  family : String
  size : Int
  styles : List String
deriving DecidableEq, Repr

/-- The function `GetFontObj`; `dpi` is `GetDeviceCaps(hdc, LOGPIXELSY)`. -/
def GetFontObj (dpi : Int) (plf : LOGFONT) : FontDescription :=
  { family := plf.lfFaceName,
    size := -MulDiv plf.lfHeight 72 dpi,
    styles := (if plf.lfWeight ≥ 700 then ["bold"] else [])
      ++ (if plf.lfItalic then ["italic"] else [])
      ++ (if plf.lfUnderline then ["underline"] else [])
      ++ (if plf.lfStrikeOut then ["overstrike"] else []) }

/-- A font for evaluating the definitions: bold and underlined Arial. -/
def boldArial : TkFontAttributes :=
  { family := "Arial", size := 12, weight := TK_FW_BOLD, slant := TK_FS_ROMAN,
    underline := true, overstrike := false }

/-! ## tkWinDialog.c : the hook of the file dialogs -/

/-- A store through a pointer into a block of memory: the block after the
store, or the fault when the position is outside the block. -/
def storeAt (mem : List Char) (pos : Nat) (c : Char) : Except Fault (List Char) :=
  if pos < mem.length then Except.ok (mem.set pos c) else Except.error Fault.outOfBounds

/-- The state of the loop of OFNHookProc that removes the quotes: the block
`dynFileBuffer`, the offsets of the pointers `tmp` and `buffer` in it, the
flag `findquote`, and the offsets stored to so far, in order. -/
structure UnquoteState where
  mem : List Char
  tmp : Nat
  buffer : Nat
  findquote : Bool
  stores : List Nat
deriving DecidableEq, Repr

/-- One test of the condition `*buffer != '\0'` of the loop of OFNHookProc and,
when it holds, one run of the body; `none` when the loop ends. -/
def OFNHookProc.iteration (st : UnquoteState) : Except Fault (Option UnquoteState) :=
  match st.mem.get? st.buffer with
  | none => Except.error Fault.outOfBounds
  | some c =>
    if c = NUL then Except.ok none
    else if st.findquote then
      Except.ok (some { st with findquote := if c = '"' then false else st.findquote,
                                buffer := st.buffer + 1 })
    else
      let mem1 := if c = '"' then st.mem.set st.buffer NUL else st.mem
      let stores1 := if c = '"' then st.stores ++ [st.buffer] else st.stores
      match storeAt mem1 st.tmp (if c = '"' then NUL else c) with
      | Except.error f => Except.error f
      | Except.ok mem2 =>
        Except.ok (some { mem := mem2, tmp := st.tmp + 1, buffer := st.buffer + 1,
                          findquote := if c = '"' then true else st.findquote,
                          stores := stores1 ++ [st.tmp] })

/-- The loop `while (*buffer != '\0')` of OFNHookProc: the state when the loop
ends; `none` when `fuel` iterations do not end it. -/
def OFNHookProc.loop : Nat → UnquoteState → Except Fault (Option UnquoteState)
  | 0, _ => Except.ok none
  | fuel + 1, st =>
    match OFNHookProc.iteration st with
    | Except.error f => Except.error f
    | Except.ok none => Except.ok (some st)
    | Except.ok (some st') => OFNHookProc.loop fuel st'

/-- The state of the loop of OFNHookProc after `n` iterations, or when the
loop ends if that is earlier. -/
def OFNHookProc.stateAfter : Nat → UnquoteState → Except Fault UnquoteState
  | 0, st => Except.ok st
  | n + 1, st =>
    match OFNHookProc.iteration st with
    | Except.error f => Except.error f
    | Except.ok none => Except.ok st
    | Except.ok (some st') => OFNHookProc.stateAfter n st'

/-- The branch `if (buffer[0] == '"')` of OFNHookProc on the block `mem`, the
selection starting at the offset `start`: the loop, then the store of the
second terminator through `tmp`; `none` when `fuel` iterations do not end the
loop. -/
def OFNHookProc.unquote (fuel : Nat) (mem : List Char) (start : Nat) :
    Except Fault (Option UnquoteState) :=
  match OFNHookProc.loop fuel
      { mem := mem, tmp := start, buffer := start, findquote := true, stores := [] } with
  | Except.error f => Except.error f
  | Except.ok none => Except.ok none
  | Except.ok (some st) =>
    match storeAt st.mem st.tmp NUL with
    | Except.error f => Except.error f
    | Except.ok mem' => Except.ok (some { st with mem := mem', stores := st.stores ++ [st.tmp] })

/-- The selection text `"n1" s1 "n2" s2 .. "nk" sk` for the names `ni`, each
followed by the separator `si`. -/
def quotedText : List (List Char × List Char) → List Char
  | [] => []
  | item :: rest => ['"'] ++ item.1 ++ ['"'] ++ item.2 ++ quotedText rest

/-- The text `n1 NUL n2 NUL .. nk NUL` for the names `ni`. -/
def terminatedNames : List (List Char × List Char) → List Char
  | [] => []
  | item :: rest => item.1 ++ [NUL] ++ terminatedNames rest

/-- The state of the loop of OFNHookProc on the block that holds, after the
`pre` characters before the selection, the output `out`, then `gar`, the
characters between the pointers, then the text `rem` not yet read, its
terminator, and the rest of the block. -/
def OFNHookProc.view (pre out gar rem post : List Char) (findquote : Bool)
    (stores : List Nat) : UnquoteState :=
  { mem := pre ++ (out ++ (gar ++ (rem ++ NUL :: post))),
    tmp := pre.length + out.length,
    buffer := pre.length + out.length + gar.length,
    findquote := findquote,
    stores := stores }

/-- The fields of the source's OFNData that the hook of the file dialog uses:
the recorded capacity, a C int, and the block of that many characters, `none`
for the NULL pointer. -/
structure OFNData where
  dynFileBufferSize : Int
  dynFileBuffer : Option (List Char)
deriving DecidableEq, Repr

/-- The OFNData that GetFileName hands to the hook: zeroed, and for `-multiple`
a capacity of 512 with a block of 512 characters of unspecified content. -/
def GetFileName.ofnData (multi : Bool) (fresh : Char) : OFNData :=
  if multi then { dynFileBufferSize := 512, dynFileBuffer := some (List.replicate 512 fresh) }
  else { dynFileBufferSize := 0, dynFileBuffer := none }

/-- The recorded capacity is the size of the block, and 0 for the NULL pointer. -/
def OFNData.wellFormed (ofnData : OFNData) : Prop :=
  match ofnData.dynFileBuffer with
  | none => ofnData.dynFileBufferSize = 0
  | some mem => (mem.length : Int) = ofnData.dynFileBufferSize

/-- The notification codes the hook distinguishes. -/
inductive NotifyCode where
  | CDN_FILEOK
  | CDN_SELCHANGE
  | other
deriving DecidableEq, Repr

/-- What the dialog answers during one WM_NOTIFY call of the hook: the code of
the notification, the sizes CDM_GETSPEC and CDM_GETFOLDERPATH report, the
characters the two messages store (terminator included; at most as many as the
size passed are stored), the path type Tcl gives the converted file name, and
the content of newly allocated characters. -/
structure HookEnv where
  code : NotifyCode
  selsize : Int
  dirsize : Int
  folderPath : List Char
  spec : List Char
  pathIsAbsolute : List Char → Bool
  fresh : Char

/-- The value of a C int expression whose mathematical value is `x`, in two's
complement on 32 bits. -/
def intWrap (x : Int) : Int := (x + 2147483648) % 4294967296 - 2147483648

/-- The block ckrealloc returns for `n` characters: the old content, cut or
extended by characters of unspecified content. -/
def ckrealloc (old : Option (List Char)) (n : Nat) (fresh : Char) : List Char :=
  match old with
  | none => List.replicate n fresh
  | some mem => (mem ++ List.replicate (n - mem.length) fresh).take n

/-- Stores `chars` into `mem` from position `pos` on. -/
def storeBlock (mem : List Char) (pos : Nat) (chars : List Char) : Except Fault (List Char) :=
  if pos + chars.length ≤ mem.length then
    Except.ok (mem.take pos ++ (chars ++ mem.drop (pos + chars.length)))
  else Except.error Fault.outOfBounds

/-- The OFNData after a call of the hook and the positions of the block the
call stored to, in order. -/
structure HookResult where
  ofnData : OFNData
  stores : List Nat
deriving DecidableEq, Repr

/-- The resizing step of OFNHookProc: the block is reallocated and the capacity
recorded when the recorded capacity is below `buffersize`. -/
def OFNHookProc.grow (env : HookEnv) (ofnData : OFNData) (buffersize : Int) : OFNData :=
  if ofnData.dynFileBufferSize < buffersize then
    { dynFileBufferSize := buffersize,
      dynFileBuffer := some (ckrealloc ofnData.dynFileBuffer buffersize.toNat env.fresh) }
  else ofnData

/-- The branch of OFNHookProc for a selection that does not start with a
double quote, on the block `mem` that holds the folder and the selection:
an absolute file name is fetched again to the start of the block, otherwise a
backslash replaces the terminator of the folder; then the second terminator
is stored. -/
def OFNHookProc.single (env : HookEnv) (mem : List Char) (dir sel : Nat) (spec : List Char) :
    Except Fault (List Char × List Nat) :=
  match ConvertExternalFilename (mem.drop dir) with
  | none => Except.error Fault.outOfBounds
  | some tmpfile =>
    if env.pathIsAbsolute tmpfile then
      match storeBlock mem 0 spec with
      | Except.error f => Except.error f
      | Except.ok mem3 =>
        match storeAt mem3 sel NUL with
        | Except.error f => Except.error f
        | Except.ok mem4 => Except.ok (mem4, List.range' 0 spec.length ++ [sel])
    else
      match storeAt mem (dir - 1) '\\' with
      | Except.error f => Except.error f
      | Except.ok mem3 =>
        match storeAt mem3 (dir + sel) NUL with
        | Except.error f => Except.error f
        | Except.ok mem4 => Except.ok (mem4, [dir - 1, dir + sel])

/-- The part of OFNHookProc after the resizing, on the block `mem`: the folder
is stored at the start and the selection behind it, then the selection is
unquoted if it starts with a double quote; `none` when `fuel` iterations do
not end the unquoting loop. -/
def OFNHookProc.gather (fuel : Nat) (env : HookEnv) (mem : List Char) :
    Except Fault (Option (List Char × List Nat)) :=
  let dir := env.dirsize.toNat
  let sel := env.selsize.toNat
  let folder := env.folderPath.take dir
  let spec := env.spec.take sel
  match storeBlock mem 0 folder with
  | Except.error f => Except.error f
  | Except.ok mem1 =>
    match storeBlock mem1 dir spec with
    | Except.error f => Except.error f
    | Except.ok mem2 =>
      let stores := List.range' 0 folder.length ++ List.range' dir spec.length
      match mem2.get? dir with
      | none => Except.error Fault.outOfBounds
      | some c =>
        if c = '"' then
          match OFNHookProc.unquote fuel mem2 dir with
          | Except.error f => Except.error f
          | Except.ok none => Except.ok none
          | Except.ok (some st) => Except.ok (some (st.mem, stores ++ st.stores))
        else
          match OFNHookProc.single env mem2 dir sel spec with
          | Except.error f => Except.error f
          | Except.ok (mem4, more) => Except.ok (some (mem4, stores ++ more))

/-- The WM_NOTIFY branch of OFNHookProc: a CDN_FILEOK or CDN_SELCHANGE
notification with a selection and a folder resizes the block if needed and
gathers the names in it; without them it empties the string in the block;
other notifications change nothing. -/
def OFNHookProc.notify (fuel : Nat) (env : HookEnv) (ofnData : OFNData) :
    Except Fault (Option HookResult) :=
  if env.code = NotifyCode.other then Except.ok (some { ofnData := ofnData, stores := [] })
  else
    let buffersize := intWrap (env.selsize + env.dirsize + 1)
    if env.selsize > 1 ∧ env.dirsize > 0 then
      let grown := OFNHookProc.grow env ofnData buffersize
      match grown.dynFileBuffer with
      | none => Except.error Fault.nullDeref
      | some mem =>
        match OFNHookProc.gather fuel env mem with
        | Except.error f => Except.error f
        | Except.ok none => Except.ok none
        | Except.ok (some (mem', stores)) =>
          Except.ok (some { ofnData := { grown with dynFileBuffer := some mem' }, stores := stores })
    else
      match ofnData.dynFileBuffer with
      | none => Except.ok (some { ofnData := ofnData, stores := [] })
      | some mem =>
        match storeAt mem 0 NUL with
        | Except.error f => Except.error f
        | Except.ok mem' =>
          Except.ok (some { ofnData := { ofnData with dynFileBuffer := some mem' }, stores := [0] })

/-- The OFNData after each of a sequence of calls of the hook, up to the first
call that faults or runs out of fuel. -/
def OFNHookProc.notifications (fuel : Nat) : List HookEnv → OFNData → List OFNData
  | [], _ => []
  | env :: rest, ofnData =>
    match OFNHookProc.notify fuel env ofnData with
    | Except.ok (some r) => r.ofnData :: OFNHookProc.notifications fuel rest r.ofnData
    | _ => []

end Tk

namespace Tk

/-! ## Lemmas on StdinProc -/

theorem evalsOf_append (a b : List Action) : evalsOf (a ++ b) = evalsOf a ++ evalsOf b := by
  induction a with
  | nil => rfl
  | cons x xs ih => cases x <;> simp [evalsOf, ih]

theorem evalsOf_defaultPrompt {σ : Type} (I : Interp σ) (s : σ) (isPtr : InteractiveState) :
    evalsOf (Prompt.defaultPrompt I s isPtr) = [] := by
  unfold Prompt.defaultPrompt
  split
  · split <;> rfl
  · rfl

theorem evalsOf_flushStdout {σ : Type} (I : Interp σ) (s : σ) :
    evalsOf (Prompt.flushStdout I s) = [] := by
  unfold Prompt.flushStdout
  split <;> rfl

theorem evalsOf_Prompt {σ : Type} (I : Interp σ) (s : σ) (isPtr : InteractiveState) :
    evalsOf (Prompt I s isPtr).2 = [] := by
  unfold Prompt
  split
  · simp [evalsOf_append, evalsOf_defaultPrompt, evalsOf_flushStdout]
  · dsimp only
    split
    · simp only [evalsOf_append, evalsOf_defaultPrompt, evalsOf_flushStdout]
      split
      · split <;> simp [evalsOf]
      · simp [evalsOf]
    · simp [evalsOf_append, evalsOf_flushStdout, evalsOf]

theorem evalsOf_report {σ : Type} (I : Interp σ) (s : σ) (code : Int) (tty : Bool) :
    evalsOf (StdinProc.report I s code tty) = [] := by
  unfold StdinProc.report
  split
  · split
    · split <;> rfl
    · rfl
  · rfl

theorem promptTail_state {σ : Type} (I : Interp σ) (s : σ) (isPtr : InteractiveState)
    (done : List Action) : (StdinProc.promptTail I s isPtr done).state = isPtr := by
  unfold StdinProc.promptTail
  split <;> rfl

theorem promptTail_exited {σ : Type} (I : Interp σ) (s : σ) (isPtr : InteractiveState)
    (done : List Action) : (StdinProc.promptTail I s isPtr done).exited = none := by
  unfold StdinProc.promptTail
  split <;> rfl

theorem promptTail_evals {σ : Type} (I : Interp σ) (s : σ) (isPtr : InteractiveState)
    (done : List Action) :
    evalsOf (StdinProc.promptTail I s isPtr done).trace = evalsOf done := by
  unfold StdinProc.promptTail
  split <;> simp [evalsOf_append, evalsOf_Prompt, evalsOf]

theorem StdinProc_of_nonneg {σ : Type} (I : Interp σ) (s : σ) (isPtr : InteractiveState)
    (count : Int) (got : String) (h : 0 ≤ count) :
    StdinProc I s isPtr count got
      = StdinProc.accumulate I s { isPtr with line := isPtr.line ++ got } := by
  unfold StdinProc
  have h2 : ¬ count < 0 := not_lt.mpr h
  simp [h2]

theorem accumulate_incomplete {σ : Type} (I : Interp σ) (s : σ) (isPtr : InteractiveState)
    (h : I.commandComplete (isPtr.command ++ isPtr.line ++ "\n") = false) :
    StdinProc.accumulate I s isPtr
      = StdinProc.promptTail I s
          { isPtr with command := isPtr.command ++ isPtr.line ++ "\n", line := "",
                       gotPartial := true } [] := by
  unfold StdinProc.accumulate
  simp [h]

theorem accumulate_complete_evals {σ : Type} (I : Interp σ) (s : σ) (isPtr : InteractiveState)
    (h : I.commandComplete (isPtr.command ++ isPtr.line ++ "\n") = true) :
    evalsOf (StdinProc.accumulate I s isPtr).trace
      = [isPtr.command ++ isPtr.line ++ "\n"] := by
  unfold StdinProc.accumulate
  simp only [h, Bool.not_true, Bool.false_eq_true, if_false]
  rw [promptTail_evals]
  simp only [evalsOf_append, evalsOf_report, List.append_nil]
  split <;> simp [evalsOf]

theorem accumulate_exited {σ : Type} (I : Interp σ) (s : σ) (isPtr : InteractiveState) :
    (StdinProc.accumulate I s isPtr).exited = none := by
  unfold StdinProc.accumulate
  dsimp only
  split <;> exact promptTail_exited _ _ _ _

/-- Accumulation over a run of successful reads, from any state whose line
buffer is empty: nothing is evaluated before the last event, and the last
event evaluates the whole text. -/
theorem runEvents_accumulate {σ : Type} (I : Interp σ) (evs : List (ReadEvent σ)) :
    ∀ (isPtr : InteractiveState), isPtr.line = "" → evs ≠ [] →
      (∀ e ∈ evs, 0 ≤ e.count) →
      (∀ k, 0 < k → k < evs.length →
        I.commandComplete
          (isPtr.command ++ joinLines ((evs.take k).map fun e => e.got)) = false) →
      I.commandComplete (isPtr.command ++ joinLines (evs.map fun e => e.got)) = true →
      (runEvents I isPtr evs).map (fun o => evalsOf o.trace)
        = List.replicate (evs.length - 1) []
            ++ [[isPtr.command ++ joinLines (evs.map fun e => e.got)]] := by
  induction evs with
  | nil => intro _ _ h; exact absurd rfl h
  | cons e es ih =>
    intro isPtr hline _ hcount hinc hcomp
    have hc : 0 ≤ e.count := hcount e (List.mem_cons_self _ _)
    simp only [runEvents]
    rw [StdinProc_of_nonneg I e.interp isPtr e.count e.got hc]
    simp only [accumulate_exited, Option.isSome_none, Bool.false_eq_true, if_false,
      List.map_cons]
    cases es with
    | nil =>
      have hcomp2 : I.commandComplete (isPtr.command ++ ("" ++ e.got) ++ "\n") = true := by
        simpa [joinLines, String.append_assoc] using hcomp
      have := accumulate_complete_evals I e.interp
        { isPtr with line := isPtr.line ++ e.got } (by simpa [hline] using hcomp2)
      simp [runEvents, joinLines, hline, String.append_assoc] at this ⊢
      exact this
    | cons e2 es2 =>
      have hinc1 : I.commandComplete (isPtr.command ++ ("" ++ e.got) ++ "\n") = false := by
        have := hinc 1 (by decide) (by simp)
        simpa [joinLines, String.append_assoc] using this
      rw [accumulate_incomplete I e.interp { isPtr with line := isPtr.line ++ e.got }
        (by simpa [hline] using hinc1)]
      rw [promptTail_evals, promptTail_state]
      have key := ih
        { isPtr with command := isPtr.command ++ (isPtr.line ++ e.got) ++ "\n", line := "",
                     gotPartial := true }
        rfl (by simp) (fun x hx => hcount x (List.mem_cons_of_mem _ hx))
        (by
          intro k hk hlt
          have := hinc (k + 1) (by omega) (by simp at hlt ⊢; omega)
          simpa [joinLines, hline, String.append_assoc] using this)
        (by simpa [joinLines, hline, String.append_assoc] using hcomp)
      simp only [] at key
      rw [key]
      simp [evalsOf, joinLines, hline, String.append_assoc, List.replicate_succ]

theorem deregisters_append (a b : List Action) :
    deregisters (a ++ b) = (deregisters a || deregisters b) := by
  simp [deregisters, List.any_append]

theorem deregisters_Prompt {σ : Type} (I : Interp σ) (s : σ) (isPtr : InteractiveState) :
    deregisters (Prompt I s isPtr).2 = false := by
  unfold Prompt Prompt.defaultPrompt Prompt.flushStdout
  split
  · split <;> split <;> simp [deregisters]
  · dsimp only
    split
    · split <;> split <;> split <;> (try split) <;> simp [deregisters]
    · split <;> simp [deregisters]

theorem deregisters_report {σ : Type} (I : Interp σ) (s : σ) (code : Int) (tty : Bool) :
    deregisters (StdinProc.report I s code tty) = false := by
  unfold StdinProc.report
  split
  · split
    · split <;> simp [deregisters]
    · rfl
  · rfl

theorem deregisters_promptTail {σ : Type} (I : Interp σ) (s : σ) (isPtr : InteractiveState)
    (done : List Action) :
    deregisters (StdinProc.promptTail I s isPtr done).trace = deregisters done := by
  unfold StdinProc.promptTail
  split
  · simp only [deregisters_append, deregisters_Prompt]
    simp [deregisters]
  · simp only [deregisters_append]
    simp [deregisters]

theorem deregisters_accumulate {σ : Type} (I : Interp σ) (s : σ) (isPtr : InteractiveState) :
    deregisters (StdinProc.accumulate I s isPtr).trace = false := by
  unfold StdinProc.accumulate
  dsimp only
  split
  · rw [deregisters_promptTail]; rfl
  · rw [deregisters_promptTail]
    simp only [deregisters_append, deregisters_report]
    split <;> simp [deregisters]

theorem accumulate_incomplete_state {σ : Type} (I : Interp σ) (s : σ)
    (isPtr : InteractiveState)
    (h : I.commandComplete (isPtr.command ++ isPtr.line ++ "\n") = false) :
    (StdinProc.accumulate I s isPtr).state
      = { isPtr with command := isPtr.command ++ isPtr.line ++ "\n", line := "",
                     gotPartial := true } := by
  rw [accumulate_incomplete I s isPtr h, promptTail_state]

theorem accumulate_incomplete_evals {σ : Type} (I : Interp σ) (s : σ)
    (isPtr : InteractiveState)
    (h : I.commandComplete (isPtr.command ++ isPtr.line ++ "\n") = false) :
    evalsOf (StdinProc.accumulate I s isPtr).trace = [] := by
  rw [accumulate_incomplete I s isPtr h, promptTail_evals]
  rfl

theorem accumulate_complete_state {σ : Type} (I : Interp σ) (s : σ)
    (isPtr : InteractiveState)
    (h : I.commandComplete (isPtr.command ++ isPtr.line ++ "\n") = true) :
    (StdinProc.accumulate I s isPtr).state
      = { isPtr with
            command := "", line := "", gotPartial := false,
            input := I.getStdChannel
              (I.recordAndEval s (isPtr.command ++ isPtr.line ++ "\n")).1 StdId.stdin } := by
  unfold StdinProc.accumulate
  simp only [h, Bool.not_true, Bool.false_eq_true, if_false]
  rw [promptTail_state]

/-! ## Lemmas on C strings in buffers -/

theorem cstring_append (str rest : List Char) (h : NUL ∉ str) :
    cstring (str ++ NUL :: rest) = some str := by
  induction str with
  | nil => simp [cstring]
  | cons c cs ih =>
    have hc : c ≠ NUL := fun e => h (by simp [e])
    have hcs : NUL ∉ cs := fun m => h (List.mem_cons_of_mem _ m)
    simp [cstring, hc, ih hcs]

theorem skipString_append (str rest : List Char) (h : NUL ∉ str) :
    skipString (str ++ NUL :: rest) = some rest := by
  induction str with
  | nil => simp [skipString]
  | cons c cs ih =>
    have hc : c ≠ NUL := fun e => h (by simp [e])
    have hcs : NUL ∉ cs := fun m => h (List.mem_cons_of_mem _ m)
    simp [skipString, hc, ih hcs]

theorem ConvertExternalFilename_append (str rest : List Char) (h : NUL ∉ str) :
    ConvertExternalFilename (str ++ NUL :: rest) = some (str.map normSlash) := by
  simp [ConvertExternalFilename, cstring_append str rest h]

theorem normSlash_ne_backslash (c : Char) : normSlash c ≠ '\\' := by
  unfold normSlash
  split
  · decide
  · assumption

theorem backslash_not_mem_map_normSlash (str : List Char) : '\\' ∉ str.map normSlash := by
  intro h
  rcases List.mem_map.mp h with ⟨c, _, hc⟩
  exact normSlash_ne_backslash c hc

/-- The multi-selection loop from a position at a non-empty name that is
followed by the names `ss` and the closing `NUL`: every name of `ss` is
appended, joined to the directory. -/
theorem multiLoop_names (ds tail : List Char) (ss : List (List Char)) :
    ∀ (str : List Char) (fuel : Nat) (st : MultiState),
      str ≠ [] → NUL ∉ str → (∀ si ∈ ss, si ≠ [] ∧ NUL ∉ si) → ss.length + 2 ≤ fuel →
      multiLoop ds fuel
          (str ++ NUL :: ((ss.map fun si => si ++ [NUL]).flatten ++ NUL :: tail)) st
        = some { returnList :=
                   st.returnList ++ ss.map fun si => ds ++ ['/'] ++ si.map normSlash,
                 count := st.count + ss.length,
                 gotFilename := st.gotFilename || !ss.isEmpty } := by
  induction ss with
  | nil =>
    intro str fuel st hne hnul _ hfuel
    obtain ⟨c, cs, rfl⟩ := List.exists_cons_of_ne_nil hne
    have hc : c ≠ NUL := fun e => hnul (by simp [e])
    obtain ⟨f1, rfl⟩ : ∃ f1, fuel = f1 + 1 := ⟨fuel - 1, by simp at hfuel; omega⟩
    obtain ⟨f2, rfl⟩ : ∃ f2, f1 = f2 + 1 := ⟨f1 - 1, by simp at hfuel; omega⟩
    have hskip := skipString_append (c :: cs) (NUL :: tail) hnul
    simp only [List.cons_append] at hskip
    simp [multiLoop, hc, hskip]
  | cons s1 ss ih =>
    intro str fuel st hne hnul hall hfuel
    obtain ⟨c, cs, rfl⟩ := List.exists_cons_of_ne_nil hne
    have hc : c ≠ NUL := fun e => hnul (by simp [e])
    obtain ⟨f1, rfl⟩ : ∃ f1, fuel = f1 + 1 := ⟨fuel - 1, by simp at hfuel; omega⟩
    have h1 := hall s1 (List.mem_cons_self _ _)
    obtain ⟨d, ds1, rfl⟩ := List.exists_cons_of_ne_nil h1.1
    have hd : d ≠ NUL := fun e => h1.2 (by simp [e])
    have hskip := skipString_append (c :: cs)
      ((d :: ds1) ++ NUL :: ((ss.map fun si => si ++ [NUL]).flatten ++ NUL :: tail)) hnul
    have hconv := ConvertExternalFilename_append (d :: ds1)
      ((ss.map fun si => si ++ [NUL]).flatten ++ NUL :: tail) h1.2
    have hrec := ih (d :: ds1) f1
      { returnList := st.returnList ++ [ds ++ ['/'] ++ (d :: ds1).map normSlash],
        count := st.count + 1, gotFilename := true }
      (by simp) h1.2 (fun si hsi => hall si (List.mem_cons_of_mem _ hsi))
      (by simp at hfuel ⊢; omega)
    simp only [List.cons_append] at hskip hconv hrec
    simp only [multiLoop, List.cons_append, List.map_cons, List.flatten_cons,
      List.append_assoc, List.singleton_append, hc, hskip, hd, hconv, if_false, ne_eq,
      not_false_eq_true, if_true, List.nil_append]
    simp only [List.append_assoc, List.singleton_append, List.cons_append,
      List.nil_append, List.map_cons] at hrec
    rw [hrec]
    simp [Nat.add_assoc, Nat.add_comm 1]

theorem length_le_flatten_terminated (ss : List (List Char)) :
    ss.length ≤ ((ss.map fun si => si ++ [NUL]).flatten).length := by
  induction ss with
  | nil => simp
  | cons a l ih => simp at ih ⊢; omega

/-! ## Lemmas on MakeFilter -/

theorem flags_multi (ofnOpts : OFNOpts) (isOpen : Bool) :
    GetFileName.flags ofnOpts isOpen &&& OFN_ALLOWMULTISELECT ≠ 0 ↔ ofnOpts.multi = true := by
  unfold GetFileName.flags
  cases isOpen <;> cases ofnOpts.confirmOverwrite <;> cases ofnOpts.multi <;> decide

theorem process_tolerated (result : Int) (ofnOpts : OFNOpts) (env : FileDialogEnv)
    (isOpen : Bool) (value : TclValue) (got : Bool)
    (hcond : env.winCode ≠ 0 ∨ (env.cdlgerr = FNERR_BUFFERTOOSMALL ∧ ofnOpts.multi = true))
    (hdec : GetFileName.decode (GetFileName.flags ofnOpts isOpen) env = some (value, got)) :
    GetFileName.process result ofnOpts env isOpen
      = if env.nFilterIndex > 0 ∧ got = true ∧ ofnOpts.typeVariableObj ≠ none
            ∧ ofnOpts.filterObj ≠ none then
          match env.typeStore with
          | some failure => Except.ok (TCL_ERROR, failure, some value)
          | none => Except.ok (TCL_OK, { result := value, errorCode := [] }, some value)
        else Except.ok (TCL_OK, { result := value, errorCode := [] }, some value) := by
  have hcond2 : env.winCode ≠ 0
      ∨ (env.cdlgerr = FNERR_BUFFERTOOSMALL
          ∧ GetFileName.flags ofnOpts isOpen &&& OFN_ALLOWMULTISELECT ≠ 0) := by
    rw [flags_multi]; exact hcond
  unfold GetFileName.process
  simp only [hdec]
  rw [if_pos hcond2]

theorem process_failed (result : Int) (ofnOpts : OFNOpts) (env : FileDialogEnv)
    (isOpen : Bool)
    (hcond : ¬ (env.winCode ≠ 0
      ∨ (env.cdlgerr = FNERR_BUFFERTOOSMALL ∧ ofnOpts.multi = true))) :
    GetFileName.process result ofnOpts env isOpen
      = if env.cdlgerr = FNERR_INVALIDFILENAME then
          match ConvertExternalFilename env.lpstrFile with
          | none => Except.error Fault.outOfBounds
          | some name =>
            Except.ok (result,
              { result := TclValue.str ("invalid filename \"".toList ++ name ++ ['"']),
                errorCode := ["TK", "FILEDIALOG", "INVALID_FILENAME"] },
              none)
        else Except.ok (TCL_OK, InterpResult.reset, none) := by
  have hcond2 : ¬ (env.winCode ≠ 0
      ∨ (env.cdlgerr = FNERR_BUFFERTOOSMALL
          ∧ GetFileName.flags ofnOpts isOpen &&& OFN_ALLOWMULTISELECT ≠ 0)) := by
    rw [flags_multi]; exact hcond
  unfold GetFileName.process
  simp only []
  rw [if_neg hcond2]

/-- On the legacy path with a filter that parses, GetFileName returns what
the processing of the native results gives. -/
theorem GetFileName_legacy (ofnOpts : OFNOpts) (interp : InterpResult) (env : FileDialogEnv)
    (isOpen : Bool) (v : VistaResult)
    (hv : GetFileNameVista env isOpen = Except.ok v) (hc : v.code = TCL_CONTINUE)
    (hf : env.getFileFilters ofnOpts.filterObj ≠ none) :
    GetFileName TCL_OK ofnOpts interp env isOpen
      = match GetFileName.process TCL_CONTINUE ofnOpts env isOpen with
        | Except.error f => Except.error f
        | Except.ok (code, res, dec) =>
          Except.ok { code := code, interp := res,
                      useNewFileDialogs := v.useNewFileDialogs,
                      modernShown := v.shown, legacyShown := true, decoded := dec } := by
  obtain ⟨fl, hfl⟩ := Option.ne_none_iff_exists'.mp hf
  have hm : ∃ r, MakeFilter (some fl) ofnOpts.initialTypeObj 0 = some r := by
    cases fl with
    | nil => exact ⟨_, rfl⟩
    | cons f fs => exact ⟨_, rfl⟩
  obtain ⟨r, hr⟩ := hm
  unfold GetFileName
  simp only [ne_eq, not_true_eq_false, if_false, hv, hc, hfl, hr]

/-! ## Lemmas on the message box -/

theorem options_type_default (env : MsgBoxEnv) (tkwin : Window) (T B : String)
    (hT : T ∈ typeNames) (hB : B ∈ buttonNames) :
    Tk_MessageBoxObjCmd env tkwin ["-type", T, "-default", B]
        = Tk_MessageBoxObjCmd.finish env (typeAndDefault tkwin T B)
    ∧ Tk_MessageBoxObjCmd env tkwin ["-default", B, "-type", T]
        = Tk_MessageBoxObjCmd.finish env (typeAndDefault tkwin T B) := by
  simp only [typeNames, buttonNames, List.mem_cons, List.mem_singleton, List.not_mem_nil,
    or_false] at hT hB
  rcases hT with rfl | rfl | rfl | rfl | rfl | rfl <;>
    rcases hB with rfl | rfl | rfl | rfl | rfl | rfl | rfl <;>
    exact ⟨rfl, rfl⟩

theorem defaultIndexOf_none_iff :
    ∀ T ∈ typeNames, ∀ B ∈ buttonNames, (defaultIndexOf T B = none ↔ B ∉ buttonsOf T) := by
  decide

theorem defaultIndexOf_position :
    ∀ T ∈ typeNames, ∀ B ∈ buttonNames, ∀ j < 3,
      (buttonsOf T).get? j = some B → defaultIndexOf T B = some (j : Int) := by
  decide

theorem buttonsOf_length : ∀ T ∈ typeNames, (buttonsOf T).length ≤ 3 := by
  decide

theorem button_name_round_trip :
    ∀ B ∈ buttonNames, 0 ≤ TkFindStateNumObj buttonMap B
      ∧ TkFindStateString buttonMap (TkFindStateNumObj buttonMap B) = some B := by
  decide

theorem default_flag_kept :
    ∀ T ∈ typeNames, ∀ j < 3, ∀ flag, buttonFlagMap.get? j = some flag →
      (flag ||| MB_ICONINFORMATION.toNat ||| (TkFindStateNumObj typeMap T).toNat
          ||| MB_TASKMODAL ||| MB_SETFOREGROUND) &&& MB_DEFMASK = flag
      ∧ (flag ||| MB_ICONINFORMATION.toNat ||| (TkFindStateNumObj typeMap T).toNat
          ||| MB_TASKMODAL ||| MB_SETFOREGROUND) ||| flag
        = (flag ||| MB_ICONINFORMATION.toNat ||| (TkFindStateNumObj typeMap T).toNat
          ||| MB_TASKMODAL ||| MB_SETFOREGROUND) := by
  intro T hT j hj flag hflag
  simp only [typeNames, List.mem_cons, List.mem_singleton, List.not_mem_nil, or_false] at hT
  have hjs : j = 0 ∨ j = 1 ∨ j = 2 := by omega
  rcases hjs with rfl | rfl | rfl <;>
    (simp only [buttonFlagMap, List.get?_cons_zero, List.get?_cons_succ,
      Option.some.injEq] at hflag
     subst hflag
     rcases hT with rfl | rfl | rfl | rfl | rfl | rfl <;> decide)

theorem finish_listed (env : MsgBoxEnv) (vars : MsgBoxVars) (j flag : Nat)
    (hd : 0 ≤ vars.defaultBtn)
    (hidx : Tk_MessageBoxObjCmd.defaultIndex vars.type vars.defaultBtn allowedTypes
      = some (j : Int))
    (hflag : buttonFlagMap.get? j = some flag) :
    ∃ r, Tk_MessageBoxObjCmd.finish env vars = Except.ok r ∧ r.code = TCL_OK
      ∧ nativeFlags (Tk_MessageBoxObjCmd.finish env vars)
          = [flag ||| vars.icon.toNat ||| vars.type.toNat ||| MB_TASKMODAL
              ||| MB_SETFOREGROUND] := by
  have hj : ¬ ((j : Int) < 0) := by omega
  unfold Tk_MessageBoxObjCmd.finish
  simp only [ge_iff_le, hd, if_true, hidx, hj, if_false, Int.toNat_ofNat, hflag]
  exact ⟨_, rfl, rfl, rfl⟩

theorem finish_unlisted (env : MsgBoxEnv) (vars : MsgBoxVars) (hd : 0 ≤ vars.defaultBtn)
    (hidx : Tk_MessageBoxObjCmd.defaultIndex vars.type vars.defaultBtn allowedTypes = none) :
    Tk_MessageBoxObjCmd.finish env vars
      = Except.ok (MsgBoxResult.failure
          { result := TclValue.str ("invalid default button \""
              ++ (TkFindStateString buttonMap vars.defaultBtn).getD "" ++ "\"").toList,
            errorCode := ["TK", "MSGBOX", "DEFAULT"] }) := by
  unfold Tk_MessageBoxObjCmd.finish
  simp only [ge_iff_le, hd, if_true, hidx]

/-! ## Lemmas on the startup script -/

theorem firstChar_of_zip_option (a : String) (hl : a.length ≥ 2)
    (hcmp : tcsncmpEq "-zip" a a.length = true) : firstChar a = '-' := by
  obtain ⟨l⟩ := a
  have hz : "-zip".toList = ['-', 'z', 'i', 'p'] := rfl
  unfold tcsncmpEq at hcmp
  unfold firstChar
  simp only [String.length, hz] at hcmp hl ⊢
  cases l with
  | nil => simp at hl
  | cons c rest =>
    have heq := eq_of_beq hcmp
    have hdata : ({ data := c :: rest } : String).toList = c :: rest := rfl
    rw [hdata] at heq
    simp only [List.length_cons, List.take_succ_cons, List.cons.injEq] at heq
    exact heq.1.symm

/-- The argument vector left by the resolution of the startup script is the
given one without its first `k` entries, `k` being 0, 1, 2 or 3; the program
name and the entries dropped exist; and without `ZIPFS_IN_TCL` nothing is
dropped unless a script is found. -/
theorem resolve_drops (zipfs : Bool) (preset : Option StartupScript) (argv : List String)
    (hne : argv ≠ []) :
    ∃ k, k ≤ 3 ∧ k + 1 ≤ argv.length
      ∧ (Tk_MainEx.resolve zipfs preset argv).argv = argv.drop k
      ∧ ((Tk_MainEx.resolve zipfs preset argv).script = none → zipfs = false → k = 0) := by
  have hlen : 1 ≤ argv.length := List.length_pos.mpr hne
  unfold Tk_MainEx.resolve
  cases preset with
  | some script => exact ⟨0, by omega, by omega, rfl, fun _ _ => rfl⟩
  | none =>
    dsimp only
    split_ifs with h1 h2 h3 h4 h5 h6
    · exact ⟨3, by omega, by omega, rfl, fun h => by simp at h⟩
    · refine ⟨2, by omega, ?_, by simp [List.drop_drop], fun _ hz => ?_⟩
      · have := h4.1
        simp only [List.length_drop] at this
        omega
      · rw [hz] at h3
        exact absurd h3.1 (by decide)
    · refine ⟨1, by omega, by omega, rfl, fun _ hz => ?_⟩
      rw [hz] at h3
      exact absurd h3.1 (by decide)
    · exact ⟨1, by omega, by omega, rfl, fun h => by simp at h⟩
    · exact ⟨0, by omega, by omega, rfl, fun _ _ => rfl⟩
    · exact ⟨2, by omega, by omega, rfl, fun h => by simp at h⟩
    · exact ⟨0, by omega, by omega, rfl, fun _ _ => rfl⟩

/-! ## Lemmas on Prompt -/

/-- The calls Prompt makes when the standard channels exist, by the value of
the prompt variable and the outcome of its script. -/
theorem Prompt_trace {σ : Type} (I : Interp σ) (s : σ) (isPtr : InteractiveState)
    (out err : Channel)
    (hout : ∀ s', I.getStdChannel s' StdId.stdout = some out)
    (herr : ∀ s', I.getStdChannel s' StdId.stderr = some err) :
    (Prompt I s isPtr).2
      = match I.getVar2Ex s (promptVariable isPtr) with
        | none =>
          (if isPtr.gotPartial then [] else [Action.writeChars out DEFAULT_PRIMARY_PROMPT])
            ++ [Action.flush out]
        | some promptCmd =>
          if (I.evalObjEx s promptCmd).2 ≠ TCL_OK then
            [Action.evalObjEx promptCmd]
              ++ (if I.getObjResult (I.addErrorInfo (I.evalObjEx s promptCmd).1
                      "\n    (script that generates prompt)") ≠ "" then
                    [Action.writeObj err (I.getObjResult (I.addErrorInfo
                        (I.evalObjEx s promptCmd).1 "\n    (script that generates prompt)")),
                     Action.writeChars err "\n"]
                  else [])
              ++ (if isPtr.gotPartial then []
                  else [Action.writeChars out DEFAULT_PRIMARY_PROMPT])
              ++ [Action.flush out]
          else [Action.evalObjEx promptCmd, Action.flush out] := by
  unfold Prompt promptVariable Prompt.defaultPrompt Prompt.flushStdout
  cases hv : I.getVar2Ex s (if isPtr.gotPartial = true then "tcl_prompt2" else "tcl_prompt1") with
  | none =>
    simp only [hout]
    cases isPtr.gotPartial <;> rfl
  | some promptCmd =>
    simp only [hout, herr]
    by_cases hcode : (I.evalObjEx s promptCmd).2 ≠ TCL_OK
    · simp only [hcode, if_true, ne_eq, not_false_eq_true]
      cases isPtr.gotPartial <;> simp
    · simp only [hcode, if_false]
      rfl

/-! ## Lemmas on the directory chooser -/

theorem RGB_eq_sum (R G B : Nat) (hR : R < 256) (hG : G < 256) (hB : B < 256) :
    RGB R G B = R + 256 * G + 65536 * B := by
  unfold RGB
  rw [Nat.mod_eq_of_lt hR, Nat.mod_eq_of_lt hG, Nat.mod_eq_of_lt hB]
  rw [Nat.shiftLeft_eq, Nat.shiftLeft_eq]
  have h1 : R ||| G * 2 ^ 8 = 2 ^ 8 * G + R := by
    rw [Nat.or_comm, Nat.mul_comm]
    exact (Nat.mul_add_lt_is_or (by omega) G).symm
  have h2 : (2 ^ 8 * G + R) ||| B * 2 ^ 16 = 2 ^ 16 * B + (2 ^ 8 * G + R) := by
    rw [Nat.or_comm, Nat.mul_comm]
    exact (Nat.mul_add_lt_is_or (by omega) B).symm
  rw [h1, h2]
  omega

theorem components_of_RGB (R G B : Nat) (hR : R < 256) (hG : G < 256) (hB : B < 256) :
    RGB R G B % 2 ^ 32 = RGB R G B
    ∧ GetRValue (RGB R G B) = R ∧ GetGValue (RGB R G B) = G ∧ GetBValue (RGB R G B) = B := by
  rw [RGB_eq_sum R G B hR hG hB]
  unfold GetRValue GetGValue GetBValue
  simp only [Nat.shiftRight_eq_div_pow]
  refine ⟨?_, ?_, ?_, ?_⟩ <;> omega

theorem components_lt (rgb : Nat) :
    GetRValue rgb < 256 ∧ GetGValue rgb < 256 ∧ GetBValue rgb < 256 := by
  unfold GetRValue GetGValue GetBValue
  refine ⟨?_, ?_, ?_⟩ <;> exact Nat.mod_lt _ (by decide)

set_option maxRecDepth 100000 in
theorem printf02x_byte :
    ∀ n, n < 256 → (printf02x n).length = 2 ∧ parseHexPair (printf02x n) = some n
      ∧ ∀ c ∈ printf02x n, c ∈ "0123456789abcdef".toList := by
  decide

theorem hex_string_parts (r g b : List Char) (hr : r.length = 2) (hg : g.length = 2)
    (hb : b.length = 2) :
    (['#'] ++ r ++ g ++ b).length = 7
    ∧ (['#'] ++ r ++ g ++ b).drop 1 = r ++ g ++ b
    ∧ ((['#'] ++ r ++ g ++ b).drop 1).take 2 = r
    ∧ ((['#'] ++ r ++ g ++ b).drop 3).take 2 = g
    ∧ ((['#'] ++ r ++ g ++ b).drop 5).take 2 = b := by
  obtain ⟨r1, r2, rfl⟩ := List.length_eq_two.mp hr
  obtain ⟨g1, g2, rfl⟩ := List.length_eq_two.mp hg
  obtain ⟨b1, b2, rfl⟩ := List.length_eq_two.mp hb
  exact ⟨rfl, rfl, rfl, rfl, rfl⟩

theorem ChooseColor_of_ok (env : ColorEnv) (statics : ColorStatics) (tkwin : Window)
    (args : List String) (vars : ColorVars)
    (h : Tk_ChooseColorObjCmd.options env tkwin args
          { parent := tkwin, rgbResult := rememberedColor statics, title := none }
        = Except.ok vars) :
    Tk_ChooseColorObjCmd env statics tkwin args
      = if env.winCode ≠ 0 then
          ({ code := TCL_OK,
             interp := { result := TclValue.str (['#']
                           ++ printf02x (GetRValue (env.rgbResult % 2 ^ 32))
                           ++ printf02x (GetGValue (env.rgbResult % 2 ^ 32))
                           ++ printf02x (GetBValue (env.rgbResult % 2 ^ 32))),
                         errorCode := [] },
             shown := [(vars.parent, vars.rgbResult, vars.title)] },
           { (Tk_ChooseColorObjCmd.init statics) with
               dwCustColors := env.custColors,
               oldColor := longOfColor (env.rgbResult % 2 ^ 32) })
        else
          ({ code := TCL_OK, interp := InterpResult.reset,
             shown := [(vars.parent, vars.rgbResult, vars.title)] },
           { (Tk_ChooseColorObjCmd.init statics) with dwCustColors := env.custColors }) := by
  unfold rememberedColor at h
  unfold Tk_ChooseColorObjCmd
  simp only [h]

/-- Induction over a list two elements at a time. -/
theorem pairs_induction {α : Type} {motive : List α → Prop} (nil : motive [])
    (single : ∀ a, motive [a])
    (pair : ∀ a b rest, motive rest → motive (a :: b :: rest)) : ∀ l, motive l
  | [] => nil
  | [a] => single a
  | a :: b :: rest => pair a b rest (pairs_induction nil single pair rest)

/-! ## Lemmas on the font chooser configuration -/

/-- What `loop_error_prefix` states of one argument list and configuration. -/
theorem loop_error_step (env : FontEnv) (objc : Nat) (a b : String) (rest : List String)
    (hd hd' : HookData)
    (e : ∀ rest', FontchooserConfigureCmd.loop env objc (a :: b :: rest') hd
      = FontchooserConfigureCmd.loop env objc rest' hd')
    (ih : (FontchooserConfigureCmd.loop env objc rest hd').code = TCL_ERROR →
      ∃ n, 2 * n < rest.length
        ∧ FontchooserConfigureCmd.failsAt env objc rest (2 * n) = true
        ∧ (FontchooserConfigureCmd.loop env objc (rest.take (2 * n)) hd').code = TCL_OK
        ∧ (FontchooserConfigureCmd.loop env objc rest hd').hd
          = (FontchooserConfigureCmd.loop env objc (rest.take (2 * n)) hd').hd)
    (herr : (FontchooserConfigureCmd.loop env objc (a :: b :: rest) hd).code = TCL_ERROR) :
    ∃ n, 2 * n < (a :: b :: rest).length
      ∧ FontchooserConfigureCmd.failsAt env objc (a :: b :: rest) (2 * n) = true
      ∧ (FontchooserConfigureCmd.loop env objc ((a :: b :: rest).take (2 * n)) hd).code = TCL_OK
      ∧ (FontchooserConfigureCmd.loop env objc (a :: b :: rest) hd).hd
        = (FontchooserConfigureCmd.loop env objc ((a :: b :: rest).take (2 * n)) hd).hd := by
  rw [e] at herr
  obtain ⟨n, hn, hf, hok, hhd⟩ := ih herr
  refine ⟨n + 1, ?_, ?_, ?_, ?_⟩
  · simp only [List.length_cons]; omega
  · have h2 : 2 * (n + 1) = 2 * n + 1 + 1 := by omega
    simp only [FontchooserConfigureCmd.failsAt, h2, List.getD_cons_succ, List.length_cons] at hf ⊢
    simpa using hf
  · have h2 : 2 * (n + 1) = 2 * n + 1 + 1 := by omega
    rw [h2, List.take_succ_cons, List.take_succ_cons, e]
    exact hok
  · have h2 : 2 * (n + 1) = 2 * n + 1 + 1 := by omega
    rw [h2, List.take_succ_cons, List.take_succ_cons, e, e]
    exact hhd

/-- A failing run of the loop leaves the configuration that the loop leaves
on the pairs before the failing word, on which it succeeds. -/
theorem loop_error_prefix (env : FontEnv) (objc : Nat) (hobjc : objc ≠ 2) :
    ∀ (args : List String) (hd : HookData),
      (FontchooserConfigureCmd.loop env objc args hd).code = TCL_ERROR →
      ∃ n, 2 * n < args.length
        ∧ FontchooserConfigureCmd.failsAt env objc args (2 * n) = true
        ∧ (FontchooserConfigureCmd.loop env objc (args.take (2 * n)) hd).code = TCL_OK
        ∧ (FontchooserConfigureCmd.loop env objc args hd).hd
          = (FontchooserConfigureCmd.loop env objc (args.take (2 * n)) hd).hd := by
  intro args
  induction args using pairs_induction with
  | nil =>
    intro hd h
    have h2 : TCL_OK = TCL_ERROR := h
    exact absurd h2 (by decide)
  | single a =>
    intro hd h
    refine ⟨0, by simp, ?_, rfl, ?_⟩
    · simp [FontchooserConfigureCmd.failsAt, hobjc]
    · cases hl : Tcl_GetIndexFromObjStruct fontOptionStrings false a <;>
        simp [FontchooserConfigureCmd.loop, hl, hobjc]
  | pair a b rest ih =>
    intro hd herr
    have zero : FontchooserConfigureCmd.failsAt env objc (a :: b :: rest) (2 * 0) = true →
        (FontchooserConfigureCmd.loop env objc (a :: b :: rest) hd).hd = hd →
        ∃ n, 2 * n < (a :: b :: rest).length
          ∧ FontchooserConfigureCmd.failsAt env objc (a :: b :: rest) (2 * n) = true
          ∧ (FontchooserConfigureCmd.loop env objc ((a :: b :: rest).take (2 * n)) hd).code
            = TCL_OK
          ∧ (FontchooserConfigureCmd.loop env objc (a :: b :: rest) hd).hd
            = (FontchooserConfigureCmd.loop env objc ((a :: b :: rest).take (2 * n)) hd).hd :=
      fun hf hh => ⟨0, by simp, hf, rfl, hh⟩
    cases hl : Tcl_GetIndexFromObjStruct fontOptionStrings false a with
    | none =>
      exact zero (by simp [FontchooserConfigureCmd.failsAt, hl])
        (by simp [FontchooserConfigureCmd.loop, hl])
    | some idx =>
      by_cases h4 : idx = 4
      · exact zero (by simp [FontchooserConfigureCmd.failsAt, hl, h4])
          (by simp [FontchooserConfigureCmd.loop, hl, hobjc, h4])
      by_cases h0 : idx = 0
      · cases hw : env.nameToWindow b with
        | none =>
          exact zero (by simp [FontchooserConfigureCmd.failsAt, hl, h0, hw])
            (by simp [FontchooserConfigureCmd.loop, hl, hobjc, h0, hw])
        | some w =>
          exact loop_error_step env objc a b rest hd { hd with parentObj := some b }
            (fun rest' => by simp [FontchooserConfigureCmd.loop, hl, hobjc, h0, hw])
            (ih _) herr
      by_cases h1 : idx = 1
      · exact loop_error_step env objc a b rest hd { hd with titleObj := some b }
          (fun rest' => by simp [FontchooserConfigureCmd.loop, hl, hobjc, h1])
          (ih _) herr
      by_cases h2 : idx = 2
      · exact loop_error_step env objc a b rest hd
          { hd with fontObj := if b.length ≠ 0 then some b else none }
          (fun rest' => by simp [FontchooserConfigureCmd.loop, hl, hobjc, h2])
          (ih _) herr
      by_cases h3 : idx = 3
      · exact loop_error_step env objc a b rest hd
          { hd with cmdObj := if b.length ≠ 0 then some b else none }
          (fun rest' => by simp [FontchooserConfigureCmd.loop, hl, hobjc, h3])
          (ih _) herr
      · exact loop_error_step env objc a b rest hd hd
          (fun rest' => by simp [FontchooserConfigureCmd.loop, hl, hobjc, h0, h1, h2, h3, h4])
          (ih _) herr

/-- The loop does not depend on `objc` as long as it is not 2. -/
theorem loop_objc (env : FontEnv) (objc objc' : Nat) (h : objc ≠ 2) (h' : objc' ≠ 2) :
    ∀ (args : List String) (hd : HookData),
      FontchooserConfigureCmd.loop env objc args hd
        = FontchooserConfigureCmd.loop env objc' args hd := by
  intro args
  induction args using pairs_induction with
  | nil => intro hd; rfl
  | single a => intro hd; simp [FontchooserConfigureCmd.loop, h, h']
  | pair a b rest ih =>
    intro hd
    simp only [FontchooserConfigureCmd.loop, h, h', if_false, ih]

/-! ## Lemmas on the option lookup -/

/-- The search for an entry fails exactly when the key is not in the table. -/
theorem indexOf?_eq_none_iff (table : List String) (key : String) :
    table.indexOf? key = none ↔ key ∉ table := by
  induction table with
  | nil => simp [List.indexOf?]
  | cons x xs ih =>
    simp only [List.indexOf?, List.findIdx?_cons] at ih ⊢
    by_cases h : x = key
    · simp [h]
    · have h' : (x == key) = false := by simpa using h
      have h2 : ¬ key = x := fun e => h e.symm
      simp [h', h2]
      simpa using ih

/-- The index the search finds is that of an entry equal to the key. -/
theorem indexOf?_some_getD (table : List String) (key : String) (i : Nat)
    (h : table.indexOf? key = some i) : i < table.length ∧ table.getD i "" = key := by
  induction table generalizing i with
  | nil => simp [List.indexOf?] at h
  | cons x xs ih =>
    simp only [List.indexOf?, List.findIdx?_cons] at ih h
    by_cases hx : x = key
    · simp [hx] at h
      subst h
      simp [hx]
    · have h' : (x == key) = false := by simpa using hx
      simp only [h', Bool.false_eq_true, if_false] at h
      rw [List.findIdx?_succ] at h
      simp only [Option.map_eq_some'] at h
      obtain ⟨j, hj, rfl⟩ := h
      have := ih j hj
      refine ⟨by simp only [List.length_cons]; omega, ?_⟩
      rw [List.getD_cons_succ]
      exact this.2

/-- Counting the indices of the entries that pass a test counts those entries. -/
theorem filter_range_length (p : String → Bool) (table : List String) :
    ((List.range table.length).filter (fun i => p (table.getD i ""))).length
      = (table.filter p).length := by
  induction table using List.reverseRecOn with
  | nil => rfl
  | append_singleton l x ih =>
    rw [List.length_append, List.length_singleton, List.range_succ, List.filter_append,
      List.filter_append, List.length_append, List.length_append]
    congr 1
    · rw [← ih]
      congr 1
      apply List.filter_congr
      intro i hi
      rw [List.mem_range] at hi
      simp [List.getD_eq_getElem?_getD, List.getElem?_append_left hi]
    · simp only [List.filter_cons, List.filter_nil, List.getD_eq_getElem?_getD,
        List.getElem?_concat_length, Option.getD_some]
      cases p x <;> rfl

/-- An index kept by the filter is in range and its entry passes the test. -/
theorem filter_range_mem (p : String → Bool) (table : List String) (i : Nat)
    (h : i ∈ (List.range table.length).filter (fun i => p (table.getD i ""))) :
    i < table.length ∧ p (table.getD i "") = true := by
  simpa [List.mem_filter] using h

/-- The lookup fails exactly on the keys that `resolves` rejects. -/
theorem lookup_eq_none_iff (table : List String) (exact : Bool) (key : String) :
    Tcl_GetIndexFromObjStruct table exact key = none ↔ resolves table exact key = false := by
  unfold Tcl_GetIndexFromObjStruct resolves
  by_cases hmem : key ∈ table
  · have h1 : table.indexOf? key ≠ none := fun h => (indexOf?_eq_none_iff table key).mp h hmem
    cases hi : table.indexOf? key with
    | none => exact absurd hi h1
    | some i => simp [hmem]
  · have h1 := (indexOf?_eq_none_iff table key).mpr hmem
    rw [h1]
    by_cases he : exact = true ∨ key = ""
    · rcases he with he | he
      · simp [he, hmem]
      · subst he
        simp [hmem]
    · have he1 : exact = false := by
        cases exact <;> simp_all
      have he2 : key ≠ "" := fun h => he (Or.inr h)
      simp only [he, if_false]
      have hlen := filter_range_length (fun entry => abbreviates key entry) table
      generalize (List.range table.length).filter (fun i => abbreviates key (table.getD i "")) = l
        at hlen
      simp only [he1, hmem, he2]
      match l, hlen with
      | [], hlen => simp [← hlen, hmem]
      | [i], hlen => simp [← hlen, he2]
      | i :: j :: r, hlen => simp [← hlen, hmem]

/-- An index the lookup returns is that of an entry the key equals or abbreviates. -/
theorem lookup_some (table : List String) (exact : Bool) (key : String) (i : Nat)
    (h : Tcl_GetIndexFromObjStruct table exact key = some i) :
    i < table.length
    ∧ (table.getD i "" = key ∨ (exact = false ∧ abbreviates key (table.getD i "") = true)) := by
  unfold Tcl_GetIndexFromObjStruct at h
  cases hi : table.indexOf? key with
  | some j =>
    rw [hi] at h
    simp only [Option.some.injEq] at h
    subst h
    have := indexOf?_some_getD table key j hi
    exact ⟨this.1, Or.inl this.2⟩
  | none =>
    rw [hi] at h
    simp only at h
    split at h
    · cases h
    · rename_i he
      have hmem := filter_range_mem (fun entry => abbreviates key entry) table
      generalize (List.range table.length).filter (fun i => abbreviates key (table.getD i "")) = l
        at h hmem
      match l, h, hmem with
      | [j], h, hmem =>
        simp only [Option.some.injEq] at h
        subst h
        have := hmem j (by simp)
        refine ⟨this.1, Or.inr ⟨?_, this.2⟩⟩
        cases exact <;> simp_all
      | [], h, _ => cases h
      | _ :: _ :: _, h, _ => cases h

/-- The lookup finds every entry of the table. -/
theorem lookup_of_mem (table : List String) (exact : Bool) (key : String) (h : key ∈ table) :
    ∃ i, Tcl_GetIndexFromObjStruct table exact key = some i ∧ i < table.length
      ∧ table.getD i "" = key := by
  unfold Tcl_GetIndexFromObjStruct
  cases hi : table.indexOf? key with
  | none => exact absurd h ((indexOf?_eq_none_iff table key).mp hi)
  | some i =>
    have := indexOf?_some_getD table key i hi
    exact ⟨i, rfl, this.1, this.2⟩

/-! ## Lemmas on loops over option/value pairs -/

/-- A loop over pairs that succeeds on a list continues on what follows the
list from the state it reached. -/
theorem pairLoop_append {S E : Type} (L : List String → S → Except E S)
    (hnil : ∀ s, L [] s = Except.ok s)
    (hsingle : ∀ a s, ∃ r, L [a] s = Except.error r)
    (hpair : ∀ a b s, (∃ r, ∀ rest, L (a :: b :: rest) s = Except.error r)
      ∨ (∃ s', ∀ rest, L (a :: b :: rest) s = L rest s')) :
    ∀ (pre : List String) (s s' : S) (tail : List String),
      L pre s = Except.ok s' → L (pre ++ tail) s = L tail s' := by
  intro pre
  induction pre using pairs_induction with
  | nil =>
    intro s s' tail h
    rw [hnil] at h
    cases h
    rfl
  | single a =>
    intro s s' tail h
    obtain ⟨r, hr⟩ := hsingle a s
    rw [hr] at h
    cases h
  | pair a b rest ih =>
    intro s s' tail h
    rcases hpair a b s with ⟨r, hr⟩ | ⟨s1, hs1⟩
    · rw [hr] at h
      cases h
    · rw [hs1] at h
      rw [List.cons_append, List.cons_append, hs1]
      exact ih s1 s' tail h

/-- A loop over pairs that fails on every word with the property `bad` in an
option position fails on every list that has such a word in an option
position. -/
theorem pairLoop_unknown {S E : Type} (L : List String → S → Except E S) (bad : String → Prop)
    (hbad1 : ∀ a s, bad a → ∃ r, L [a] s = Except.error r)
    (hbad2 : ∀ a b rest s, bad a → ∃ r, L (a :: b :: rest) s = Except.error r)
    (hpair : ∀ a b s, (∃ r, ∀ rest, L (a :: b :: rest) s = Except.error r)
      ∨ (∃ s', ∀ rest, L (a :: b :: rest) s = L rest s')) :
    ∀ (args : List String) (i : Nat) (s : S),
      i < args.length → i % 2 = 0 → bad (args.getD i "") → ∃ r, L args s = Except.error r := by
  intro args
  induction args using pairs_induction with
  | nil =>
    intro i s hi
    simp at hi
  | single a =>
    intro i s hi _ hb
    have h0 : i = 0 := by simp only [List.length_singleton] at hi; omega
    subst h0
    exact hbad1 a s hb
  | pair a b rest ih =>
    intro i s hi heven hb
    match i, hi, heven, hb with
    | 0, _, _, hb => exact hbad2 a b rest s hb
    | 1, _, heven, _ => exact absurd heven (by decide)
    | j + 2, hi, heven, hb =>
      rcases hpair a b s with ⟨r, hr⟩ | ⟨s1, hs1⟩
      · exact ⟨r, hr rest⟩
      · rw [hs1]
        refine ih j s1 ?_ ?_ ?_
        · simp only [List.length_cons] at hi; omega
        · omega
        · simpa [List.getD_cons_succ] using hb

/-- Every failure of a loop over pairs has a property that the failures of
its single steps have. -/
theorem pairLoop_errors {S E : Type} (L : List String → S → Except E S) (Q : E → Prop)
    (hnil : ∀ s, L [] s = Except.ok s)
    (hsingle : ∀ a s, ∃ r, Q r ∧ L [a] s = Except.error r)
    (hpair : ∀ a b s, (∃ r, Q r ∧ ∀ rest, L (a :: b :: rest) s = Except.error r)
      ∨ (∃ s', ∀ rest, L (a :: b :: rest) s = L rest s')) :
    ∀ (args : List String) (s : S) (r : E), L args s = Except.error r → Q r := by
  intro args
  induction args using pairs_induction with
  | nil =>
    intro s r h
    rw [hnil] at h
    cases h
  | single a =>
    intro s r h
    obtain ⟨r', hq, hr⟩ := hsingle a s
    rw [hr] at h
    cases h
    exact hq
  | pair a b rest ih =>
    intro s r h
    rcases hpair a b s with ⟨r', hq, hr⟩ | ⟨s1, hs1⟩
    · rw [hr] at h
      cases h
      exact hq
    · rw [hs1] at h
      exact ih s1 r h

/-- Dropping the property from the case split of a loop over pairs. -/
theorem pairLoop_forget {S E : Type} (L : List String → S → Except E S) (Q : E → Prop)
    (hpair : ∀ a b s, (∃ r, Q r ∧ ∀ rest, L (a :: b :: rest) s = Except.error r)
      ∨ (∃ s', ∀ rest, L (a :: b :: rest) s = L rest s')) :
    ∀ a b s, (∃ r, ∀ rest, L (a :: b :: rest) s = Except.error r)
      ∨ (∃ s', ∀ rest, L (a :: b :: rest) s = L rest s') := by
  intro a b s
  rcases hpair a b s with ⟨r, _, hr⟩ | h
  · exact Or.inl ⟨r, hr⟩
  · exact Or.inr h

/-! ## Lemmas on the option loop of the directory chooser -/

/-- One step of the option loop of the directory chooser either fails, with
no dialog, or continues from a new state. -/
theorem dir_options_pair (env : DirEnv) (a b : String) (s : DirVars) :
    (∃ r, (∃ interp, r = DirResult.failure interp)
        ∧ ∀ rest, Tk_ChooseDirectoryObjCmd.options env (a :: b :: rest) s = Except.error r)
    ∨ (∃ s', ∀ rest, Tk_ChooseDirectoryObjCmd.options env (a :: b :: rest) s
        = Tk_ChooseDirectoryObjCmd.options env rest s') := by
  cases hl : Tcl_GetIndexFromObjStruct dirOptionStrings false a with
  | none =>
    exact Or.inl ⟨_, ⟨_, rfl⟩, fun rest => by simp only [Tk_ChooseDirectoryObjCmd.options, hl]; rfl⟩
  | some idx =>
    by_cases h0 : idx = 0
    · cases ht : env.translateFileName b with
      | none =>
        exact Or.inl ⟨_, ⟨_, rfl⟩, fun rest => by
          simp only [Tk_ChooseDirectoryObjCmd.options, hl, h0, ht, if_true]; rfl⟩
      | some d =>
        refine Or.inr ⟨{ s with cdCBData := { s.cdCBData with initDir := env.getFullPathName d } },
          fun rest => ?_⟩
        simp only [Tk_ChooseDirectoryObjCmd.options, hl, h0, ht, if_true]
    by_cases h1 : idx = 1
    · cases hb : env.getBoolean b with
      | none =>
        exact Or.inl ⟨_, ⟨_, rfl⟩, fun rest => by
          simp [Tk_ChooseDirectoryObjCmd.options, hl, h1, hb]; rfl⟩
      | some m =>
        refine Or.inr ⟨{ s with cdCBData := { s.cdCBData with mustExist := m } },
          fun rest => ?_⟩
        simp [Tk_ChooseDirectoryObjCmd.options, hl, h1, hb]
    by_cases h2 : idx = 2
    · cases hw : env.nameToWindow b with
      | none =>
        exact Or.inl ⟨_, ⟨_, rfl⟩, fun rest => by
          simp [Tk_ChooseDirectoryObjCmd.options, hl, h2, hw]; rfl⟩
      | some w =>
        refine Or.inr ⟨{ s with tkwin := w }, fun rest => ?_⟩
        simp [Tk_ChooseDirectoryObjCmd.options, hl, h2, hw]
    · refine Or.inr ⟨{ s with utfTitle := some b }, fun rest => ?_⟩
      simp [Tk_ChooseDirectoryObjCmd.options, hl, h0, h1, h2]

/-- The option loop of the directory chooser fails on a last word without a
value. -/
theorem dir_options_single (env : DirEnv) (a : String) (s : DirVars) :
    ∃ r, (∃ interp, r = DirResult.failure interp)
      ∧ Tk_ChooseDirectoryObjCmd.options env [a] s = Except.error r := by
  cases hl : Tcl_GetIndexFromObjStruct dirOptionStrings false a with
  | none => exact ⟨_, ⟨_, rfl⟩, by simp only [Tk_ChooseDirectoryObjCmd.options, hl]; rfl⟩
  | some idx => exact ⟨_, ⟨_, rfl⟩, by simp only [Tk_ChooseDirectoryObjCmd.options, hl]; rfl⟩

/-! ## Lemmas on the option loop of the message box -/

/-- One step of the option loop of the message box either fails, with no
dialog, or continues from a new state. -/
theorem msg_options_pair (env : MsgBoxEnv) (tkwin : Window) (a b : String) (s : MsgBoxVars) :
    (∃ r, (∃ interp, r = MsgBoxResult.failure interp)
        ∧ ∀ rest, Tk_MessageBoxObjCmd.options env tkwin (a :: b :: rest) s = Except.error r)
    ∨ (∃ s', ∀ rest, Tk_MessageBoxObjCmd.options env tkwin (a :: b :: rest) s
        = Tk_MessageBoxObjCmd.options env tkwin rest s') := by
  cases hl : optionStrings.indexOf? a with
  | none =>
    exact Or.inl ⟨_, ⟨_, rfl⟩, fun rest => by simp only [Tk_MessageBoxObjCmd.options, hl]; rfl⟩
  | some idx =>
    by_cases h0 : idx = 0
    · by_cases hv : TkFindStateNumObj buttonMap b < 0
      · exact Or.inl ⟨_, ⟨_, rfl⟩, fun rest => by
          simp [Tk_MessageBoxObjCmd.options, hl, h0, hv]; rfl⟩
      · refine Or.inr ⟨{ s with defaultBtn := TkFindStateNumObj buttonMap b }, fun rest => ?_⟩
        simp [Tk_MessageBoxObjCmd.options, hl, h0, hv]
    by_cases h1 : idx = 1
    · refine Or.inr ⟨{ s with detailObj := some b }, fun rest => ?_⟩
      simp [Tk_MessageBoxObjCmd.options, hl, h1]
    by_cases h2 : idx = 2
    · by_cases hv : TkFindStateNumObj iconMap b < 0
      · exact Or.inl ⟨_, ⟨_, rfl⟩, fun rest => by
          simp [Tk_MessageBoxObjCmd.options, hl, h2, hv]; rfl⟩
      · refine Or.inr ⟨{ s with icon := TkFindStateNumObj iconMap b }, fun rest => ?_⟩
        simp [Tk_MessageBoxObjCmd.options, hl, h2, hv]
    by_cases h3 : idx = 3
    · refine Or.inr ⟨{ s with messageObj := some b }, fun rest => ?_⟩
      simp [Tk_MessageBoxObjCmd.options, hl, h3]
    by_cases h4 : idx = 4
    · cases hw : env.nameToWindow b with
      | none =>
        exact Or.inl ⟨_, ⟨_, rfl⟩, fun rest => by
          simp [Tk_MessageBoxObjCmd.options, hl, h4, hw]; rfl⟩
      | some w =>
        refine Or.inr ⟨{ s with parent := w }, fun rest => ?_⟩
        simp [Tk_MessageBoxObjCmd.options, hl, h4, hw]
    by_cases h5 : idx = 5
    · refine Or.inr ⟨{ s with titleObj := some b }, fun rest => ?_⟩
      simp [Tk_MessageBoxObjCmd.options, hl, h5]
    · by_cases hv : TkFindStateNumObj typeMap b < 0
      · exact Or.inl ⟨_, ⟨_, rfl⟩, fun rest => by
          simp [Tk_MessageBoxObjCmd.options, hl, h0, h1, h2, h3, h4, h5, hv]; rfl⟩
      · refine Or.inr ⟨{ s with type := TkFindStateNumObj typeMap b }, fun rest => ?_⟩
        simp [Tk_MessageBoxObjCmd.options, hl, h0, h1, h2, h3, h4, h5, hv]

/-- The option loop of the message box fails on a last word without a value. -/
theorem msg_options_single (env : MsgBoxEnv) (tkwin : Window) (a : String) (s : MsgBoxVars) :
    ∃ r, (∃ interp, r = MsgBoxResult.failure interp)
      ∧ Tk_MessageBoxObjCmd.options env tkwin [a] s = Except.error r := by
  by_cases h : optionStrings.contains a = true
  · exact ⟨_, ⟨_, rfl⟩, by simp only [Tk_MessageBoxObjCmd.options, h, if_true]; rfl⟩
  · exact ⟨_, ⟨_, rfl⟩, by simp only [Tk_MessageBoxObjCmd.options, h, if_false]; rfl⟩

/-! ## Lemmas on ParseOFNOptions -/

/-- One step of the option loop of ParseOFNOptions either fails or continues
from a new state. -/
theorem file_options_pair (env : ParseEnv) (options : List (String × FileOption))
    (a b : String) (s : Window × OFNOpts) :
    (∃ r, ∀ rest, ParseOFNOptions.loop env options (a :: b :: rest) s = Except.error r)
    ∨ (∃ s', ∀ rest, ParseOFNOptions.loop env options (a :: b :: rest) s
        = ParseOFNOptions.loop env options rest s') := by
  obtain ⟨tkwin, opts⟩ := s
  cases hl : Tcl_GetIndexFromObjStruct (options.map Prod.fst) false a with
  | none => exact Or.inl ⟨_, fun rest => by simp only [ParseOFNOptions.loop, hl]; rfl⟩
  | some idx =>
    cases hk : (options.getD idx ("", FileOption.FILE_DEFAULT)).2 with
    | FILE_DEFAULT =>
      exact Or.inr ⟨_, fun rest => by simp only [ParseOFNOptions.loop, hl, hk]; rfl⟩
    | FILE_TYPES =>
      exact Or.inr ⟨_, fun rest => by simp only [ParseOFNOptions.loop, hl, hk]; rfl⟩
    | FILE_INITDIR =>
      cases ht : env.translateFileName b with
      | none =>
        exact Or.inl ⟨_, fun rest => by simp only [ParseOFNOptions.loop, hl, hk, ht]; rfl⟩
      | some d =>
        exact Or.inr ⟨_, fun rest => by simp only [ParseOFNOptions.loop, hl, hk, ht]; rfl⟩
    | FILE_INITFILE =>
      cases ht : env.translateFileName b with
      | none =>
        exact Or.inl ⟨_, fun rest => by simp only [ParseOFNOptions.loop, hl, hk, ht]; rfl⟩
      | some d =>
        exact Or.inr ⟨_, fun rest => by simp only [ParseOFNOptions.loop, hl, hk, ht]; rfl⟩
    | FILE_PARENT =>
      cases hw : env.nameToWindow b with
      | none =>
        exact Or.inl ⟨_, fun rest => by simp only [ParseOFNOptions.loop, hl, hk, hw]; rfl⟩
      | some w =>
        exact Or.inr ⟨_, fun rest => by simp only [ParseOFNOptions.loop, hl, hk, hw]; rfl⟩
    | FILE_TITLE =>
      exact Or.inr ⟨_, fun rest => by simp only [ParseOFNOptions.loop, hl, hk]; rfl⟩
    | FILE_TYPEVARIABLE =>
      exact Or.inr ⟨_, fun rest => by simp only [ParseOFNOptions.loop, hl, hk]; rfl⟩
    | FILE_MULTIPLE =>
      cases hb : env.getBoolean b with
      | none =>
        exact Or.inl ⟨_, fun rest => by simp only [ParseOFNOptions.loop, hl, hk, hb]; rfl⟩
      | some m =>
        exact Or.inr ⟨_, fun rest => by simp only [ParseOFNOptions.loop, hl, hk, hb]; rfl⟩
    | FILE_CONFIRMOW =>
      cases hb : env.getBoolean b with
      | none =>
        exact Or.inl ⟨_, fun rest => by simp only [ParseOFNOptions.loop, hl, hk, hb]; rfl⟩
      | some m =>
        exact Or.inr ⟨_, fun rest => by simp only [ParseOFNOptions.loop, hl, hk, hb]; rfl⟩

/-- The option loop of ParseOFNOptions fails on a last word without a value. -/
theorem file_options_single (env : ParseEnv) (options : List (String × FileOption))
    (a : String) (s : Window × OFNOpts) :
    ∃ r, ParseOFNOptions.loop env options [a] s = Except.error r := by
  cases hl : Tcl_GetIndexFromObjStruct (options.map Prod.fst) false a with
  | none => exact ⟨_, by simp only [ParseOFNOptions.loop, hl]; rfl⟩
  | some idx => exact ⟨_, by simp only [ParseOFNOptions.loop, hl]; rfl⟩

/-- The name of the entry at an index of an option table. -/
theorem getD_map_fst (options : List (String × FileOption)) (i : Nat) :
    (options.map Prod.fst).getD i "" = (options.getD i ("", FileOption.FILE_DEFAULT)).1 := by
  induction options generalizing i with
  | nil => rfl
  | cons x xs ih =>
    cases i with
    | zero => rfl
    | succ j =>
      simp only [List.map_cons, List.getD_cons_succ]
      exact ih j

/-- A name of the table, as last word, gets the message for a missing value. -/
theorem file_options_missing (env : ParseEnv) (options : List (String × FileOption))
    (opt : String) (s : Window × OFNOpts) (h : opt ∈ options.map Prod.fst) :
    ParseOFNOptions.loop env options [opt] s
      = Except.error
          { result := TclValue.str ("value for \"" ++ opt ++ "\" missing").toList,
            errorCode := ["TK", "FILEDIALOG", "VALUE"] } := by
  obtain ⟨i, hi, _, hname⟩ := lookup_of_mem (options.map Prod.fst) false opt h
  rw [getD_map_fst] at hname
  simp only [ParseOFNOptions.loop, hi, hname]

/-- A name of the table, as last word, gets the message for a missing value. -/
theorem dir_options_missing (env : DirEnv) (opt : String) (s : DirVars)
    (h : opt ∈ dirOptionStrings) :
    Tk_ChooseDirectoryObjCmd.options env [opt] s
      = Except.error (DirResult.failure
          { result := TclValue.str ("value for \"" ++ opt ++ "\" missing").toList,
            errorCode := ["TK", "DIRDIALOG", "VALUE"] }) := by
  obtain ⟨i, hi, _, _⟩ := lookup_of_mem dirOptionStrings false opt h
  simp only [Tk_ChooseDirectoryObjCmd.options, hi]

/-- A name of the table, as last word, gets the message for a missing value. -/
theorem msg_options_missing (env : MsgBoxEnv) (tkwin : Window) (opt : String) (s : MsgBoxVars)
    (h : opt ∈ optionStrings) :
    Tk_MessageBoxObjCmd.options env tkwin [opt] s
      = Except.error (MsgBoxResult.failure
          { result := TclValue.str ("value for \"" ++ opt ++ "\" missing").toList,
            errorCode := ["TK", "MSGBOX", "VALUE"] }) := by
  have hc : optionStrings.contains opt = true := by simpa using h
  simp only [Tk_MessageBoxObjCmd.options, hc, if_true]

/-- A word that does not resolve in the table of ParseOFNOptions fails the loop. -/
theorem file_options_unknown (env : ParseEnv) (options : List (String × FileOption))
    (args : List String) (i : Nat) (s : Window × OFNOpts) (hi : i < args.length)
    (heven : i % 2 = 0)
    (hbad : resolves (options.map Prod.fst) false (args.getD i "") = false) :
    ∃ r, ParseOFNOptions.loop env options args s = Except.error r := by
  refine pairLoop_unknown (ParseOFNOptions.loop env options)
    (fun w => Tcl_GetIndexFromObjStruct (options.map Prod.fst) false w = none)
    ?_ ?_ (file_options_pair env options) args i s hi heven
    ((lookup_eq_none_iff _ _ _).mpr hbad)
  · intro a s hb
    exact ⟨_, by simp only [ParseOFNOptions.loop, hb]; rfl⟩
  · intro a b rest s hb
    obtain ⟨tkwin, opts⟩ := s
    exact ⟨_, by simp only [ParseOFNOptions.loop, hb]; rfl⟩

/-- A word that does not resolve in the table of the directory chooser fails
the loop, with no dialog. -/
theorem dir_options_unknown (env : DirEnv) (args : List String) (i : Nat) (s : DirVars)
    (hi : i < args.length) (heven : i % 2 = 0)
    (hbad : resolves dirOptionStrings false (args.getD i "") = false) :
    ∃ interp, Tk_ChooseDirectoryObjCmd.options env args s
      = Except.error (DirResult.failure interp) := by
  obtain ⟨r, hr⟩ := pairLoop_unknown (Tk_ChooseDirectoryObjCmd.options env)
    (fun w => Tcl_GetIndexFromObjStruct dirOptionStrings false w = none)
    (fun a s hb => ⟨_, by simp only [Tk_ChooseDirectoryObjCmd.options, hb]; rfl⟩)
    (fun a b rest s hb => ⟨_, by simp only [Tk_ChooseDirectoryObjCmd.options, hb]; rfl⟩)
    (pairLoop_forget _ _ (dir_options_pair env)) args i s hi heven
    ((lookup_eq_none_iff _ _ _).mpr hbad)
  obtain ⟨interp, hq⟩ := pairLoop_errors (Tk_ChooseDirectoryObjCmd.options env)
    (fun r => ∃ interp, r = DirResult.failure interp) (fun s => rfl)
    (dir_options_single env) (dir_options_pair env) args s r hr
  exact ⟨interp, by rw [hr, hq]⟩

/-- A word that is not an option name of the message box fails the loop, with
no dialog. -/
theorem msg_options_unknown (env : MsgBoxEnv) (tkwin : Window) (args : List String) (i : Nat)
    (s : MsgBoxVars) (hi : i < args.length) (heven : i % 2 = 0)
    (hbad : args.getD i "" ∉ optionStrings) :
    ∃ interp, Tk_MessageBoxObjCmd.options env tkwin args s
      = Except.error (MsgBoxResult.failure interp) := by
  obtain ⟨r, hr⟩ := pairLoop_unknown (Tk_MessageBoxObjCmd.options env tkwin)
    (fun w => w ∉ optionStrings)
    (fun a s hb => by
      have hc : optionStrings.contains a = false := by simpa using hb
      exact ⟨_, by simp only [Tk_MessageBoxObjCmd.options, hc]; rfl⟩)
    (fun a b rest s hb => by
      have hc : optionStrings.indexOf? a = none := (indexOf?_eq_none_iff _ _).mpr hb
      exact ⟨_, by simp only [Tk_MessageBoxObjCmd.options, hc]; rfl⟩)
    (pairLoop_forget _ _ (msg_options_pair env tkwin)) args i s hi heven hbad
  obtain ⟨interp, hq⟩ := pairLoop_errors (Tk_MessageBoxObjCmd.options env tkwin)
    (fun r => ∃ interp, r = MsgBoxResult.failure interp) (fun s => rfl)
    (msg_options_single env tkwin) (msg_options_pair env tkwin) args s r hr
  exact ⟨interp, by rw [hr, hq]⟩

/-! ## Lemmas on the steps of StdinProc -/

/-- A text that ends in a newline is not empty. -/
theorem append_newline_ne_empty (a : String) : a ++ "\n" ≠ "" := by
  intro h
  have hl := congrArg String.length h
  rw [String.length_append] at hl
  have h1 : "\n".length = 1 := by decide
  have h0 : "".length = 0 := by decide
  omega

/-- Past the end-of-input test StdinProc is the accumulation of the line read. -/
theorem StdinProc_past_eof {σ : Type} (I : Interp σ) (s : σ) (isPtr : InteractiveState)
    (count : Int) (got : String) (h : ¬ (count < 0 ∧ isPtr.gotPartial = false)) :
    StdinProc I s isPtr count got
      = StdinProc.accumulate I s { isPtr with line := isPtr.line ++ got } := by
  unfold StdinProc
  simp only [h, if_false]

/-- The accumulation of a line that completes the command. -/
theorem accumulate_complete {σ : Type} (I : Interp σ) (s : σ) (isPtr : InteractiveState)
    (h : I.commandComplete (isPtr.command ++ isPtr.line ++ "\n") = true) :
    StdinProc.accumulate I s isPtr
      = StdinProc.promptTail I (I.recordAndEval s (isPtr.command ++ isPtr.line ++ "\n")).1
          { isPtr with
              command := "", line := "", gotPartial := false,
              input := I.getStdChannel
                (I.recordAndEval s (isPtr.command ++ isPtr.line ++ "\n")).1 StdId.stdin }
          ([Action.createChannelHandler isPtr.input 0,
            Action.recordAndEval (isPtr.command ++ isPtr.line ++ "\n")]
            ++ (match I.getStdChannel
                  (I.recordAndEval s (isPtr.command ++ isPtr.line ++ "\n")).1 StdId.stdin with
                | some c => [Action.createChannelHandler (some c) TCL_READABLE]
                | none => [])
            ++ StdinProc.report I (I.recordAndEval s (isPtr.command ++ isPtr.line ++ "\n")).1
                (I.recordAndEval s (isPtr.command ++ isPtr.line ++ "\n")).2 isPtr.tty) := by
  unfold StdinProc.accumulate
  simp only [h, Bool.not_true, Bool.false_eq_true, if_false]

/-- The trace and the interpreter that the end of StdinProc leaves. -/
theorem promptTail_trace {σ : Type} (I : Interp σ) (s : σ) (isPtr : InteractiveState)
    (done : List Action) :
    (isPtr.tty = true ∧ isPtr.input ≠ none →
      (StdinProc.promptTail I s isPtr done).trace
          = done ++ (Prompt I s isPtr).2 ++ [Action.resetResult]
        ∧ (StdinProc.promptTail I s isPtr done).interp = I.resetResult (Prompt I s isPtr).1)
    ∧ (¬ (isPtr.tty = true ∧ isPtr.input ≠ none) →
      (StdinProc.promptTail I s isPtr done).trace = done ++ [Action.resetResult]
        ∧ (StdinProc.promptTail I s isPtr done).interp = I.resetResult s) := by
  unfold StdinProc.promptTail
  constructor
  · intro h
    rw [if_pos h]
    exact ⟨rfl, rfl⟩
  · intro h
    rw [if_neg h]
    exact ⟨rfl, rfl⟩

/-- The output of a result: two writes to the target channel, or nothing. -/
theorem report_cases {σ : Type} (I : Interp σ) (s : σ) (code : Int) (tty : Bool) :
    (∀ chan, I.getObjResult s ≠ "" → (code ≠ TCL_OK ∨ tty = true) →
        I.getStdChannel s (if code ≠ TCL_OK then StdId.stderr else StdId.stdout) = some chan →
        StdinProc.report I s code tty
          = [Action.writeObj chan (I.getObjResult s), Action.writeChars chan "\n"])
    ∧ (¬ (I.getObjResult s ≠ "" ∧ (code ≠ TCL_OK ∨ tty = true)
          ∧ I.getStdChannel s (if code ≠ TCL_OK then StdId.stderr else StdId.stdout) ≠ none) →
        StdinProc.report I s code tty = []) := by
  unfold StdinProc.report
  constructor
  · intro chan h1 h2 h3
    rw [if_pos h1, if_pos h2, h3]
  · intro h
    by_cases h1 : I.getObjResult s ≠ ""
    · rw [if_pos h1]
      by_cases h2 : code ≠ TCL_OK ∨ tty = true
      · rw [if_pos h2]
        cases h3 : I.getStdChannel s (if code ≠ TCL_OK then StdId.stderr else StdId.stdout) with
        | none => rfl
        | some c => exact absurd ⟨h1, h2, by rw [h3]; simp⟩ h
      · rw [if_neg h2]
    · rw [if_neg h1]

/-- The handler masks after two traces in a row. -/
theorem handlerMasks_append (a b : List Action) :
    ∀ masks, handlerMasks masks (a ++ b) = handlerMasks (handlerMasks masks a) b := by
  induction a with
  | nil => intro masks; rfl
  | cons x xs ih =>
    intro masks
    cases x <;> simp only [List.cons_append, handlerMasks] <;> exact ih _

/-- A trace without registration calls leaves the masks as they are. -/
theorem handlerMasks_of_quiet (l : List Action) (h : l.all (fun a => !registers a) = true) :
    ∀ masks, handlerMasks masks l = masks := by
  induction l with
  | nil => intro masks; rfl
  | cons x xs ih =>
    intro masks
    simp only [List.all_cons, Bool.and_eq_true] at h
    obtain ⟨h1, h2⟩ := h
    cases x <;> first
      | (simp only [handlerMasks]; exact ih h2 masks)
      | (simp [registers] at h1)

/-- The output of a result holds no registration call. -/
theorem report_quiet {σ : Type} (I : Interp σ) (s : σ) (code : Int) (tty : Bool) :
    (StdinProc.report I s code tty).all (fun a => !registers a) = true := by
  unfold StdinProc.report
  split
  · split
    · split <;> rfl
    · rfl
  · rfl

/-- A prompt holds no registration call. -/
theorem Prompt_quiet {σ : Type} (I : Interp σ) (s : σ) (isPtr : InteractiveState) :
    (Prompt I s isPtr).2.all (fun a => !registers a) = true := by
  have hd : ∀ s', (Prompt.defaultPrompt I s' isPtr).all (fun a => !registers a) = true := by
    intro s'
    unfold Prompt.defaultPrompt
    split
    · split <;> rfl
    · rfl
  have hf : ∀ s', (Prompt.flushStdout I s').all (fun a => !registers a) = true := by
    intro s'
    unfold Prompt.flushStdout
    split <;> rfl
  unfold Prompt
  split
  · simp only [List.all_append, hd, hf, Bool.and_self]
  · dsimp only
    split
    · simp only [List.all_append, hd, hf, Bool.and_true]
      split
      · split <;> rfl
      · rfl
    · simp only [List.all_append, hf, Bool.and_true]
      rfl

/-- The output of a result registers nothing. -/
theorem handlerMasks_report {σ : Type} (I : Interp σ) (s : σ) (code : Int) (tty : Bool)
    (masks : Option Channel → Nat) :
    handlerMasks masks (StdinProc.report I s code tty) = masks :=
  handlerMasks_of_quiet _ (report_quiet I s code tty) masks

/-- A prompt registers nothing. -/
theorem handlerMasks_Prompt {σ : Type} (I : Interp σ) (s : σ) (isPtr : InteractiveState)
    (masks : Option Channel → Nat) :
    handlerMasks masks (Prompt I s isPtr).2 = masks :=
  handlerMasks_of_quiet _ (Prompt_quiet I s isPtr) masks

/-- The end of StdinProc registers nothing. -/
theorem handlerMasks_promptTail {σ : Type} (I : Interp σ) (s : σ) (isPtr : InteractiveState)
    (done : List Action) (masks : Option Channel → Nat) :
    handlerMasks masks (StdinProc.promptTail I s isPtr done).trace
      = handlerMasks masks done := by
  unfold StdinProc.promptTail
  split
  · simp only [handlerMasks_append, handlerMasks_Prompt, handlerMasks]
  · simp only [handlerMasks_append, handlerMasks]

/-- A step of StdinProc keeps the buffer empty unless a command is pending. -/
theorem StdinProc_keeps_invariant {σ : Type} (I : Interp σ) (s : σ) (isPtr : InteractiveState)
    (count : Int) (got : String)
    (hinv : isPtr.command ≠ "" → isPtr.gotPartial = true) :
    (StdinProc I s isPtr count got).state.command ≠ "" →
      (StdinProc I s isPtr count got).state.gotPartial = true := by
  by_cases hstep : count < 0 ∧ isPtr.gotPartial = false
  · unfold StdinProc
    simp only [hstep, and_self, if_true]
    split <;> (intro h; have h2 := hinv h; rw [hstep.2] at h2; exact h2)
  · rw [StdinProc_past_eof I s isPtr count got hstep]
    cases hc : I.commandComplete (isPtr.command ++ (isPtr.line ++ got) ++ "\n") with
    | false =>
      rw [accumulate_incomplete_state I s _ hc]
      intro _
      rfl
    | true =>
      rw [accumulate_complete_state I s _ hc]
      intro h
      exact absurd rfl h

/-- Every state of a run keeps the buffer empty unless a command is pending. -/
theorem runEvents_invariant {σ : Type} (I : Interp σ) (events : List (ReadEvent σ)) :
    ∀ isPtr : InteractiveState, (isPtr.command ≠ "" → isPtr.gotPartial = true) →
      ∀ o ∈ runEvents I isPtr events, o.state.command ≠ "" → o.state.gotPartial = true := by
  induction events with
  | nil =>
    intro isPtr _ o ho
    simp [runEvents] at ho
  | cons e es ih =>
    intro isPtr hinv o ho
    simp only [runEvents, List.mem_cons] at ho
    rcases ho with rfl | ho
    · exact StdinProc_keeps_invariant I e.interp isPtr e.count e.got hinv
    · split at ho
      · simp at ho
      · exact ih _ (StdinProc_keeps_invariant I e.interp isPtr e.count e.got hinv) o ho

/-! ## Lemmas on the dialog latch -/

/-- Once the latch says to use the old dialogs, every invocation returns
`TCL_CONTINUE` without a call and leaves the latch as it is. -/
theorem runVista_old (invocations : List (FileDialogEnv × Bool)) :
    (runVista FdlgState.USE_OLD invocations).length = invocations.length
    ∧ ∀ r ∈ runVista FdlgState.USE_OLD invocations,
        r.result = Except.ok { code := TCL_CONTINUE, useNewFileDialogs := FdlgState.USE_OLD,
                               shown := false }
        ∧ r.calls = [] := by
  induction invocations with
  | nil => exact ⟨rfl, fun r hr => by simp [runVista] at hr⟩
  | cons x xs ih =>
    obtain ⟨env, isOpen⟩ := x
    have h : runVista FdlgState.USE_OLD ((env, isOpen) :: xs)
        = { result := Except.ok { code := TCL_CONTINUE,
                                  useNewFileDialogs := FdlgState.USE_OLD, shown := false },
            calls := [] } :: runVista FdlgState.USE_OLD xs := rfl
    rw [h]
    refine ⟨by simp [ih.1], ?_⟩
    intro r hr
    rcases List.mem_cons.mp hr with rfl | hr
    · exact ⟨rfl, rfl⟩
    · exact ih.2 r hr

/-- Once the latch says to use the new dialogs, every invocation that returns
leaves the latch as it is. -/
theorem runVista_new (invocations : List (FileDialogEnv × Bool)) :
    ∀ r ∈ runVista FdlgState.USE_NEW invocations, ∀ v, r.result = Except.ok v →
      v.useNewFileDialogs = FdlgState.USE_NEW := by
  induction invocations with
  | nil => intro r hr; simp [runVista] at hr
  | cons x xs ih =>
    obtain ⟨env, isOpen⟩ := x
    intro r hr v hv
    by_cases hc : env.coCreateInstance isOpen = true
    · have h : runVista FdlgState.USE_NEW ((env, isOpen) :: xs)
          = { result := Except.ok { code := TCL_OK, useNewFileDialogs := FdlgState.USE_NEW,
                                    shown := true },
              calls := GetFileNameVista.calls
                { env with useNewFileDialogs := FdlgState.USE_NEW } isOpen }
            :: runVista FdlgState.USE_NEW xs := by
        simp [runVista, GetFileNameVista, hc]
      rw [h] at hr
      rcases List.mem_cons.mp hr with rfl | hr
      · cases hv
        rfl
      · exact ih r hr v hv
    · have h : runVista FdlgState.USE_NEW ((env, isOpen) :: xs)
          = [{ result := Except.error Fault.nullDeref,
               calls := GetFileNameVista.calls
                { env with useNewFileDialogs := FdlgState.USE_NEW } isOpen }] := by
        simp [runVista, GetFileNameVista, hc]
      rw [h] at hr
      rcases List.mem_singleton.mp hr with rfl
      cases hv

/-- The first invocation returns and leaves the latch set. -/
theorem runVista_first (env : FileDialogEnv) (isOpen : Bool)
    (rest : List (FileDialogEnv × Bool)) :
    ∃ v, GetFileNameVista { env with useNewFileDialogs := FdlgState.INIT } isOpen = Except.ok v
      ∧ v.useNewFileDialogs ≠ FdlgState.INIT
      ∧ (v.useNewFileDialogs = FdlgState.USE_OLD
          ↔ (env.coInitialize = false ∨ env.coCreateInstance isOpen = false))
      ∧ runVista FdlgState.INIT ((env, isOpen) :: rest)
          = { result := Except.ok v,
              calls := GetFileNameVista.calls
                { env with useNewFileDialogs := FdlgState.INIT } isOpen }
            :: runVista v.useNewFileDialogs rest := by
  cases hi : env.coInitialize <;> cases hc : env.coCreateInstance isOpen <;>
    exact ⟨_, by simp [GetFileNameVista, hi, hc]; rfl, by simp,
      by simp [hi, hc], by simp [runVista, GetFileNameVista, hi, hc]⟩

/-! ## Lemmas on the tables of the message box -/

/-- The number `TkFindStateNumObj` returns is that of an entry or of the
terminating entry. -/
theorem TkFindStateNumObj_mem (mapPtr : TkStateMap) (key : String) :
    TkFindStateNumObj mapPtr key = mapPtr.endKey
      ∨ TkFindStateNumObj mapPtr key ∈ mapPtr.numKeys := by
  unfold TkFindStateNumObj
  cases h : mapPtr.entries.find? (fun e => e.2 == key) with
  | none => exact Or.inl rfl
  | some e =>
    right
    exact List.mem_map.mpr ⟨e, List.mem_of_find?_eq_some h, rfl⟩

/-- The search for the default button ends in the error or at one of the
positions 0, 1 and 2. -/
theorem defaultIndex_range :
    ∀ T ∈ typeMap.numKeys, ∀ B ∈ buttonMap.numKeys,
      Tk_MessageBoxObjCmd.defaultIndex T B allowedTypes ∈ [none, some 0, some 1, some 2] := by
  decide

/-- Every type of the table `typeMap` has an entry in `allowedTypes`. -/
theorem type_listed : ∀ T ∈ typeMap.numKeys, T ∈ allowedTypes.map (fun a => a.type) := by
  decide

/-- One step of the option loop of the message box keeps the type among those
of `typeMap` and the default button unset or among those of `buttonMap`. -/
theorem msg_options_pair_inv (env : MsgBoxEnv) (tkwin : Window) (a b : String)
    (s : MsgBoxVars)
    (hs : s.type ∈ typeMap.numKeys ∧ (s.defaultBtn < 0 ∨ s.defaultBtn ∈ buttonMap.numKeys)) :
    (∃ r, ∀ rest, Tk_MessageBoxObjCmd.options env tkwin (a :: b :: rest) s = Except.error r)
    ∨ (∃ s', (s'.type ∈ typeMap.numKeys
          ∧ (s'.defaultBtn < 0 ∨ s'.defaultBtn ∈ buttonMap.numKeys))
        ∧ ∀ rest, Tk_MessageBoxObjCmd.options env tkwin (a :: b :: rest) s
            = Tk_MessageBoxObjCmd.options env tkwin rest s') := by
  cases hl : optionStrings.indexOf? a with
  | none =>
    exact Or.inl ⟨_, fun rest => by simp only [Tk_MessageBoxObjCmd.options, hl]; rfl⟩
  | some idx =>
    by_cases h0 : idx = 0
    · by_cases hv : TkFindStateNumObj buttonMap b < 0
      · exact Or.inl ⟨_, fun rest => by
          simp [Tk_MessageBoxObjCmd.options, hl, h0, hv]; rfl⟩
      · refine Or.inr ⟨{ s with defaultBtn := TkFindStateNumObj buttonMap b }, ⟨hs.1, ?_⟩,
          fun rest => ?_⟩
        · right
          rcases TkFindStateNumObj_mem buttonMap b with h | h
          · exact absurd (by rw [h]; decide) hv
          · exact h
        · simp [Tk_MessageBoxObjCmd.options, hl, h0, hv]
    by_cases h1 : idx = 1
    · refine Or.inr ⟨{ s with detailObj := some b }, hs, fun rest => ?_⟩
      simp [Tk_MessageBoxObjCmd.options, hl, h1]
    by_cases h2 : idx = 2
    · by_cases hv : TkFindStateNumObj iconMap b < 0
      · exact Or.inl ⟨_, fun rest => by
          simp [Tk_MessageBoxObjCmd.options, hl, h2, hv]; rfl⟩
      · refine Or.inr ⟨{ s with icon := TkFindStateNumObj iconMap b }, hs, fun rest => ?_⟩
        simp [Tk_MessageBoxObjCmd.options, hl, h2, hv]
    by_cases h3 : idx = 3
    · refine Or.inr ⟨{ s with messageObj := some b }, hs, fun rest => ?_⟩
      simp [Tk_MessageBoxObjCmd.options, hl, h3]
    by_cases h4 : idx = 4
    · cases hw : env.nameToWindow b with
      | none =>
        exact Or.inl ⟨_, fun rest => by
          simp [Tk_MessageBoxObjCmd.options, hl, h4, hw]; rfl⟩
      | some w =>
        refine Or.inr ⟨{ s with parent := w }, hs, fun rest => ?_⟩
        simp [Tk_MessageBoxObjCmd.options, hl, h4, hw]
    by_cases h5 : idx = 5
    · refine Or.inr ⟨{ s with titleObj := some b }, hs, fun rest => ?_⟩
      simp [Tk_MessageBoxObjCmd.options, hl, h5]
    · by_cases hv : TkFindStateNumObj typeMap b < 0
      · exact Or.inl ⟨_, fun rest => by
          simp [Tk_MessageBoxObjCmd.options, hl, h0, h1, h2, h3, h4, h5, hv]; rfl⟩
      · refine Or.inr ⟨{ s with type := TkFindStateNumObj typeMap b }, ⟨?_, hs.2⟩,
          fun rest => ?_⟩
        · rcases TkFindStateNumObj_mem typeMap b with h | h
          · exact absurd (by rw [h]; decide) hv
          · exact h
        · simp [Tk_MessageBoxObjCmd.options, hl, h0, h1, h2, h3, h4, h5, hv]

/-- The variables the option loop of the message box ends with have a type of
`typeMap` and a default button that is unset or of `buttonMap`. -/
theorem msg_options_inv (env : MsgBoxEnv) (tkwin : Window) :
    ∀ (args : List String) (s s' : MsgBoxVars),
      (s.type ∈ typeMap.numKeys ∧ (s.defaultBtn < 0 ∨ s.defaultBtn ∈ buttonMap.numKeys)) →
      Tk_MessageBoxObjCmd.options env tkwin args s = Except.ok s' →
      s'.type ∈ typeMap.numKeys ∧ (s'.defaultBtn < 0 ∨ s'.defaultBtn ∈ buttonMap.numKeys) := by
  intro args
  induction args using pairs_induction with
  | nil =>
    intro s s' hs h
    cases h
    exact hs
  | single a =>
    intro s s' _ h
    obtain ⟨r, _, hr⟩ := msg_options_single env tkwin a s
    rw [hr] at h
    cases h
  | pair a b rest ih =>
    intro s s' hs h
    rcases msg_options_pair_inv env tkwin a b s hs with ⟨r, hr⟩ | ⟨s1, hs1, hstep⟩
    · rw [hr] at h
      cases h
    · rw [hstep] at h
      exact ih s1 s' hs1 h

/-- With a type of `typeMap` and a default button of `buttonMap`, or none,
the code after the option loop makes no lookup outside `buttonFlagMap`. -/
theorem finish_safe (env : MsgBoxEnv) (vars : MsgBoxVars)
    (hT : vars.type ∈ typeMap.numKeys)
    (hB : vars.defaultBtn < 0 ∨ vars.defaultBtn ∈ buttonMap.numKeys) :
    ∃ r, Tk_MessageBoxObjCmd.finish env vars = Except.ok r := by
  by_cases hd : 0 ≤ vars.defaultBtn
  · have hB2 : vars.defaultBtn ∈ buttonMap.numKeys := by
      rcases hB with h | h
      · omega
      · exact h
    have hr := defaultIndex_range vars.type hT vars.defaultBtn hB2
    simp only [List.mem_cons, List.mem_singleton, List.not_mem_nil, or_false] at hr
    rcases hr with h | h | h | h
    · exact ⟨_, finish_unlisted env vars hd h⟩
    · obtain ⟨r, hr, _⟩ := finish_listed env vars 0 MB_DEFBUTTON1 hd h rfl
      exact ⟨r, hr⟩
    · obtain ⟨r, hr, _⟩ := finish_listed env vars 1 MB_DEFBUTTON2 hd h rfl
      exact ⟨r, hr⟩
    · obtain ⟨r, hr, _⟩ := finish_listed env vars 2 MB_DEFBUTTON3 hd h rfl
      exact ⟨r, hr⟩
  · unfold Tk_MessageBoxObjCmd.finish
    simp only [ge_iff_le, hd, if_false]
    exact ⟨_, rfl⟩

/-! ## Lemmas on MulDiv -/

/-- `MulDiv` on numbers that are not negative, when the result fits. -/
theorem MulDiv_nonneg (a b c : Int) (ha : 0 ≤ a) (hb : 0 ≤ b) (hc : 0 < c)
    (hfit : (a * b + c / 2) / c ≤ 2147483647) : MulDiv a b c = (a * b + c / 2) / c := by
  have hprod : 0 ≤ a * b := Int.mul_nonneg ha hb
  have hq : 0 ≤ (a * b + c / 2) / c :=
    Int.ediv_nonneg (by have : 0 ≤ c / 2 := Int.ediv_nonneg hc.le (by decide); omega) hc.le
  unfold MulDiv
  have h1 : ¬ c = 0 := by omega
  have h2 : ¬ c < 0 := by omega
  simp only [h1, h2, if_false, hprod, if_true]
  rw [if_neg]
  omega

/-- `MulDiv` on a negated first argument, when the result fits. -/
theorem MulDiv_neg (a b c : Int) (ha : 0 ≤ a) (hb : 0 ≤ b) (hc : 0 < c)
    (hfit : (a * b + c / 2) / c ≤ 2147483647) : MulDiv (-a) b c = -((a * b + c / 2) / c) := by
  have hprod : 0 ≤ a * b := Int.mul_nonneg ha hb
  have hc2 : 0 ≤ c / 2 := Int.ediv_nonneg hc.le (by decide)
  have hq : 0 ≤ (a * b + c / 2) / c := Int.ediv_nonneg (by omega) hc.le
  unfold MulDiv
  have h1 : ¬ c = 0 := by omega
  have h2 : ¬ c < 0 := by omega
  simp only [h1, h2, if_false]
  have hneg : -a * b = -(a * b) := by ring
  rw [hneg]
  by_cases h0 : a * b = 0
  · rw [h0]
    simp only [neg_zero, le_refl, if_true, zero_add]
    have hz : c / 2 / c = 0 := Int.ediv_eq_zero_of_lt hc2 (by omega)
    rw [hz]
    simp
  · have hpos : ¬ (0 ≤ -(a * b)) := by omega
    simp only [hpos, if_false, neg_neg]
    rw [if_neg]
    omega

/-- Rounding to a height and back, on a size that is not negative. -/
theorem round_trip_nat (n d : Int) (hd : 72 ≤ d) :
    (((n * d + 36) / 72) * 72 + d / 2) / d = n := by
  have hdpos : 0 < d := by omega
  generalize hm : n * d = m
  have h1 : ((m + 36) / 72) * 72 ≤ m + 36 := by omega
  have h2 : m + 36 < ((m + 36) / 72) * 72 + 72 := by omega
  apply Int.le_antisymm
  · have : (((m + 36) / 72) * 72 + d / 2) / d < n + 1 := by
      apply Int.ediv_lt_of_lt_mul hdpos
      have : (n + 1) * d = m + d := by rw [← hm]; ring
      rw [this]
      by_cases h72 : d = 72
      · subst h72
        have : m = n * 72 := hm.symm
        omega
      · omega
    omega
  · apply Int.le_ediv_of_mul_le hdpos
    rw [hm]
    omega

/-- The rounded height is at least the size when the resolution is at least 72. -/
theorem height_ge_size (n d : Int) (hn : 0 ≤ n) (hd : 72 ≤ d) : n ≤ (n * d + 36) / 72 := by
  apply Int.le_ediv_of_mul_le (by decide)
  have : n * 72 ≤ n * d := Int.mul_le_mul_of_nonneg_left hd hn
  omega

/-- The size that `GetFontObj` reads back from the height FontchooserShowCmd
stores, for a size that is not negative. -/
theorem round_trip_nonneg (n d : Int) (hn : 0 ≤ n) (hd : 72 ≤ d)
    (hfit : (n * d + 36) / 72 ≤ 2147483647) :
    -MulDiv (-MulDiv n d 72) 72 d = n ∧ -MulDiv (-MulDiv (-n) d 72) 72 d = -n := by
  have hd0 : (0 : Int) ≤ d := by omega
  have h36 : (72 : Int) / 2 = 36 := by decide
  have hge := height_ge_size n d hn hd
  have hh : 0 ≤ (n * d + 36) / 72 := by omega
  have hrt := round_trip_nat n d hd
  have hfit1 : (n * d + (72 : Int) / 2) / 72 ≤ 2147483647 := by rw [h36]; exact hfit
  have hfit2 : ((n * d + 36) / 72 * 72 + d / 2) / d ≤ 2147483647 := by rw [hrt]; omega
  have e1 : MulDiv n d 72 = (n * d + 36) / 72 := by
    rw [MulDiv_nonneg n d 72 hn hd0 (by decide) hfit1, h36]
  have e2 : MulDiv (-n) d 72 = -((n * d + 36) / 72) := by
    rw [MulDiv_neg n d 72 hn hd0 (by decide) hfit1, h36]
  have e3 : MulDiv (-((n * d + 36) / 72)) 72 d = -n := by
    rw [MulDiv_neg _ 72 d hh (by decide) (by omega) hfit2, hrt]
  have e4 : MulDiv ((n * d + 36) / 72) 72 d = n := by
    rw [MulDiv_nonneg _ 72 d hh (by decide) (by omega) hfit2, hrt]
  constructor
  · rw [e1, e3, neg_neg]
  · rw [e2, neg_neg, e4]

/-! ## Lemmas on the unquoting loop of OFNHookProc -/

/-- Reading the element right after a prefix. -/
theorem get?_append_length {α : Type} (a : List α) (x : α) (b : List α) :
    (a ++ x :: b).get? a.length = some x := by
  induction a with
  | nil => rfl
  | cons y ys ih => simpa using ih

/-- Replacing the element right after a prefix. -/
theorem set_append_length {α : Type} (a : List α) (x y : α) (b : List α) :
    (a ++ x :: b).set a.length y = a ++ y :: b := by
  induction a with
  | nil => rfl
  | cons z zs ih => simp [ih]

/-- An iteration that looks for a quote steps over a character. -/
theorem iteration_skip (pre out gar rem post : List Char) (c : Char) (stores : List Nat)
    (hc : c ≠ NUL) :
    OFNHookProc.iteration (OFNHookProc.view pre out gar (c :: rem) post true stores)
      = Except.ok (some (OFNHookProc.view pre out (gar ++ [c]) rem post
          (if c = '"' then false else true) stores)) := by
  have hget : (pre ++ (out ++ (gar ++ (c :: rem ++ NUL :: post)))).get?
      (pre.length + out.length + gar.length) = some c := by
    have := get?_append_length (pre ++ out ++ gar) c (rem ++ NUL :: post)
    simpa [List.append_assoc, Nat.add_assoc] using this
  simp only [OFNHookProc.iteration, OFNHookProc.view, hget, hc, if_false, if_true]
  simp [Nat.add_assoc]

/-- An iteration inside a name copies a character to the output. -/
theorem iteration_copy (pre out gs rem post : List Char) (g c : Char) (stores : List Nat)
    (hc : c ≠ NUL) (hq : c ≠ '"') :
    OFNHookProc.iteration (OFNHookProc.view pre out (g :: gs) (c :: rem) post false stores)
      = Except.ok (some (OFNHookProc.view pre (out ++ [c]) (gs ++ [c]) rem post false
          (stores ++ [pre.length + out.length]))) := by
  have hget : (pre ++ (out ++ (g :: gs ++ (c :: rem ++ NUL :: post)))).get?
      (pre.length + out.length + (g :: gs).length) = some c := by
    have := get?_append_length (pre ++ out ++ (g :: gs)) c (rem ++ NUL :: post)
    simpa [List.append_assoc, Nat.add_assoc] using this
  have hset : (pre ++ (out ++ (g :: gs ++ (c :: rem ++ NUL :: post)))).set
      (pre.length + out.length) c
      = pre ++ (out ++ [c] ++ (gs ++ [c] ++ (rem ++ NUL :: post))) := by
    have := set_append_length (pre ++ out) g c (gs ++ (c :: rem ++ NUL :: post))
    simp only [List.length_append] at this
    simp only [List.append_assoc, List.cons_append, List.nil_append] at this ⊢
    exact this
  have hlt : pre.length + out.length
      < (pre ++ (out ++ (g :: gs ++ (c :: rem ++ NUL :: post)))).length := by
    simp only [List.length_append, List.length_cons]
    omega
  simp only [OFNHookProc.iteration, OFNHookProc.view, hget, hc, hq, if_false, storeAt, hlt,
    if_true, hset, Bool.false_eq_true]
  simp [Nat.add_assoc, Nat.add_comm, Nat.add_left_comm]

/-- An iteration inside a name ends the name at its closing quote. -/
theorem iteration_close (pre out gs rem post : List Char) (g : Char) (stores : List Nat) :
    OFNHookProc.iteration (OFNHookProc.view pre out (g :: gs) ('"' :: rem) post false stores)
      = Except.ok (some (OFNHookProc.view pre (out ++ [NUL]) (gs ++ [NUL]) rem post true
          (stores ++ [pre.length + out.length + (g :: gs).length]
            ++ [pre.length + out.length]))) := by
  have hget : (pre ++ (out ++ (g :: gs ++ ('"' :: rem ++ NUL :: post)))).get?
      (pre.length + out.length + (g :: gs).length) = some '"' := by
    have := get?_append_length (pre ++ out ++ (g :: gs)) '"' (rem ++ NUL :: post)
    simpa [List.append_assoc, Nat.add_assoc] using this
  have hset1 : (pre ++ (out ++ (g :: gs ++ ('"' :: rem ++ NUL :: post)))).set
      (pre.length + out.length + (g :: gs).length) NUL
      = pre ++ (out ++ (g :: gs ++ (NUL :: rem ++ NUL :: post))) := by
    have := set_append_length (pre ++ out ++ (g :: gs)) '"' NUL (rem ++ NUL :: post)
    simp only [List.length_append] at this
    simp only [List.append_assoc, List.cons_append, List.nil_append] at this ⊢
    exact this
  have hset2 : (pre ++ (out ++ (g :: gs ++ (NUL :: rem ++ NUL :: post)))).set
      (pre.length + out.length) NUL
      = pre ++ (out ++ [NUL] ++ (gs ++ [NUL] ++ (rem ++ NUL :: post))) := by
    have := set_append_length (pre ++ out) g NUL (gs ++ (NUL :: rem ++ NUL :: post))
    simp only [List.length_append] at this
    simp only [List.append_assoc, List.cons_append, List.nil_append] at this ⊢
    exact this
  have hlt : pre.length + out.length
      < (pre ++ (out ++ (g :: gs ++ (NUL :: rem ++ NUL :: post)))).length := by
    simp only [List.length_append, List.length_cons]
    omega
  have hq : ('"' : Char) ≠ NUL := by decide
  simp only [OFNHookProc.iteration, OFNHookProc.view, hget, hq, if_false, storeAt, if_true,
    hset1, hlt, hset2, Bool.false_eq_true]
  simp [Nat.add_assoc, Nat.add_comm, Nat.add_left_comm]

/-- The loop ends at the terminator of the text. -/
theorem iteration_end (pre out gar post : List Char) (fq : Bool) (stores : List Nat) :
    OFNHookProc.iteration (OFNHookProc.view pre out gar [] post fq stores) = Except.ok none := by
  have hget : (pre ++ (out ++ (gar ++ ([] ++ NUL :: post)))).get?
      (pre.length + out.length + gar.length) = some NUL := by
    have := get?_append_length (pre ++ out ++ gar) NUL post
    simpa [List.append_assoc, Nat.add_assoc] using this
  simp only [OFNHookProc.iteration, OFNHookProc.view, hget, if_true]

/-- The loop unfolds over an iteration that goes on. -/
theorem loop_step (fuel : Nat) (st st' : UnquoteState)
    (h : OFNHookProc.iteration st = Except.ok (some st')) :
    OFNHookProc.loop (fuel + 1) st = OFNHookProc.loop fuel st' := by
  simp only [OFNHookProc.loop, h]

/-- The loop steps over a separator. -/
theorem loop_separator (pre out rem post : List Char) (stores : List Nat) :
    ∀ (sep gar : List Char), '"' ∉ sep → NUL ∉ sep → ∀ fuel,
      OFNHookProc.loop (fuel + sep.length)
          (OFNHookProc.view pre out gar (sep ++ rem) post true stores)
        = OFNHookProc.loop fuel (OFNHookProc.view pre out (gar ++ sep) rem post true stores) := by
  intro sep
  induction sep with
  | nil =>
    intro gar _ _ fuel
    simp
  | cons c cs ih =>
    intro gar hq hn fuel
    have hc : c ≠ NUL := fun h => hn (by simp [h])
    have hcq : c ≠ '"' := fun h => hq (by simp [h])
    have hstep := iteration_skip pre out gar (cs ++ rem) post c stores hc
    simp only [hcq, if_false] at hstep
    rw [List.length_cons, ← Nat.add_assoc, List.cons_append, loop_step _ _ _ hstep,
      ih (gar ++ [c]) (fun h => hq (List.mem_cons_of_mem _ h))
        (fun h => hn (List.mem_cons_of_mem _ h)) fuel]
    simp

/-- The loop copies a name to the output. -/
theorem loop_name (pre rem post : List Char) :
    ∀ (n out gs : List Char) (g : Char) (stores : List Nat), '"' ∉ n → NUL ∉ n →
      ∃ gar' stores', gar'.length = gs.length + 1 ∧ ∀ fuel,
        OFNHookProc.loop (fuel + n.length)
            (OFNHookProc.view pre out (g :: gs) (n ++ rem) post false stores)
          = OFNHookProc.loop fuel
              (OFNHookProc.view pre (out ++ n) gar' rem post false stores') := by
  intro n
  induction n with
  | nil =>
    intro out gs g stores _ _
    exact ⟨g :: gs, stores, rfl, fun fuel => by simp⟩
  | cons c cs ih =>
    intro out gs g stores hq hn
    have hc : c ≠ NUL := fun h => hn (by simp [h])
    have hcq : c ≠ '"' := fun h => hq (by simp [h])
    have hstep := iteration_copy pre out gs (cs ++ rem) post g c stores hc hcq
    cases hg : gs ++ [c] with
    | nil => simp at hg
    | cons g2 gs2 =>
      rw [hg] at hstep
      obtain ⟨gar', stores', hlen, hloop⟩ := ih (out ++ [c]) gs2 g2
        (stores ++ [pre.length + out.length]) (fun h => hq (List.mem_cons_of_mem _ h))
        (fun h => hn (List.mem_cons_of_mem _ h))
      refine ⟨gar', stores', ?_, ?_⟩
      · have : (gs ++ [c]).length = (g2 :: gs2).length := by rw [hg]
        simp only [List.length_append, List.length_singleton, List.length_cons,
          List.length_nil] at this
        omega
      · intro fuel
        rw [List.length_cons, ← Nat.add_assoc, List.cons_append, loop_step _ _ _ hstep,
          hloop fuel]
        simp

/-- The loop turns one quoted name and its separator into the name and a
terminator. -/
theorem loop_item (pre rem post : List Char) (n sep out gar : List Char) (stores : List Nat)
    (hnq : '"' ∉ n) (hnn : NUL ∉ n) (hsq : '"' ∉ sep) (hsn : NUL ∉ sep) :
    ∃ gar' stores', gar' ≠ [] ∧ ∀ fuel,
      OFNHookProc.loop (fuel + (['"'] ++ n ++ ['"'] ++ sep).length)
          (OFNHookProc.view pre out gar (['"'] ++ n ++ ['"'] ++ sep ++ rem) post true stores)
        = OFNHookProc.loop fuel
            (OFNHookProc.view pre (out ++ (n ++ [NUL])) gar' rem post true stores') := by
  have hq : ('"' : Char) ≠ NUL := by decide
  have h1 := iteration_skip pre out gar (n ++ ('"' :: (sep ++ rem))) post '"' stores hq
  simp only [if_true] at h1
  cases hg : gar ++ ['"'] with
  | nil => simp at hg
  | cons g gs =>
    rw [hg] at h1
    obtain ⟨gar1, stores1, hlen1, hloop1⟩ := loop_name pre ('"' :: (sep ++ rem)) post n out gs g
      stores hnq hnn
    cases hg1 : gar1 with
    | nil => rw [hg1] at hlen1; simp at hlen1
    | cons g1 gs1 =>
      rw [hg1] at hloop1
      have h3 := iteration_close pre (out ++ n) gs1 (sep ++ rem) post g1 stores1
      have h4 := loop_separator pre (out ++ n ++ [NUL]) rem post
        (stores1 ++ [pre.length + (out ++ n).length + (g1 :: gs1).length]
          ++ [pre.length + (out ++ n).length]) sep (gs1 ++ [NUL]) hsq hsn
      refine ⟨gs1 ++ [NUL] ++ sep,
        stores1 ++ [pre.length + (out ++ n).length + (g1 :: gs1).length]
          ++ [pre.length + (out ++ n).length], by simp, ?_⟩
      intro fuel
      have hlen : fuel + (['"'] ++ n ++ ['"'] ++ sep).length
          = (((fuel + sep.length) + 1) + n.length) + 1 := by
        simp only [List.length_append, List.length_singleton]
        omega
      have htext : ['"'] ++ n ++ ['"'] ++ sep ++ rem = '"' :: (n ++ ('"' :: (sep ++ rem))) := by
        simp
      rw [hlen, htext, loop_step _ _ _ h1, hloop1, loop_step _ _ _ h3, h4 fuel]
      simp

/-- The loop turns a text of quoted names into the names, each with its
terminator. -/
theorem loop_items (pre rem post : List Char) :
    ∀ (items : List (List Char × List Char)) (out gar : List Char) (stores : List Nat),
      (∀ item ∈ items, '"' ∉ item.1 ∧ NUL ∉ item.1 ∧ '"' ∉ item.2 ∧ NUL ∉ item.2) →
      ∃ gar' stores', ((items ≠ [] ∨ gar ≠ []) → gar' ≠ []) ∧ ∀ fuel,
        OFNHookProc.loop (fuel + (quotedText items).length)
            (OFNHookProc.view pre out gar (quotedText items ++ rem) post true stores)
          = OFNHookProc.loop fuel
              (OFNHookProc.view pre (out ++ terminatedNames items) gar' rem post true
                stores') := by
  intro items
  induction items with
  | nil =>
    intro out gar stores _
    refine ⟨gar, stores, ?_, fun fuel => by simp [quotedText, terminatedNames]⟩
    intro h
    rcases h with h | h
    · exact absurd rfl h
    · exact h
  | cons item rest ih =>
    intro out gar stores hclean
    have hi := hclean item (List.mem_cons_self _ _)
    obtain ⟨gar1, stores1, hne1, hloop1⟩ := loop_item pre (quotedText rest ++ rem) post
      item.1 item.2 out gar stores hi.1 hi.2.1 hi.2.2.1 hi.2.2.2
    obtain ⟨gar2, stores2, hne2, hloop2⟩ := ih (out ++ (item.1 ++ [NUL])) gar1 stores1
      (fun it hit => hclean it (List.mem_cons_of_mem _ hit))
    refine ⟨gar2, stores2, fun _ => hne2 (Or.inr hne1), ?_⟩
    intro fuel
    have hlen : fuel + (quotedText (item :: rest)).length
        = (fuel + (quotedText rest).length) + (['"'] ++ item.1 ++ ['"'] ++ item.2).length := by
      simp only [quotedText, List.length_append, List.length_singleton]
      omega
    have htext : quotedText (item :: rest) ++ rem
        = ['"'] ++ item.1 ++ ['"'] ++ item.2 ++ (quotedText rest ++ rem) := by
      simp [quotedText]
    rw [hlen, htext, hloop1, hloop2 fuel]
    simp [terminatedNames]

/-- An iteration keeps the write position at or before the read position. -/
theorem iteration_tmp_le (st st' : UnquoteState)
    (h : OFNHookProc.iteration st = Except.ok (some st')) (hle : st.tmp ≤ st.buffer) :
    st'.tmp ≤ st'.buffer := by
  unfold OFNHookProc.iteration at h
  cases hg : st.mem.get? st.buffer with
  | none => rw [hg] at h; cases h
  | some c =>
    rw [hg] at h
    simp only at h
    by_cases hc : c = NUL
    · simp only [hc, if_true] at h
      cases h
    · simp only [hc, if_false] at h
      by_cases hf : st.findquote = true
      · simp only [hf, if_true, Except.ok.injEq, Option.some.injEq] at h
        subst h
        simp only
        omega
      · simp only [hf, if_false, Bool.false_eq_true] at h
        split at h
        · cases h
        · simp only [Except.ok.injEq, Option.some.injEq] at h
          subst h
          simp only
          omega

/-- Every state of the loop has the write position at or before the read
position. -/
theorem stateAfter_tmp_le :
    ∀ (n : Nat) (st st' : UnquoteState), st.tmp ≤ st.buffer →
      OFNHookProc.stateAfter n st = Except.ok st' → st'.tmp ≤ st'.buffer := by
  intro n
  induction n with
  | zero =>
    intro st st' hle h
    simp only [OFNHookProc.stateAfter, Except.ok.injEq] at h
    subst h
    exact hle
  | succ k ih =>
    intro st st' hle h
    simp only [OFNHookProc.stateAfter] at h
    cases hi : OFNHookProc.iteration st with
    | error f => rw [hi] at h; cases h
    | ok o =>
      rw [hi] at h
      cases o with
      | none =>
        simp only [Except.ok.injEq] at h
        subst h
        exact hle
      | some st1 => exact ih st1 st' (iteration_tmp_le st st1 hi hle) h

/-- When the loop ends, every number of iterations leads to a state. -/
theorem stateAfter_of_loop :
    ∀ (fuel : Nat) (st st1 : UnquoteState), OFNHookProc.loop fuel st = Except.ok (some st1) →
      ∀ n, ∃ st', OFNHookProc.stateAfter n st = Except.ok st' := by
  intro fuel
  induction fuel with
  | zero =>
    intro st st1 h
    simp [OFNHookProc.loop] at h
  | succ k ih =>
    intro st st1 h n
    cases n with
    | zero => exact ⟨st, rfl⟩
    | succ m =>
      simp only [OFNHookProc.loop] at h
      simp only [OFNHookProc.stateAfter]
      cases hi : OFNHookProc.iteration st with
      | error f => rw [hi] at h; cases h
      | ok o =>
        rw [hi] at h
        cases o with
        | none => exact ⟨st, rfl⟩
        | some st2 => exact ih st2 st1 h m

/-- The whole rewrite of a text of quoted names. -/
theorem unquote_items (pre post : List Char) (items : List (List Char × List Char))
    (hne : items ≠ [])
    (hclean : ∀ item ∈ items, '"' ∉ item.1 ∧ NUL ∉ item.1 ∧ '"' ∉ item.2 ∧ NUL ∉ item.2) :
    ∃ g gs stores,
      (∀ fuel, OFNHookProc.loop (fuel + (quotedText items).length + 1)
          { mem := pre ++ quotedText items ++ NUL :: post, tmp := pre.length,
            buffer := pre.length, findquote := true, stores := [] }
        = Except.ok (some (OFNHookProc.view pre (terminatedNames items) (g :: gs) [] post true
            stores)))
      ∧ (∀ fuel, OFNHookProc.unquote (fuel + (quotedText items).length + 1)
          (pre ++ quotedText items ++ NUL :: post) pre.length
        = Except.ok (some
            { mem := pre ++ terminatedNames items ++ [NUL] ++ (gs ++ NUL :: post),
              tmp := pre.length + (terminatedNames items).length,
              buffer := pre.length + (terminatedNames items).length + (g :: gs).length,
              findquote := true,
              stores := stores ++ [pre.length + (terminatedNames items).length] })) := by
  obtain ⟨gar', stores', hgar, hloop⟩ := loop_items pre [] post items [] [] [] hclean
  cases hg : gar' with
  | nil => exact absurd hg (hgar (Or.inl hne))
  | cons g gs =>
    rw [hg] at hloop
    have hinit :
        ({ mem := pre ++ quotedText items ++ NUL :: post, tmp := pre.length,
           buffer := pre.length, findquote := true, stores := [] } : UnquoteState)
        = OFNHookProc.view pre [] [] (quotedText items ++ []) post true [] := by
      simp [OFNHookProc.view]
    have hend : ∀ fuel, OFNHookProc.loop (fuel + 1)
        (OFNHookProc.view pre ([] ++ terminatedNames items) (g :: gs) [] post true stores')
        = Except.ok (some (OFNHookProc.view pre ([] ++ terminatedNames items) (g :: gs) []
            post true stores')) := by
      intro fuel
      simp only [OFNHookProc.loop, iteration_end]
    have hl : ∀ fuel, OFNHookProc.loop (fuel + (quotedText items).length + 1)
        { mem := pre ++ quotedText items ++ NUL :: post, tmp := pre.length,
          buffer := pre.length, findquote := true, stores := [] }
        = Except.ok (some (OFNHookProc.view pre (terminatedNames items) (g :: gs) [] post true
            stores')) := by
      intro fuel
      have : fuel + (quotedText items).length + 1 = (fuel + 1) + (quotedText items).length := by
        omega
      rw [this, hinit, hloop (fuel + 1), hend fuel]
      simp
    refine ⟨g, gs, stores', hl, ?_⟩
    intro fuel
    have hset : (pre ++ (terminatedNames items ++ (g :: gs ++ ([] ++ NUL :: post)))).set
        (pre.length + (terminatedNames items).length) NUL
        = pre ++ terminatedNames items ++ [NUL] ++ (gs ++ NUL :: post) := by
      have := set_append_length (pre ++ terminatedNames items) g NUL (gs ++ NUL :: post)
      simp only [List.length_append] at this
      simp only [List.append_assoc, List.cons_append, List.nil_append] at this ⊢
      exact this
    have hlt : pre.length + (terminatedNames items).length
        < (pre ++ (terminatedNames items ++ (g :: gs ++ ([] ++ NUL :: post)))).length := by
      simp only [List.length_append, List.length_cons]
      omega
    simp only [OFNHookProc.unquote, hl fuel, OFNHookProc.view, storeAt, hlt, if_true, hset]

/-- The rewritten names are not longer than the quoted text. -/
theorem terminatedNames_length_le (items : List (List Char × List Char)) :
    (terminatedNames items).length ≤ (quotedText items).length := by
  induction items with
  | nil => simp [terminatedNames, quotedText]
  | cons item rest ih =>
    simp only [terminatedNames, quotedText, List.length_append, List.length_singleton]
    omega

/-- Reading a block after a store at another position. -/
theorem get?_set_other (mem : List Char) (i j : Nat) (c : Char) (h : i ≠ j) :
    (mem.set i c).get? j = mem.get? j := by
  simp [List.getElem?_set_ne h]

/-- An iteration of the loop, from a state whose text ends at or after the
read position at a terminator at the offset `e`: the loop ends, or goes on
to a state of the same kind, one position further, in a block of the same
size. -/
theorem iteration_inv (e : Nat) (st : UnquoteState)
    (hle : st.tmp ≤ st.buffer) (hbe : st.buffer ≤ e) (hnul : st.mem.get? e = some NUL)
    (hst : ∀ p ∈ st.stores, p ≤ e) :
    OFNHookProc.iteration st = Except.ok none
    ∨ ∃ st', OFNHookProc.iteration st = Except.ok (some st')
        ∧ st'.tmp ≤ st'.buffer ∧ st'.buffer ≤ e ∧ st'.mem.get? e = some NUL
        ∧ (∀ p ∈ st'.stores, p ≤ e) ∧ st'.buffer = st.buffer + 1
        ∧ st'.mem.length = st.mem.length := by
  have he : e < st.mem.length := by
    by_contra hcon
    have : st.mem.get? e = none := List.get?_eq_none.mpr (by omega)
    rw [this] at hnul
    cases hnul
  have hb : st.buffer < st.mem.length := by omega
  obtain ⟨c, hc⟩ : ∃ c, st.mem.get? st.buffer = some c :=
    ⟨st.mem.get ⟨st.buffer, hb⟩, List.get?_eq_get hb⟩
  by_cases hcn : c = NUL
  · left
    simp only [OFNHookProc.iteration, hc, hcn, if_true]
  · right
    have hne : st.buffer ≠ e := by
      intro h
      rw [h, hnul] at hc
      exact hcn (Option.some.inj hc).symm
    have hlt : st.buffer < e := by omega
    by_cases hf : st.findquote = true
    · refine ⟨{ st with findquote := if c = '"' then false else true,
                        buffer := st.buffer + 1 }, ?_, ?_, ?_, hnul, hst, rfl, rfl⟩
      · simp only [OFNHookProc.iteration, hc, hcn, if_false, hf, if_true]
      · simp only; omega
      · simp only; omega
    · have hf2 : st.findquote = false := by simpa using hf
      by_cases hq : c = '"'
      · subst hq
        have hqn : ('"' : Char) ≠ NUL := by decide
        have hlen : st.tmp < (st.mem.set st.buffer NUL).length := by
          rw [List.length_set]; omega
        refine ⟨{ mem := (st.mem.set st.buffer NUL).set st.tmp NUL, tmp := st.tmp + 1,
                  buffer := st.buffer + 1, findquote := true,
                  stores := st.stores ++ [st.buffer] ++ [st.tmp] }, ?_, ?_, ?_, ?_, ?_, rfl, ?_⟩
        · simp only [OFNHookProc.iteration, hc, hqn, if_false, hf2, Bool.false_eq_true,
            if_true, storeAt, hlen]
        · simp only; omega
        · simp only; omega
        · simp only
          rw [get?_set_other _ _ _ _ (by omega), get?_set_other _ _ _ _ (by omega)]
          exact hnul
        · intro p hp
          simp only [List.mem_append, List.mem_singleton] at hp
          rcases hp with (hp | hp) | hp
          · exact hst p hp
          · omega
          · omega
        · simp only [List.length_set]
      · have hlen : st.tmp < st.mem.length := by omega
        refine ⟨{ mem := st.mem.set st.tmp c, tmp := st.tmp + 1,
                  buffer := st.buffer + 1, findquote := false,
                  stores := st.stores ++ [st.tmp] }, ?_, ?_, ?_, ?_, ?_, rfl, ?_⟩
        · simp only [OFNHookProc.iteration, hc, hcn, if_false, hf2, Bool.false_eq_true, hq,
            storeAt, hlen, if_true]
        · simp only; omega
        · simp only; omega
        · simp only
          rw [get?_set_other _ _ _ _ (by omega)]
          exact hnul
        · intro p hp
          simp only [List.mem_append, List.mem_singleton] at hp
          rcases hp with hp | hp
          · exact hst p hp
          · omega
        · simp only [List.length_set]

/-- The loop, from a state whose text ends at a terminator at the offset `e`,
ends when it has `e - buffer + 1` iterations to run, in a block of the same
size, having stored to no offset after `e`. -/
theorem loop_inv (e : Nat) :
    ∀ (fuel : Nat) (st : UnquoteState), st.tmp ≤ st.buffer → st.buffer ≤ e →
      st.mem.get? e = some NUL → (∀ p ∈ st.stores, p ≤ e) → e - st.buffer < fuel →
      ∃ st', OFNHookProc.loop fuel st = Except.ok (some st')
        ∧ st'.tmp ≤ st'.buffer ∧ st'.buffer ≤ e ∧ st'.mem.get? e = some NUL
        ∧ (∀ p ∈ st'.stores, p ≤ e) ∧ st'.mem.length = st.mem.length := by
  intro fuel
  induction fuel with
  | zero =>
    intro st _ _ _ _ hf
    omega
  | succ k ih =>
    intro st hle hbe hnul hst hf
    rcases iteration_inv e st hle hbe hnul hst with h | ⟨st1, h, h1, h2, h3, h4, h5, h6⟩
    · exact ⟨st, by simp only [OFNHookProc.loop, h], hle, hbe, hnul, hst, rfl⟩
    · obtain ⟨st', hl, r1, r2, r3, r4, r5⟩ := ih st1 h1 h2 h3 h4 (by omega)
      exact ⟨st', by simp only [OFNHookProc.loop, h, hl], r1, r2, r3, r4, by rw [r5, h6]⟩

/-- The rewrite of a selection that ends at a terminator at the offset `e`
returns, in a block of the same size, having stored to no offset after `e`. -/
theorem unquote_safe (mem : List Char) (start e fuel : Nat) (hse : start ≤ e)
    (hnul : mem.get? e = some NUL) (hf : e - start < fuel) :
    ∃ st, OFNHookProc.unquote fuel mem start = Except.ok (some st)
      ∧ st.mem.length = mem.length ∧ (∀ p ∈ st.stores, p ≤ e) ∧ st.tmp ≤ st.buffer := by
  obtain ⟨st', hl, r1, r2, r3, r4, r5⟩ := loop_inv e fuel
    { mem := mem, tmp := start, buffer := start, findquote := true, stores := [] }
    (Nat.le_refl _) hse hnul (fun p hp => by simp at hp) hf
  have he : e < st'.mem.length := by
    by_contra hcon
    have : st'.mem.get? e = none := List.get?_eq_none.mpr (by omega)
    rw [this] at r3
    cases r3
  have hlt : st'.tmp < st'.mem.length := by omega
  refine ⟨{ st' with mem := st'.mem.set st'.tmp NUL, stores := st'.stores ++ [st'.tmp] },
    by simp only [OFNHookProc.unquote, hl, storeAt, hlt, if_true], ?_, ?_, r1⟩
  · simp only [List.length_set]
    exact r5
  · intro p hp
    simp only [List.mem_append, List.mem_singleton] at hp
    rcases hp with hp | hp
    · exact r4 p hp
    · omega

/-! ## Lemmas on the notification branch of OFNHookProc -/

theorem ckrealloc_length (old : Option (List Char)) (n : Nat) (fresh : Char) :
    (ckrealloc old n fresh).length = n := by
  cases old with
  | none => simp [ckrealloc]
  | some mem =>
    simp only [ckrealloc, List.length_take, List.length_append, List.length_replicate]
    omega

theorem storeBlock_ok (mem : List Char) (pos : Nat) (chars : List Char)
    (h : pos + chars.length ≤ mem.length) :
    storeBlock mem pos chars
      = Except.ok (mem.take pos ++ (chars ++ mem.drop (pos + chars.length))) := by
  simp only [storeBlock, if_pos h]

theorem stored_length (mem : List Char) (pos : Nat) (chars : List Char)
    (h : pos + chars.length ≤ mem.length) :
    (mem.take pos ++ (chars ++ mem.drop (pos + chars.length))).length = mem.length := by
  simp only [List.length_append, List.length_take, List.length_drop]
  omega

theorem stored_drop (mem : List Char) (pos : Nat) (rest : List Char) (h : pos ≤ mem.length) :
    (mem.take pos ++ rest).drop pos = rest := by
  have hl : (mem.take pos).length = pos := by
    simp only [List.length_take]
    omega
  exact List.drop_left' hl

theorem stored_get? (mem : List Char) (pos : Nat) (chars rest : List Char) (i : Nat)
    (h : pos ≤ mem.length) (hi : i < chars.length) :
    (mem.take pos ++ (chars ++ rest)).get? (pos + i) = chars.get? i := by
  have hl : (mem.take pos).length = pos := by
    simp only [List.length_take]
    omega
  rw [List.get?_eq_getElem?, List.get?_eq_getElem?,
    List.getElem?_append_right (by omega), hl, Nat.add_sub_cancel_left,
    List.getElem?_append_left hi]

theorem cstring_of_mem (l rest : List Char) (h : NUL ∈ l) :
    ∃ s, cstring (l ++ rest) = some s := by
  induction l with
  | nil => simp at h
  | cons c cs ih =>
    by_cases hc : c = NUL
    · exact ⟨[], by simp [cstring, hc]⟩
    · have hmem : NUL ∈ cs := by
        rcases List.mem_cons.mp h with h1 | h1
        · exact absurd h1.symm hc
        · exact h1
      obtain ⟨s, hs⟩ := ih hmem
      exact ⟨c :: s, by simp [cstring, hc, hs]⟩

theorem storeAt_ok (mem : List Char) (pos : Nat) (c : Char) (h : pos < mem.length) :
    storeAt mem pos c = Except.ok (mem.set pos c) := by
  simp only [storeAt, if_pos h]

theorem unquote_stores_ne (fuel : Nat) (mem : List Char) (start : Nat) (st : UnquoteState)
    (h : OFNHookProc.unquote fuel mem start = Except.ok (some st)) : st.stores ≠ [] := by
  unfold OFNHookProc.unquote at h
  split at h
  · exact absurd h (by simp)
  · exact absurd h (by simp)
  · split at h
    · exact absurd h (by simp)
    · simp only [Except.ok.injEq, Option.some.injEq] at h
      rw [← h]
      simp

theorem single_safe (env : HookEnv) (mem : List Char) (dir sel : Nat) (spec tail : List Char)
    (hdir : 0 < dir) (hlen : dir + sel < mem.length) (hspec : spec.length ≤ sel)
    (hdrop : mem.drop dir = spec ++ tail) (hnul : NUL ∈ spec) :
    ∃ mem4 more, OFNHookProc.single env mem dir sel spec = Except.ok (mem4, more)
      ∧ mem4.length = mem.length ∧ (∀ p ∈ more, p ≤ dir + sel) ∧ more ≠ [] := by
  obtain ⟨s, hs⟩ := cstring_of_mem spec tail hnul
  have hconv : ConvertExternalFilename (mem.drop dir) = some (s.map normSlash) := by
    simp only [ConvertExternalFilename, hdrop, hs, Option.map_some']
  unfold OFNHookProc.single
  rw [hconv]
  by_cases habs : env.pathIsAbsolute (s.map normSlash) = true
  · have h1 : 0 + spec.length ≤ mem.length := by omega
    have h2 := stored_length mem 0 spec h1
    simp only [if_pos habs, storeBlock_ok mem 0 spec h1]
    rw [storeAt_ok _ sel NUL (by rw [h2]; omega)]
    refine ⟨_, _, rfl, ?_, ?_, by simp⟩
    · rw [List.length_set, h2]
    · intro p hp
      rcases List.mem_append.mp hp with hp | hp
      · have := (List.mem_range'_1.mp hp).2
        omega
      · have := List.mem_singleton.mp hp
        omega
  · simp only [if_neg habs]
    rw [storeAt_ok mem (dir - 1) '\\' (by omega)]
    simp only
    rw [storeAt_ok _ (dir + sel) NUL (by rw [List.length_set]; omega)]
    refine ⟨_, _, rfl, ?_, ?_, by simp⟩
    · rw [List.length_set, List.length_set]
    · intro p hp
      simp only [List.mem_cons, List.mem_singleton, List.not_mem_nil, or_false] at hp
      omega

theorem gather_safe (fuel : Nat) (env : HookEnv) (mem : List Char)
    (hsel : 1 < env.selsize) (hdir : 0 < env.dirsize)
    (hlen : env.dirsize.toNat + env.selsize.toNat < mem.length)
    (hnul : NUL ∈ env.spec.take env.selsize.toNat)
    (hfuel : env.selsize.toNat ≤ fuel) :
    ∃ mem' more, OFNHookProc.gather fuel env mem
        = Except.ok (some (mem',
            List.range' 0 (env.folderPath.take env.dirsize.toNat).length
              ++ List.range' env.dirsize.toNat (env.spec.take env.selsize.toNat).length ++ more))
      ∧ mem'.length = mem.length
      ∧ (∀ p ∈ more, p ≤ env.dirsize.toNat + env.selsize.toNat) ∧ more ≠ [] := by
  generalize hd : env.dirsize.toNat = dir at *
  generalize hs : env.selsize.toNat = sel at *
  generalize hfo : env.folderPath.take dir = folder at *
  generalize hsp : env.spec.take sel = spec at *
  have hdpos : 0 < dir := by omega
  have hfl : folder.length ≤ dir := by
    rw [← hfo, List.length_take]
    omega
  have hsl : spec.length ≤ sel := by
    rw [← hsp, List.length_take]
    omega
  have h1 : 0 + folder.length ≤ mem.length := by omega
  have hl1 := stored_length mem 0 folder h1
  generalize hm1 : mem.take 0 ++ (folder ++ mem.drop (0 + folder.length)) = mem1 at *
  have h2 : dir + spec.length ≤ mem1.length := by omega
  have hl2 := stored_length mem1 dir spec h2
  have hdrop : (mem1.take dir ++ (spec ++ mem1.drop (dir + spec.length))).drop dir
      = spec ++ mem1.drop (dir + spec.length) := stored_drop mem1 dir _ (by omega)
  obtain ⟨i, hi, hget⟩ := List.getElem_of_mem hnul
  have hgetN : (mem1.take dir ++ (spec ++ mem1.drop (dir + spec.length))).get? (dir + i)
      = some NUL := by
    rw [stored_get? mem1 dir spec _ i (by omega) hi, List.get?_eq_getElem?,
      List.getElem?_eq_getElem hi, hget]
  have hspos : 0 < spec.length := by omega
  have hget0 : (mem1.take dir ++ (spec ++ mem1.drop (dir + spec.length))).get? dir
      = spec.get? 0 := by
    have := stored_get? mem1 dir spec (mem1.drop (dir + spec.length)) 0 (by omega) hspos
    simpa using this
  generalize hm2 : mem1.take dir ++ (spec ++ mem1.drop (dir + spec.length)) = mem2 at *
  have hc0 : mem2.get? dir = some (spec.get ⟨0, hspos⟩) := by
    rw [hget0, List.get?_eq_get hspos]
  unfold OFNHookProc.gather
  simp only [hd, hs, hfo, hsp, storeBlock_ok mem 0 folder h1, hm1,
    storeBlock_ok mem1 dir spec h2, hm2, hc0]
  by_cases hq : spec.get ⟨0, hspos⟩ = '"'
  · simp only [if_pos hq]
    obtain ⟨st, hst, hlst, hstores, _⟩ := unquote_safe mem2 dir (dir + i) fuel (by omega) hgetN
      (by omega)
    rw [hst]
    refine ⟨st.mem, st.stores, rfl, ?_, ?_, unquote_stores_ne fuel mem2 dir st hst⟩
    · rw [hlst, hl2, hl1]
    · intro p hp
      have := hstores p hp
      omega
  · simp only [if_neg hq]
    obtain ⟨mem4, more, hsingle, hl4, hmore, hne⟩ := single_safe env mem2 dir sel spec
      (mem1.drop (dir + spec.length)) hdpos (by omega) hsl hdrop hnul
    rw [hsingle]
    exact ⟨mem4, more, rfl, by rw [hl4, hl2, hl1], hmore, hne⟩

theorem intWrap_of_fit (x : Int) (h0 : -2147483648 ≤ x) (h1 : x ≤ 2147483647) :
    intWrap x = x := by
  unfold intWrap
  omega

theorem grow_size_le (env : HookEnv) (ofnData : OFNData) (buffersize : Int) :
    ofnData.dynFileBufferSize ≤ (OFNHookProc.grow env ofnData buffersize).dynFileBufferSize := by
  unfold OFNHookProc.grow
  split
  · rename_i h
    exact Int.le_of_lt h
  · exact Int.le_refl _

theorem notify_size_le (fuel : Nat) (env : HookEnv) (ofnData : OFNData) (r : HookResult)
    (h : OFNHookProc.notify fuel env ofnData = Except.ok (some r)) :
    ofnData.dynFileBufferSize ≤ r.ofnData.dynFileBufferSize := by
  unfold OFNHookProc.notify at h
  split at h
  · simp only [Except.ok.injEq, Option.some.injEq] at h
    rw [← h]
  · split at h
    · dsimp only at h
      split at h
      · exact absurd h (by simp)
      · split at h
        · exact absurd h (by simp)
        · exact absurd h (by simp)
        · simp only [Except.ok.injEq, Option.some.injEq] at h
          rw [← h]
          exact grow_size_le env ofnData _
    · split at h
      · simp only [Except.ok.injEq, Option.some.injEq] at h
        rw [← h]
      · split at h
        · exact absurd h (by simp)
        · simp only [Except.ok.injEq, Option.some.injEq] at h
          rw [← h]

theorem notifications_chain (fuel : Nat) (envs : List HookEnv) (ofnData : OFNData) :
    List.Chain (fun a b => a.dynFileBufferSize ≤ b.dynFileBufferSize) ofnData
      (OFNHookProc.notifications fuel envs ofnData) := by
  induction envs generalizing ofnData with
  | nil => exact List.Chain.nil
  | cons env rest ih =>
    unfold OFNHookProc.notifications
    split
    · rename_i r hr
      exact List.Chain.cons (notify_size_le fuel env ofnData r hr) (ih r.ofnData)
    · exact List.Chain.nil

theorem grow_spec (env : HookEnv) (ofnData : OFNData) (buffersize : Int)
    (hwf : ofnData.wellFormed) (hb : 0 < buffersize) :
    ∃ mem, (OFNHookProc.grow env ofnData buffersize).dynFileBuffer = some mem
      ∧ (mem.length : Int) = (OFNHookProc.grow env ofnData buffersize).dynFileBufferSize
      ∧ (OFNHookProc.grow env ofnData buffersize).dynFileBufferSize
          = max ofnData.dynFileBufferSize buffersize := by
  unfold OFNHookProc.grow
  by_cases h : ofnData.dynFileBufferSize < buffersize
  · simp only [if_pos h]
    refine ⟨_, rfl, ?_, ?_⟩
    · rw [ckrealloc_length]
      omega
    · omega
  · simp only [if_neg h]
    unfold OFNData.wellFormed at hwf
    cases hbuf : ofnData.dynFileBuffer with
    | none =>
      rw [hbuf] at hwf
      simp only at hwf
      omega
    | some mem =>
      rw [hbuf] at hwf
      simp only at hwf
      exact ⟨mem, rfl, hwf, by omega⟩

theorem ofnData_wellFormed (multi : Bool) (fresh : Char) :
    (GetFileName.ofnData multi fresh).wellFormed := by
  cases multi with
  | false => exact rfl
  | true =>
    show ((List.replicate 512 fresh).length : Int) = 512
    rw [List.length_replicate]
    rfl

/-! ## The interactive shell: claims -/

/-- C1. Line accumulation in StdinProc: when the lines `l1 .. ln` (n ≥ 1) are
delivered one per readable event, every read succeeding, starting from the
empty command buffer with `gotPartial = 0`, and `l1\n..li\n` is incomplete for
every `i < n` while `l1\n..ln\n` is complete, then the first `n - 1` events
evaluate nothing and event `n` evaluates exactly once, the text
`l1\n l2\n .. ln\n`. -/
theorem StdinProc_line_accumulation {σ : Type} (I : Interp σ) (input : Option Channel)
    (tty : Bool) (evs : List (ReadEvent σ)) (hne : evs ≠ [])
    (hcount : ∀ e ∈ evs, 0 ≤ e.count)
    (hinc : ∀ k, 0 < k → k < evs.length →
      I.commandComplete (joinLines ((evs.take k).map fun e => e.got)) = false)
    (hcomp : I.commandComplete (joinLines (evs.map fun e => e.got)) = true) :
    (runEvents I (initialState input tty) evs).map (fun o => evalsOf o.trace)
      = List.replicate (evs.length - 1) [] ++ [[joinLines (evs.map fun e => e.got)]] := by
  have h := runEvents_accumulate I evs (initialState input tty) rfl hne hcount
    (by simpa [initialState] using hinc) (by simpa [initialState] using hcomp)
  simpa [initialState] using h

/-- C1 at two lines read on a terminal: the first opens a brace, the second
closes it. -/
theorem StdinProc_line_accumulation_witness :
    (runEvents braceInterp (initialState (some 0) true)
        [⟨"", 7, "set x \x7b"⟩, ⟨"", 2, "1\x7d"⟩]).map (fun o => evalsOf o.trace)
      = [[], ["set x \x7b\n1\x7d\n"]] :=
  StdinProc_line_accumulation braceInterp (some 0) true
    [⟨"", 7, "set x \x7b"⟩, ⟨"", 2, "1\x7d"⟩] (by simp)
    (by intro e he; simp at he; rcases he with rfl | rfl <;> decide)
    (by
      intro k hk hlt
      have hk1 : k = 1 := by simp at hlt; omega
      subst hk1
      decide)
    (by decide)

/-- C2. End of input in StdinProc: the invocation ends the session (exits the
process or deletes the input handler) exactly when the read reports end of
input (`count < 0`) and no command is pending (`gotPartial = 0`).  Then a
terminal input makes it call `Tcl_Exit(0)` and nothing else, any other input
makes it delete the input handler, return, and nothing else; no command is
evaluated, no prompt is written, and the command buffer, `gotPartial` and the
interpreter are untouched.  In every other case the invocation returns, it
does not delete the handler, and the line read plus a newline is appended to
the command buffer: that text stays in the buffer when it is incomplete and
is the text evaluated when it is complete. -/
theorem StdinProc_end_of_input {σ : Type} (I : Interp σ) (s : σ) (isPtr : InteractiveState)
    (count : Int) (got : String) :
    (((StdinProc I s isPtr count got).exited.isSome = true
        ∨ deregisters (StdinProc I s isPtr count got).trace = true)
      ↔ (count < 0 ∧ isPtr.gotPartial = false))
    ∧ (count < 0 ∧ isPtr.gotPartial = false →
        (isPtr.tty = true →
          (StdinProc I s isPtr count got).trace = [Action.exit 0]
          ∧ (StdinProc I s isPtr count got).exited = some 0)
        ∧ (isPtr.tty = false →
          (StdinProc I s isPtr count got).trace = [Action.deleteChannelHandler isPtr.input]
          ∧ (StdinProc I s isPtr count got).exited = none)
        ∧ evalsOf (StdinProc I s isPtr count got).trace = []
        ∧ (StdinProc I s isPtr count got).state.command = isPtr.command
        ∧ (StdinProc I s isPtr count got).state.gotPartial = isPtr.gotPartial
        ∧ (StdinProc I s isPtr count got).interp = s)
    ∧ (¬ (count < 0 ∧ isPtr.gotPartial = false) →
        (StdinProc I s isPtr count got).exited = none
        ∧ deregisters (StdinProc I s isPtr count got).trace = false
        ∧ (I.commandComplete (isPtr.command ++ (isPtr.line ++ got) ++ "\n") = false →
            (StdinProc I s isPtr count got).state.command
              = isPtr.command ++ (isPtr.line ++ got) ++ "\n"
            ∧ evalsOf (StdinProc I s isPtr count got).trace = [])
        ∧ (I.commandComplete (isPtr.command ++ (isPtr.line ++ got) ++ "\n") = true →
            evalsOf (StdinProc I s isPtr count got).trace
              = [isPtr.command ++ (isPtr.line ++ got) ++ "\n"])) := by
  by_cases h : count < 0 ∧ isPtr.gotPartial = false
  · have hS : StdinProc I s isPtr count got
        = if isPtr.tty = true then
            { state := { isPtr with line := isPtr.line ++ got }, interp := s,
              trace := [Action.exit 0], exited := some 0 }
          else
            { state := { isPtr with line := isPtr.line ++ got }, interp := s,
              trace := [Action.deleteChannelHandler isPtr.input], exited := none } := by
      unfold StdinProc
      simp [h.1, h.2]
    rw [hS]
    cases htty : isPtr.tty <;> simp [h, deregisters, evalsOf]
  · have hS : StdinProc I s isPtr count got
        = StdinProc.accumulate I s { isPtr with line := isPtr.line ++ got } := by
      unfold StdinProc
      simp only [h, if_false]
    rw [hS]
    refine ⟨?_, fun h2 => absurd h2 h, fun _ => ⟨accumulate_exited _ _ _, ?_, ?_, ?_⟩⟩
    · simp [accumulate_exited, deregisters_accumulate, h]
    · exact deregisters_accumulate _ _ _
    · intro hc
      exact ⟨by rw [accumulate_incomplete_state I s _ hc], accumulate_incomplete_evals I s _ hc⟩
    · intro hc
      exact accumulate_complete_evals I s _ hc

/-- C2 at end of input on a file (not a terminal) with nothing pending: the
handler is deleted and nothing else happens. -/
theorem StdinProc_end_of_input_witness :
    ((-1 : Int) < 0 ∧ (initialState (some 0) false).gotPartial = false)
    ∧ (StdinProc braceInterp "" (initialState (some 0) false) (-1) "").trace
        = [Action.deleteChannelHandler (some 0)] :=
  ⟨⟨by decide, rfl⟩,
   (((StdinProc_end_of_input braceInterp "" (initialState (some 0) false) (-1) "").2.1
      ⟨by decide, rfl⟩).2.1 rfl).1⟩

/-! ## The file dialogs: claims -/

/-- C3 as stated fails: for the buffer `NUL a NUL NUL` (empty directory `s0`
and the single name `a`) the decoding gives the one-element list holding the
empty string, not the list holding `/a`. -/
theorem multi_decode_empty_directory :
    ¬ (∀ (s0 : List Char) (ss : List (List Char)),
        NUL ∉ s0 → (∀ si ∈ ss, si ≠ [] ∧ NUL ∉ si) →
        (decodeMulti (multiBuffer s0 ss)).map Prod.fst = some (expectedMulti s0 ss)) := by
  intro h
  have h1 := h [] [['a']] (by decide) (by decide)
  revert h1
  decide

/-- C3, amended. Multi-selection decoding in GetFileName: for every buffer
that begins `s0 NUL s1 NUL .. sn NUL NUL` with no `NUL` inside any `si`,
`s1..sn` non-empty, and `s0` non-empty whenever `n ≥ 1`, the result list is
`[norm s0 / norm s1, .., norm s0 / norm sn]` in buffer order when `n ≥ 1` and
`[norm s0]` when `n = 0`, where `norm` changes every backslash into a slash
and nothing else; the list has `n` elements when `n ≥ 1`, and no element
contains a backslash. -/
theorem multi_decode (s0 tail : List Char) (ss : List (List Char))
    (h0 : NUL ∉ s0) (hss : ∀ si ∈ ss, si ≠ [] ∧ NUL ∉ si) (hdir : ss ≠ [] → s0 ≠ []) :
    (decodeMulti (multiBuffer s0 ss ++ tail)).map Prod.fst = some (expectedMulti s0 ss)
    ∧ (ss ≠ [] → (expectedMulti s0 ss).length = ss.length)
    ∧ (∀ r ∈ expectedMulti s0 ss, '\\' ∉ r)
    ∧ (∀ c, normSlash c = if c = '\\' then '/' else c) := by
  refine ⟨?_, ?_, ?_, fun c => rfl⟩
  · have hbuf : multiBuffer s0 ss ++ tail
        = s0 ++ NUL :: ((ss.map fun si => si ++ [NUL]).flatten ++ NUL :: tail) := by
      simp [multiBuffer]
    have hconv := ConvertExternalFilename_append s0
      ((ss.map fun si => si ++ [NUL]).flatten ++ NUL :: tail) h0
    by_cases hs0 : s0 = []
    · have hssnil : ss = [] := by
        by_contra hne
        exact hdir hne hs0
      subst hs0
      subst hssnil
      simp [decodeMulti, multiBuffer, ConvertExternalFilename, cstring, multiLoop,
        expectedMulti]
    · have hloop := multiLoop_names (s0.map normSlash) tail ss s0
        ((multiBuffer s0 ss ++ tail).length + 1)
        { returnList := [], count := 0, gotFilename := false } hs0 h0 hss
        (by
          have := length_le_flatten_terminated ss
          simp [multiBuffer] at this ⊢
          omega)
      rw [← hbuf] at hloop hconv
      unfold decodeMulti
      rw [hconv]
      simp only [hloop]
      by_cases hnil : ss = []
      · subst hnil
        simp [expectedMulti]
      · have hlen : ss.length ≠ 0 := fun e => hnil (List.length_eq_zero.mp e)
        simp [expectedMulti, hnil, hlen]
  · intro hne
    simp [expectedMulti, hne]
  · intro r hr
    unfold expectedMulti at hr
    split at hr
    · simp at hr
      subst hr
      exact backslash_not_mem_map_normSlash s0
    · rcases List.mem_map.mp hr with ⟨si, _, rfl⟩
      intro hmem
      simp only [List.mem_append, List.mem_singleton] at hmem
      rcases hmem with (h1 | h1) | h1
      · exact backslash_not_mem_map_normSlash s0 h1
      · exact absurd h1 (by decide)
      · exact backslash_not_mem_map_normSlash si h1

/-- C3, amended, at the directory `C:\d` with the names `a` and `b\c`. -/
theorem multi_decode_witness :
    (decodeMulti
        (multiBuffer ['C', ':', '\\', 'd'] [['a'], ['b', '\\', 'c']] ++ [])).map Prod.fst
      = some [['C', ':', '/', 'd', '/', 'a'], ['C', ':', '/', 'd', '/', 'b', '/', 'c']] :=
  (multi_decode ['C', ':', '\\', 'd'] [] [['a'], ['b', '\\', 'c']]
    (by decide) (by decide) (by decide)).1

/-- C6 fails on the code (evaluation at the failing input): once the latch
says the new dialogs are in use and the dialog interface is created,
GetFileName returns `TCL_OK` with the interpreter result it found, here the
empty result, whatever path the user accepted in the dialog; for the accepted
path `C:\a.txt` the result is not `C:/a.txt`. -/
theorem GetFileName_modern_selection_dropped :
    (∀ (accepted : Option (List Char)) (isOpen : Bool),
      GetFileName TCL_OK defaultOFNOpts InterpResult.reset
          { cancelledEnv with useNewFileDialogs := FdlgState.USE_NEW,
                              modernAccepted := accepted } isOpen
        = Except.ok { code := TCL_OK, interp := InterpResult.reset,
                      useNewFileDialogs := FdlgState.USE_NEW, modernShown := true,
                      legacyShown := false, decoded := none })
    ∧ InterpResult.reset.result ≠ TclValue.str "C:/a.txt".toList := by
  constructor
  · intro accepted isOpen
    rfl
  · decide

/-- C7 as stated fails: on the legacy path, a failed native call with the
extended error code `0xFFFF` (`CDERR_DIALOGFAILURE`) and single selection
returns `TCL_OK` with an empty result, not `TCL_ERROR` with the
`invalid filename` message. -/
theorem GetFileName_other_error_ignored :
    ¬ (∀ (ofnOpts : OFNOpts) (env : FileDialogEnv) (isOpen : Bool) (name : List Char),
        env.useNewFileDialogs = FdlgState.USE_OLD →
        env.getFileFilters ofnOpts.filterObj ≠ none →
        env.winCode = 0 → env.cdlgerr ≠ 0 →
        ¬ (env.cdlgerr = FNERR_BUFFERTOOSMALL ∧ ofnOpts.multi = true) →
        ConvertExternalFilename env.lpstrFile = some name →
        ∃ r, GetFileName TCL_OK ofnOpts InterpResult.reset env isOpen = Except.ok r
          ∧ r.code = TCL_ERROR
          ∧ r.interp.result
              = TclValue.str ("invalid filename \"".toList ++ name ++ ['"'])) := by
  intro h
  obtain ⟨r, hr, hcode, _⟩ := h defaultOFNOpts { cancelledEnv with cdlgerr := 0xFFFF } true []
    rfl (by decide) rfl (by decide) (by decide) rfl
  have e : GetFileName TCL_OK defaultOFNOpts InterpResult.reset
      { cancelledEnv with cdlgerr := 0xFFFF } true
      = Except.ok { code := TCL_OK, interp := InterpResult.reset,
                    useNewFileDialogs := FdlgState.USE_OLD, modernShown := false,
                    legacyShown := true, decoded := none } := rfl
  rw [e] at hr
  injection hr with hr
  subst hr
  revert hcode
  decide

/-- C7, amended. Native failures of the legacy file dialog: when the native
call fails (returns 0) with a non-zero extended error code that is not the
tolerated buffer-too-small code under multi-selection, then for the code
`FNERR_INVALIDFILENAME` the interpreter result is the message
`invalid filename "<name>"`, `<name>` being the file name left in the native
buffer with backslashes normalised, with the error code
`TK FILEDIALOG INVALID_FILENAME`; for every other code the command returns
`TCL_OK` with an empty result.  In neither case is a selection decoded. -/
theorem GetFileName_native_failure (ofnOpts : OFNOpts) (interp : InterpResult)
    (env : FileDialogEnv) (isOpen : Bool) (v : VistaResult)
    (hv : GetFileNameVista env isOpen = Except.ok v) (hc : v.code = TCL_CONTINUE)
    (hf : env.getFileFilters ofnOpts.filterObj ≠ none)
    (hwin : env.winCode = 0) (_herr : env.cdlgerr ≠ 0)
    (htol : ¬ (env.cdlgerr = FNERR_BUFFERTOOSMALL ∧ ofnOpts.multi = true)) :
    (env.cdlgerr = FNERR_INVALIDFILENAME →
      ∀ name, ConvertExternalFilename env.lpstrFile = some name →
        ∃ r, GetFileName TCL_OK ofnOpts interp env isOpen = Except.ok r
          ∧ r.interp
              = { result := TclValue.str ("invalid filename \"".toList ++ name ++ ['"']),
                  errorCode := ["TK", "FILEDIALOG", "INVALID_FILENAME"] }
          ∧ r.decoded = none)
    ∧ (env.cdlgerr ≠ FNERR_INVALIDFILENAME →
        ∃ r, GetFileName TCL_OK ofnOpts interp env isOpen = Except.ok r
          ∧ r.code = TCL_OK ∧ r.interp = InterpResult.reset ∧ r.decoded = none) := by
  have hcond : ¬ (env.winCode ≠ 0
      ∨ (env.cdlgerr = FNERR_BUFFERTOOSMALL ∧ ofnOpts.multi = true)) := by
    rintro (h1 | h1)
    · exact h1 hwin
    · exact htol h1
  rw [GetFileName_legacy ofnOpts interp env isOpen v hv hc hf,
    process_failed TCL_CONTINUE ofnOpts env isOpen hcond]
  constructor
  · intro hinv name hname
    rw [if_pos hinv, hname]
    exact ⟨_, rfl, rfl, rfl⟩
  · intro hinv
    rw [if_neg hinv]
    exact ⟨_, rfl, rfl, rfl, rfl⟩

/-- C7, amended, at a cancelled-looking legacy call that reports
`FNERR_INVALIDFILENAME` for the name `a?`. -/
theorem GetFileName_native_failure_witness :
    ∃ r, GetFileName TCL_OK defaultOFNOpts InterpResult.reset
          { cancelledEnv with cdlgerr := FNERR_INVALIDFILENAME,
                              lpstrFile := ['a', '?', NUL] } true = Except.ok r
      ∧ r.interp
          = { result := TclValue.str "invalid filename \"a?\"".toList,
              errorCode := ["TK", "FILEDIALOG", "INVALID_FILENAME"] }
      ∧ r.decoded = none :=
  (GetFileName_native_failure defaultOFNOpts InterpResult.reset
      { cancelledEnv with cdlgerr := FNERR_INVALIDFILENAME, lpstrFile := ['a', '?', NUL] }
      true
      { code := TCL_CONTINUE, useNewFileDialogs := FdlgState.USE_OLD, shown := false }
      rfl rfl (by decide) rfl (by decide) (by decide)).1 rfl ['a', '?'] (by decide)

/-- C8 as stated fails: on the legacy path the native call succeeds with the
file `a` and filter index 1, `-filetypes` and `-typevariable` are given, and
storing the type name in the variable fails: the selection is decoded but the
command returns `TCL_ERROR` with the message of the failed store. -/
theorem GetFileName_type_store_failure :
    ¬ (∀ (ofnOpts : OFNOpts) (env : FileDialogEnv) (isOpen : Bool),
        env.useNewFileDialogs = FdlgState.USE_OLD →
        env.getFileFilters ofnOpts.filterObj ≠ none →
        (GetFileName.decode (GetFileName.flags ofnOpts isOpen) env).isSome = true →
        ((∃ r value, GetFileName TCL_OK ofnOpts InterpResult.reset env isOpen = Except.ok r
            ∧ r.decoded = some value ∧ r.interp.result = value ∧ r.code = TCL_OK)
          ↔ (env.winCode ≠ 0
              ∨ (env.cdlgerr = FNERR_BUFFERTOOSMALL ∧ ofnOpts.multi = true)))) := by
  intro h
  have h1 := h
    { defaultOFNOpts with filterObj := some "types", typeVariableObj := some "env" }
    { cancelledEnv with winCode := 1, lpstrFile := ['a', NUL], nFilterIndex := 1,
                        typeStore := some { result := TclValue.str "can't set".toList,
                                            errorCode := [] } }
    true rfl (by decide) (by decide)
  obtain ⟨r, value, hr, _, _, hcode⟩ := h1.mpr (Or.inl (by decide))
  have e : GetFileName TCL_OK
      { defaultOFNOpts with filterObj := some "types", typeVariableObj := some "env" }
      InterpResult.reset
      { cancelledEnv with winCode := 1, lpstrFile := ['a', NUL], nFilterIndex := 1,
                          typeStore := some { result := TclValue.str "can't set".toList,
                                              errorCode := [] } } true
      = Except.ok { code := TCL_ERROR,
                    interp := { result := TclValue.str "can't set".toList, errorCode := [] },
                    useNewFileDialogs := FdlgState.USE_OLD, modernShown := false,
                    legacyShown := true, decoded := some (TclValue.str ['a']) } := rfl
  rw [e] at hr
  injection hr with hr
  subst hr
  revert hcode
  decide

/-- C8, amended. Buffer-too-small tolerance of the legacy file dialog, for
buffers that hold terminated strings: the selection is decoded exactly when
the native call succeeded (non-zero return) or the extended error code is
`FNERR_BUFFERTOOSMALL` and multi-selection is enabled; it is then returned
with `TCL_OK` unless the store of the selected type name into the
`-typevariable` variable is attempted and fails.  Under multi-selection the
decoded value is the list decoded from the dynamic buffer, so a failed call
with `FNERR_BUFFERTOOSMALL` returns that list; the same failure without
multi-selection decodes nothing and returns `TCL_OK` with an empty result. -/
theorem GetFileName_buffer_too_small (ofnOpts : OFNOpts) (interp : InterpResult)
    (env : FileDialogEnv) (isOpen : Bool) (v : VistaResult) (value : TclValue) (got : Bool)
    (hv : GetFileNameVista env isOpen = Except.ok v) (hc : v.code = TCL_CONTINUE)
    (hf : env.getFileFilters ofnOpts.filterObj ≠ none)
    (hdec : GetFileName.decode (GetFileName.flags ofnOpts isOpen) env = some (value, got)) :
    ((∃ r val, GetFileName TCL_OK ofnOpts interp env isOpen = Except.ok r
          ∧ r.decoded = some val)
      ↔ (env.winCode ≠ 0 ∨ (env.cdlgerr = FNERR_BUFFERTOOSMALL ∧ ofnOpts.multi = true)))
    ∧ ((env.winCode ≠ 0 ∨ (env.cdlgerr = FNERR_BUFFERTOOSMALL ∧ ofnOpts.multi = true)) →
        ¬ (env.nFilterIndex > 0 ∧ got = true ∧ ofnOpts.typeVariableObj ≠ none
            ∧ ofnOpts.filterObj ≠ none ∧ env.typeStore ≠ none) →
        ∃ r, GetFileName TCL_OK ofnOpts interp env isOpen = Except.ok r
          ∧ r.code = TCL_OK ∧ r.interp = { result := value, errorCode := [] }
          ∧ r.decoded = some value)
    ∧ (ofnOpts.multi = true →
        ∃ names, decodeMulti env.dynFileBuffer = some (names, got)
          ∧ value = TclValue.list names)
    ∧ (env.winCode = 0 → env.cdlgerr = FNERR_BUFFERTOOSMALL → ofnOpts.multi = false →
        ∃ r, GetFileName TCL_OK ofnOpts interp env isOpen = Except.ok r
          ∧ r.code = TCL_OK ∧ r.interp = InterpResult.reset ∧ r.decoded = none) := by
  have hflag := flags_multi ofnOpts isOpen
  rw [GetFileName_legacy ofnOpts interp env isOpen v hv hc hf]
  refine ⟨?_, ?_, ?_, ?_⟩
  · by_cases hcond : env.winCode ≠ 0
        ∨ (env.cdlgerr = FNERR_BUFFERTOOSMALL ∧ ofnOpts.multi = true)
    · simp only [hcond, iff_true]
      rw [process_tolerated TCL_CONTINUE ofnOpts env isOpen value got hcond hdec]
      by_cases hatt : env.nFilterIndex > 0 ∧ got = true ∧ ofnOpts.typeVariableObj ≠ none
          ∧ ofnOpts.filterObj ≠ none
      · rw [if_pos hatt]
        cases env.typeStore with
        | none => exact ⟨_, _, rfl, rfl⟩
        | some failure => exact ⟨_, _, rfl, rfl⟩
      · rw [if_neg hatt]
        exact ⟨_, _, rfl, rfl⟩
    · simp only [hcond, iff_false]
      rw [process_failed TCL_CONTINUE ofnOpts env isOpen hcond]
      rintro ⟨r, val, hr, hd⟩
      by_cases hinv : env.cdlgerr = FNERR_INVALIDFILENAME
      · rw [if_pos hinv] at hr
        cases hname : ConvertExternalFilename env.lpstrFile with
        | none => rw [hname] at hr; exact Except.noConfusion hr
        | some name =>
          rw [hname] at hr
          injection hr with hr
          subst hr
          exact Option.noConfusion hd
      · rw [if_neg hinv] at hr
        injection hr with hr
        subst hr
        exact Option.noConfusion hd
  · intro hcond hstore
    rw [process_tolerated TCL_CONTINUE ofnOpts env isOpen value got hcond hdec]
    by_cases hatt : env.nFilterIndex > 0 ∧ got = true ∧ ofnOpts.typeVariableObj ≠ none
        ∧ ofnOpts.filterObj ≠ none
    · rw [if_pos hatt]
      cases hts : env.typeStore with
      | none => exact ⟨_, rfl, rfl, rfl, rfl⟩
      | some failure =>
        exact absurd ⟨hatt.1, hatt.2.1, hatt.2.2.1, hatt.2.2.2, by simp [hts]⟩ hstore
    · rw [if_neg hatt]
      exact ⟨_, rfl, rfl, rfl, rfl⟩
  · intro hm
    have hbit := hflag.mpr hm
    unfold GetFileName.decode at hdec
    rw [if_pos hbit] at hdec
    cases hd : decodeMulti env.dynFileBuffer with
    | none => rw [hd] at hdec; exact Option.noConfusion hdec
    | some r =>
      rw [hd] at hdec
      simp only [Option.map_some', Option.some.injEq, Prod.mk.injEq] at hdec
      exact ⟨r.1, by rw [← hdec.2], hdec.1.symm⟩
  · intro hwin herr hm
    have hcond : ¬ (env.winCode ≠ 0
        ∨ (env.cdlgerr = FNERR_BUFFERTOOSMALL ∧ ofnOpts.multi = true)) := by
      rintro (h1 | ⟨_, h2⟩)
      · exact h1 hwin
      · rw [hm] at h2
        exact Bool.noConfusion h2
    have hne : ¬ env.cdlgerr = FNERR_INVALIDFILENAME := by
      rw [herr]; decide
    rw [process_failed TCL_CONTINUE ofnOpts env isOpen hcond, if_neg hne]
    exact ⟨_, rfl, rfl, rfl, rfl⟩

/-- C8, amended, at a multi-selection call that fails with
`FNERR_BUFFERTOOSMALL` while the dynamic buffer holds the directory `C:\d` and
the names `a` and `b`: the two joined names are returned with `TCL_OK`. -/
theorem GetFileName_buffer_too_small_witness :
    ∃ r, GetFileName TCL_OK { defaultOFNOpts with multi := true } InterpResult.reset
          { cancelledEnv with
              cdlgerr := FNERR_BUFFERTOOSMALL,
              dynFileBuffer := multiBuffer ['C', ':', '\\', 'd'] [['a'], ['b']] } true
        = Except.ok r
      ∧ r.code = TCL_OK
      ∧ r.interp = { result := TclValue.list [['C', ':', '/', 'd', '/', 'a'],
                                              ['C', ':', '/', 'd', '/', 'b']],
                     errorCode := [] }
      ∧ r.decoded = some (TclValue.list [['C', ':', '/', 'd', '/', 'a'],
                                         ['C', ':', '/', 'd', '/', 'b']]) :=
  (GetFileName_buffer_too_small { defaultOFNOpts with multi := true } InterpResult.reset
      { cancelledEnv with
          cdlgerr := FNERR_BUFFERTOOSMALL,
          dynFileBuffer := multiBuffer ['C', ':', '\\', 'd'] [['a'], ['b']] } true
      { code := TCL_CONTINUE, useNewFileDialogs := FdlgState.USE_OLD, shown := false }
      (TclValue.list [['C', ':', '/', 'd', '/', 'a'], ['C', ':', '/', 'd', '/', 'b']]) true
      rfl rfl (by decide) (by decide)).2.1 (Or.inr ⟨rfl, rfl⟩) (by decide)

/-! ## The message box: claims -/

/-- C9. Validation of the default button of the message box: for every button
type `T` and every button name `B`, Tk_MessageBoxObjCmd with `-type T` and
`-default B`, in either order, fails with the message
`invalid default button "B"` and the error code `TK MSGBOX DEFAULT`, without
a call of the native message box, exactly when `B` is not among the buttons
listed for `T` in `allowedTypes`; and when `B` is the `j`-th (0-based) button
of `T` the command succeeds with one native call whose flags hold the
default-button flag `buttonFlagMap[j]` (the default-button bits of the flags
are that flag). -/
theorem MessageBox_default_button (env : MsgBoxEnv) (tkwin : Window) (T B : String)
    (args : List String) (hT : T ∈ typeNames) (hB : B ∈ buttonNames)
    (hargs : args = ["-type", T, "-default", B] ∨ args = ["-default", B, "-type", T]) :
    (Tk_MessageBoxObjCmd env tkwin args
        = Except.ok
            { code := TCL_ERROR,
              interp := { result := TclValue.str
                            ("invalid default button \"" ++ B ++ "\"").toList,
                          errorCode := ["TK", "MSGBOX", "DEFAULT"] },
              shown := [] }
      ↔ B ∉ buttonsOf T)
    ∧ (∀ j, (buttonsOf T).get? j = some B →
        ∃ r flag flags, Tk_MessageBoxObjCmd env tkwin args = Except.ok r
          ∧ r.code = TCL_OK
          ∧ nativeFlags (Tk_MessageBoxObjCmd env tkwin args) = [flags]
          ∧ buttonFlagMap.get? j = some flag
          ∧ flags &&& MB_DEFMASK = flag ∧ flags ||| flag = flags) := by
  have hcmd : Tk_MessageBoxObjCmd env tkwin args
      = Tk_MessageBoxObjCmd.finish env (typeAndDefault tkwin T B) := by
    rcases hargs with rfl | rfl
    · exact (options_type_default env tkwin T B hT hB).1
    · exact (options_type_default env tkwin T B hT hB).2
  have hbtn := button_name_round_trip B hB
  have hlisted : ∀ j, (buttonsOf T).get? j = some B →
      j < 3 ∧ defaultIndexOf T B = some (j : Int) := by
    intro j hj
    have hlt : j < (buttonsOf T).length := by
      by_contra hge
      rw [List.get?_eq_none.mpr (by omega)] at hj
      exact Option.noConfusion hj
    have h3 := buttonsOf_length T hT
    exact ⟨by omega, defaultIndexOf_position T hT B hB j (by omega) hj⟩
  have hpos : ∀ j, (buttonsOf T).get? j = some B →
      ∃ r flag flags, Tk_MessageBoxObjCmd env tkwin args = Except.ok r
        ∧ r.code = TCL_OK
        ∧ nativeFlags (Tk_MessageBoxObjCmd env tkwin args) = [flags]
        ∧ buttonFlagMap.get? j = some flag
        ∧ flags &&& MB_DEFMASK = flag ∧ flags ||| flag = flags := by
    intro j hj
    obtain ⟨hj3, hidx⟩ := hlisted j hj
    obtain ⟨flag, hflag⟩ : ∃ flag, buttonFlagMap.get? j = some flag := by
      have hjs : j = 0 ∨ j = 1 ∨ j = 2 := by omega
      rcases hjs with rfl | rfl | rfl <;> exact ⟨_, rfl⟩
    obtain ⟨r, hr, hcode, hflags⟩ :=
      finish_listed env (typeAndDefault tkwin T B) j flag hbtn.1 hidx hflag
    have hkept := default_flag_kept T hT j hj3 flag hflag
    rw [hcmd]
    exact ⟨r, flag, _, hr, hcode, hflags, hflag, hkept.1, hkept.2⟩
  refine ⟨?_, hpos⟩
  constructor
  · intro hfail hmem
    obtain ⟨j, hj⟩ := List.mem_iff_get?.mp hmem
    obtain ⟨r, _, _, hr, hcode, _⟩ := hpos j hj
    rw [hr] at hfail
    injection hfail with hfail
    rw [hfail] at hcode
    have hcode2 : TCL_ERROR = TCL_OK := hcode
    revert hcode2
    decide
  · intro hnot
    have hidx := (defaultIndexOf_none_iff T hT B hB).mpr hnot
    rw [hcmd, finish_unlisted env (typeAndDefault tkwin T B) hbtn.1 hidx]
    have hname : TkFindStateString buttonMap (typeAndDefault tkwin T B).defaultBtn = some B :=
      hbtn.2
    rw [hname]
    rfl

/-- C9 at `-type yesno -default cancel`: the command fails, and no native
message box is shown. -/
theorem MessageBox_default_button_witness :
    Tk_MessageBoxObjCmd okEnv 0 ["-type", "yesno", "-default", "cancel"]
      = Except.ok
          { code := TCL_ERROR,
            interp := { result := TclValue.str "invalid default button \"cancel\"".toList,
                        errorCode := ["TK", "MSGBOX", "DEFAULT"] },
            shown := [] } :=
  (MessageBox_default_button okEnv 0 "yesno" "cancel" ["-type", "yesno", "-default", "cancel"]
    (by decide) (by decide) (Or.inl rfl)).1.mpr (by decide)

/-! ## The startup script: claims -/

/-- C10. Startup-script resolution in Tk_MainEx when the application has set
no script: for an argument vector with more than three entries whose
`argv[1]` is exactly `-encoding` and whose `argv[3]` does not begin with `-`,
the script path is `argv[3]`, its encoding `argv[2]`, and three argument
slots are consumed; otherwise, for an argument vector with more than one
entry whose `argv[1]` does not begin with `-`, the script path is `argv[1]`
with no encoding and one slot is consumed.  This holds with and without
`ZIPFS_IN_TCL`. -/
theorem Tk_MainEx_startup_script (zipfs : Bool) (argv : List String) :
    (argv.length > 3 ∧ argv.getD 1 "" = "-encoding" ∧ firstChar (argv.getD 3 "") ≠ '-' →
      (Tk_MainEx.resolve zipfs none argv).script
          = some { path := argv.getD 3 "", encodingName := some (argv.getD 2 "") }
        ∧ (Tk_MainEx.resolve zipfs none argv).argv = argv.drop 3)
    ∧ (¬ (argv.length > 3 ∧ argv.getD 1 "" = "-encoding"
            ∧ firstChar (argv.getD 3 "") ≠ '-') →
        argv.length > 1 → firstChar (argv.getD 1 "") ≠ '-' →
        (Tk_MainEx.resolve zipfs none argv).script
            = some { path := argv.getD 1 "", encodingName := none }
          ∧ (Tk_MainEx.resolve zipfs none argv).argv = argv.drop 1) := by
  constructor
  · intro h
    unfold Tk_MainEx.resolve
    simp only [h, and_self, if_true, ne_eq, not_false_eq_true]
  · intro h hlen hfirst
    have hzip : ¬ (zipfs = true ∧ (argv.getD 1 "").length ≥ 2
        ∧ tcsncmpEq "-zip" (argv.getD 1 "") (argv.getD 1 "").length = true) := by
      rintro ⟨_, hl, hcmp⟩
      exact hfirst (firstChar_of_zip_option _ hl hcmp)
    unfold Tk_MainEx.resolve
    simp only [h, if_false, hlen, if_true, hzip, hfirst, ne_eq, not_false_eq_true]
    exact ⟨trivial, trivial⟩

/-- C10 at the two argument vectors `wish -encoding utf-8 app.tcl x` and
`wish app.tcl x`. -/
theorem Tk_MainEx_startup_script_witness :
    ((Tk_MainEx.resolve true none ["wish", "-encoding", "utf-8", "app.tcl", "x"]).script
        = some { path := "app.tcl", encodingName := some "utf-8" }
      ∧ (Tk_MainEx.resolve true none ["wish", "-encoding", "utf-8", "app.tcl", "x"]).argv
        = ["app.tcl", "x"])
    ∧ ((Tk_MainEx.resolve true none ["wish", "app.tcl", "x"]).script
        = some { path := "app.tcl", encodingName := none }
      ∧ (Tk_MainEx.resolve true none ["wish", "app.tcl", "x"]).argv = ["app.tcl", "x"]) :=
  ⟨(Tk_MainEx_startup_script true ["wish", "-encoding", "utf-8", "app.tcl", "x"]).1
      (by decide),
   (Tk_MainEx_startup_script true ["wish", "app.tcl", "x"]).2
      (by decide) (by decide) (by decide)⟩

/-- C11 fails on the code (evaluation at the failing input): for the argument
vector `wish -file app.tcl`, with or without `ZIPFS_IN_TCL`, no startup script
is set and no argument slot is consumed, so `argv0` is `wish` and the
script-visible `argv` is `-file app.tcl`.  The test for the `-file` form
stands behind `else if (argc > 1)`, which every vector of more than two
entries already satisfies. -/
theorem Tk_MainEx_file_form_unreachable :
    (∀ zipfs : Bool,
      Tk_MainEx.resolve zipfs none ["wish", "-file", "app.tcl"]
        = { script := none, argv := ["wish", "-file", "app.tcl"], zipval := none,
            autoRun := true })
    ∧ (∀ zipfs : Bool,
      Tk_MainEx.globals (Tk_MainEx.resolve zipfs none ["wish", "-file", "app.tcl"])
        = { argv0 := "wish", argc := 2, argv := ["-file", "app.tcl"] }) := by
  constructor <;> intro zipfs <;> cases zipfs <;> decide

/-- C12 fails on the code (evaluation at the failing input): built with
`ZIPFS_IN_TCL`, for the argument vector `wish -zip app.zip x` no startup
script is resolved, the `-zip` arm has advanced `argv` by two slots, and
`argv0` is read through the advanced pointer: it is set to `app.zip`, not to
`argv[0]`, the program name `wish`, as on the other path without a script. -/
theorem Tk_MainEx_argv0_after_zip :
    ¬ (∀ (zipfs : Bool) (preset : Option StartupScript) (argv : List String),
        argv ≠ [] →
        (Tk_MainEx.globals (Tk_MainEx.resolve zipfs preset argv)).argv
            = argv.drop (1 + (argv.length - (Tk_MainEx.resolve zipfs preset argv).argv.length))
          ∧ (Tk_MainEx.globals (Tk_MainEx.resolve zipfs preset argv)).argc
              = ((Tk_MainEx.globals (Tk_MainEx.resolve zipfs preset argv)).argv.length : Int)
          ∧ (Tk_MainEx.globals (Tk_MainEx.resolve zipfs preset argv)).argv0
              = match (Tk_MainEx.resolve zipfs preset argv).script with
                | some script => script.path
                | none => argv.getD 0 "") := by
  intro h
  have h1 := (h true none ["wish", "-zip", "app.zip", "x"] (by decide)).2.2
  revert h1
  decide

/-- Script-visible arguments, where the code agrees with C12: for every
argument vector with at least one entry, with `k` the number of slots
consumed by the resolution of the startup script (at most 3, and all
present), after Tk_MainEx sets the
globals `argv` is the list of the arguments that follow the program name and
those `k` slots, in their order; `argc` is the length of that list; `argv0`
is the path of the startup script when there is one, and `argv[0]` when there
is none and no slot was consumed, which without `ZIPFS_IN_TCL` is always the
case when there is none. -/
theorem Tk_MainEx_script_arguments (zipfs : Bool) (preset : Option StartupScript)
    (argv : List String) (hne : argv ≠ []) :
    ∃ k, k ≤ 3 ∧ k + 1 ≤ argv.length
      ∧ (Tk_MainEx.resolve zipfs preset argv).argv = argv.drop k
      ∧ (Tk_MainEx.globals (Tk_MainEx.resolve zipfs preset argv)).argv = argv.drop (k + 1)
      ∧ (Tk_MainEx.globals (Tk_MainEx.resolve zipfs preset argv)).argc
          = ((Tk_MainEx.globals (Tk_MainEx.resolve zipfs preset argv)).argv.length : Int)
      ∧ (∀ script, (Tk_MainEx.resolve zipfs preset argv).script = some script →
          (Tk_MainEx.globals (Tk_MainEx.resolve zipfs preset argv)).argv0 = script.path)
      ∧ ((Tk_MainEx.resolve zipfs preset argv).script = none → k = 0 →
          (Tk_MainEx.globals (Tk_MainEx.resolve zipfs preset argv)).argv0 = argv.getD 0 "")
      ∧ ((Tk_MainEx.resolve zipfs preset argv).script = none → zipfs = false → k = 0) := by
  obtain ⟨k, hk3, hklen, hdrop, hzip⟩ := resolve_drops zipfs preset argv hne
  refine ⟨k, hk3, hklen, hdrop, ?_, ?_, ?_, ?_, hzip⟩
  · simp only [Tk_MainEx.globals, hdrop, List.drop_drop]
  · simp only [Tk_MainEx.globals, hdrop, List.length_drop]
    omega
  · intro script hs
    simp only [Tk_MainEx.globals, hs]
  · intro hs hk0
    subst hk0
    simp only [Tk_MainEx.globals, hs, hdrop, List.drop_zero]

/-- Script-visible arguments at the vector `wish -encoding utf-8 app.tcl a b`:
three slots are consumed, `argv` is `a b`, `argc` is 2 and `argv0` is
`app.tcl`. -/
theorem Tk_MainEx_script_arguments_witness :
    ∃ k, k ≤ 3 ∧ k + 1 ≤ 6
      ∧ (Tk_MainEx.globals (Tk_MainEx.resolve false none
            ["wish", "-encoding", "utf-8", "app.tcl", "a", "b"])).argv
          = ["wish", "-encoding", "utf-8", "app.tcl", "a", "b"].drop (k + 1)
      ∧ (Tk_MainEx.globals (Tk_MainEx.resolve false none
            ["wish", "-encoding", "utf-8", "app.tcl", "a", "b"])).argv0 = "app.tcl" := by
  obtain ⟨k, h1, h2, _, h4, _, h6, _, _⟩ :=
    Tk_MainEx_script_arguments false none
      ["wish", "-encoding", "utf-8", "app.tcl", "a", "b"] (by decide)
  exact ⟨k, h1, h2, h4, h6 _ rfl⟩

/-- C20 as stated fails: with no standard output channel, no command pending
and no prompt variable set, Prompt writes no default prompt and flushes
nothing. -/
theorem Prompt_without_stdout :
    ¬ (∀ (I : Interp String) (s : String) (isPtr : InteractiveState),
        ((∃ chan, Action.writeChars chan DEFAULT_PRIMARY_PROMPT ∈ (Prompt I s isPtr).2)
          ↔ (isPtr.gotPartial = false
              ∧ (I.getVar2Ex s (promptVariable isPtr) = none
                  ∨ ∃ cmd, I.getVar2Ex s (promptVariable isPtr) = some cmd
                      ∧ (I.evalObjEx s cmd).2 ≠ TCL_OK)))
        ∧ (∃ chan, Action.flush chan ∈ (Prompt I s isPtr).2)) := by
  intro h
  obtain ⟨chan, hmem⟩ :=
    (h { braceInterp with getStdChannel := fun _ _ => none } ""
      (initialState (some 0) true)).2
  have e : (Prompt { braceInterp with getStdChannel := fun _ _ => none } ""
      (initialState (some 0) true)).2 = [] := rfl
  rw [e] at hmem
  exact absurd hmem (List.not_mem_nil _)

/-- C20, amended. Prompt protocol when standard output and standard error
exist: Prompt looks up `tcl_prompt2` if a command is pending and `tcl_prompt1`
otherwise, and no other variable decides what it does; the default prompt
`% ` is written to standard output exactly when no command is pending and the
variable is unset or the evaluation of its script does not return `TCL_OK`;
with a command pending no default prompt is written to any channel; when the
script fails with a non-empty result, that result and a newline are written
to standard error; and the last call on every path is the flush of standard
output. -/
theorem Prompt_protocol {σ : Type} (I : Interp σ) (s : σ) (isPtr : InteractiveState)
    (out err : Channel)
    (hout : ∀ s', I.getStdChannel s' StdId.stdout = some out)
    (herr : ∀ s', I.getStdChannel s' StdId.stderr = some err) :
    (promptVariable isPtr = if isPtr.gotPartial then "tcl_prompt2" else "tcl_prompt1")
    ∧ (∀ g : σ → String → Option String,
        g s (promptVariable isPtr) = I.getVar2Ex s (promptVariable isPtr) →
        Prompt { I with getVar2Ex := g } s isPtr = Prompt I s isPtr)
    ∧ (Action.writeChars out DEFAULT_PRIMARY_PROMPT ∈ (Prompt I s isPtr).2
        ↔ (isPtr.gotPartial = false
            ∧ (I.getVar2Ex s (promptVariable isPtr) = none
                ∨ ∃ cmd, I.getVar2Ex s (promptVariable isPtr) = some cmd
                    ∧ (I.evalObjEx s cmd).2 ≠ TCL_OK)))
    ∧ (isPtr.gotPartial = true →
        ∀ chan, Action.writeChars chan DEFAULT_PRIMARY_PROMPT ∉ (Prompt I s isPtr).2)
    ∧ (∀ cmd, I.getVar2Ex s (promptVariable isPtr) = some cmd →
        (I.evalObjEx s cmd).2 ≠ TCL_OK →
        I.getObjResult (I.addErrorInfo (I.evalObjEx s cmd).1
            "\n    (script that generates prompt)") ≠ "" →
        [Action.writeObj err (I.getObjResult (I.addErrorInfo (I.evalObjEx s cmd).1
            "\n    (script that generates prompt)")), Action.writeChars err "\n"]
          <:+: (Prompt I s isPtr).2)
    ∧ (Prompt I s isPtr).2.getLast? = some (Action.flush out) := by
  have htrace := Prompt_trace I s isPtr out err hout herr
  have hnl : ("\n" : String) ≠ DEFAULT_PRIMARY_PROMPT := by decide
  refine ⟨rfl, ?_, ?_, ?_, ?_, ?_⟩
  · intro g hg
    unfold promptVariable at hg
    unfold Prompt Prompt.defaultPrompt Prompt.flushStdout
    simp only [hg]
  · rw [htrace]
    cases hv : I.getVar2Ex s (promptVariable isPtr) with
    | none =>
      cases hp : isPtr.gotPartial <;> simp
    | some promptCmd =>
      by_cases hcode : (I.evalObjEx s promptCmd).2 ≠ TCL_OK
      · simp only [hcode, if_true, ne_eq, not_false_eq_true]
        cases hp : isPtr.gotPartial <;>
          by_cases hres : I.getObjResult (I.addErrorInfo (I.evalObjEx s promptCmd).1
              "\n    (script that generates prompt)") = "" <;>
          simp [hres, hcode, hnl, DEFAULT_PRIMARY_PROMPT]
      · simp only [hcode, if_false]
        have hc2 : (I.evalObjEx s promptCmd).2 = TCL_OK := not_not.mp hcode
        simp [hc2]
  · intro hp chan
    rw [htrace]
    cases hv : I.getVar2Ex s (promptVariable isPtr) with
    | none => simp [hp]
    | some promptCmd =>
      by_cases hcode : (I.evalObjEx s promptCmd).2 ≠ TCL_OK
      · simp only [hcode, if_true, ne_eq, not_false_eq_true, hp]
        by_cases hres : I.getObjResult (I.addErrorInfo (I.evalObjEx s promptCmd).1
            "\n    (script that generates prompt)") = "" <;>
          simp [hres, DEFAULT_PRIMARY_PROMPT]
      · simp only [hcode, if_false]
        simp
  · intro cmd hv hcode hres
    rw [htrace, hv]
    simp only [hcode, if_true, ne_eq, not_false_eq_true, hres]
    refine ⟨[Action.evalObjEx cmd],
      (if isPtr.gotPartial then [] else [Action.writeChars out DEFAULT_PRIMARY_PROMPT])
        ++ [Action.flush out], ?_⟩
    simp
  · rw [htrace]
    cases hv : I.getVar2Ex s (promptVariable isPtr) with
    | none => simp
    | some promptCmd =>
      by_cases hcode : (I.evalObjEx s promptCmd).2 ≠ TCL_OK
      · simp only [hcode, if_true, ne_eq, not_false_eq_true]
        cases hp : isPtr.gotPartial <;>
          by_cases hres : I.getObjResult (I.addErrorInfo (I.evalObjEx s promptCmd).1
              "\n    (script that generates prompt)") = "" <;>
          simp [hres]
      · simp only [hcode, if_false]
        simp

/-- C20, amended, at a terminal with no prompt variable set and no command
pending: the default prompt is written and standard output flushed. -/
theorem Prompt_protocol_witness :
    Action.writeChars 1 DEFAULT_PRIMARY_PROMPT
        ∈ (Prompt braceInterp "" (initialState (some 0) true)).2
    ∧ (Prompt braceInterp "" (initialState (some 0) true)).2.getLast?
        = some (Action.flush 1) :=
  ⟨((Prompt_protocol braceInterp "" (initialState (some 0) true) 1 2
      (fun _ => rfl) (fun _ => rfl)).2.2.1).mpr ⟨rfl, Or.inl rfl⟩,
   (Prompt_protocol braceInterp "" (initialState (some 0) true) 1 2
      (fun _ => rfl) (fun _ => rfl)).2.2.2.2.2⟩

/-! ## The directory chooser: claims -/

/-- C14 fails on the code (evaluation at the failing input): when the browser
returns an item that does not convert to a file system path, whatever the
conversion leaves in `path`, Tk_ChooseDirectoryObjCmd returns `TCL_OK` with no
error code: the message `error: not a file system folder` and the error code
it sets are discarded by the `Tcl_ResetResult` that follows.  With `path`
left empty the result is empty. -/
theorem ChooseDirectory_pseudo_folder_not_reported :
    (∀ path : List Char,
      (Tk_ChooseDirectoryObjCmd
          { cancelledDirEnv with pidl := some { converts := false, path := path } } 0 []).code
        = TCL_OK
      ∧ (Tk_ChooseDirectoryObjCmd
          { cancelledDirEnv with pidl := some { converts := false, path := path } } 0
          []).interp.errorCode = [])
    ∧ Tk_ChooseDirectoryObjCmd
          { cancelledDirEnv with pidl := some { converts := false, path := [] } } 0 []
        = { code := TCL_OK, interp := InterpResult.reset, browsed := true, calls := [],
            values := [] } := by
  constructor
  · intro path
    constructor
    · rfl
    · by_cases h : path = []
      · subst h
        rfl
      · simp [Tk_ChooseDirectoryObjCmd, Tk_ChooseDirectoryObjCmd.options,
          Tk_ChooseDirectoryObjCmd.browse, cancelledDirEnv, h]
  · rfl

/-! ## The color chooser: claims -/

/-- C16. Result format of the color chooser: when the options parse and the
native dialog is accepted with a color whose components are `R`, `G` and `B`
(each at most 255), Tk_ChooseColorObjCmd returns `TCL_OK` with a string of 7
characters: `#`, then the two lower-case hexadecimal digits of `R`, of `G`
and of `B`; reading the three pairs back gives `R`, `G` and `B`; in
particular for the color `RGB(R, G, B)`.  When the dialog is cancelled the
command returns `TCL_OK` with an empty result. -/
theorem ChooseColor_result_format (env : ColorEnv) (statics : ColorStatics) (tkwin : Window)
    (args : List String) (vars : ColorVars)
    (hopts : Tk_ChooseColorObjCmd.options env tkwin args
          { parent := tkwin, rgbResult := rememberedColor statics, title := none }
        = Except.ok vars) :
    (env.winCode ≠ 0 →
      ∃ str : List Char,
        (Tk_ChooseColorObjCmd env statics tkwin args).1.code = TCL_OK
        ∧ (Tk_ChooseColorObjCmd env statics tkwin args).1.interp.result = TclValue.str str
        ∧ str = ['#'] ++ printf02x (GetRValue (env.rgbResult % 2 ^ 32))
                  ++ printf02x (GetGValue (env.rgbResult % 2 ^ 32))
                  ++ printf02x (GetBValue (env.rgbResult % 2 ^ 32))
        ∧ str.length = 7
        ∧ (∀ c ∈ str.drop 1, c ∈ "0123456789abcdef".toList)
        ∧ parseHexPair ((str.drop 1).take 2) = some (GetRValue (env.rgbResult % 2 ^ 32))
        ∧ parseHexPair ((str.drop 3).take 2) = some (GetGValue (env.rgbResult % 2 ^ 32))
        ∧ parseHexPair ((str.drop 5).take 2) = some (GetBValue (env.rgbResult % 2 ^ 32))
        ∧ GetRValue (env.rgbResult % 2 ^ 32) < 256
        ∧ GetGValue (env.rgbResult % 2 ^ 32) < 256
        ∧ GetBValue (env.rgbResult % 2 ^ 32) < 256)
    ∧ (∀ R G B, R < 256 → G < 256 → B < 256 → env.rgbResult = RGB R G B →
        GetRValue (env.rgbResult % 2 ^ 32) = R ∧ GetGValue (env.rgbResult % 2 ^ 32) = G
          ∧ GetBValue (env.rgbResult % 2 ^ 32) = B)
    ∧ (env.winCode = 0 →
        (Tk_ChooseColorObjCmd env statics tkwin args).1.code = TCL_OK
        ∧ (Tk_ChooseColorObjCmd env statics tkwin args).1.interp = InterpResult.reset) := by
  have hcmd := ChooseColor_of_ok env statics tkwin args vars hopts
  obtain ⟨hR, hG, hB⟩ := components_lt (env.rgbResult % 2 ^ 32)
  obtain ⟨hRl, hRp, hRc⟩ := printf02x_byte _ hR
  obtain ⟨hGl, hGp, hGc⟩ := printf02x_byte _ hG
  obtain ⟨hBl, hBp, hBc⟩ := printf02x_byte _ hB
  refine ⟨?_, ?_, ?_⟩
  · intro hwin
    rw [hcmd, if_pos hwin]
    obtain ⟨hlen, hdrop, h1, h3, h5⟩ := hex_string_parts _ _ _ hRl hGl hBl
    refine ⟨_, rfl, rfl, rfl, hlen, ?_, ?_, ?_, ?_, hR, hG, hB⟩
    · intro c hc
      rw [hdrop] at hc
      rcases List.mem_append.mp hc with h | h
      · rcases List.mem_append.mp h with h | h
        · exact hRc c h
        · exact hGc c h
      · exact hBc c h
    · rw [h1]; exact hRp
    · rw [h3]; exact hGp
    · rw [h5]; exact hBp
  · intro R G B hR' hG' hB' hrgb
    obtain ⟨hmod, h1, h2, h3⟩ := components_of_RGB R G B hR' hG' hB'
    rw [hrgb, hmod]
    exact ⟨h1, h2, h3⟩
  · intro hwin
    rw [hcmd]
    simp [hwin]

/-- C16 at an accepted dialog that stored red 0x12, green 0xab, blue 0xff:
the result is `#12abff`. -/
theorem ChooseColor_result_format_witness :
    (Tk_ChooseColorObjCmd acceptingColorEnv ColorStatics.start 0 []).1.interp.result
      = TclValue.str "#12abff".toList := by
  obtain ⟨str, _, h2, h3, _⟩ :=
    (ChooseColor_result_format acceptingColorEnv ColorStatics.start 0 []
      { parent := 0, rgbResult := rememberedColor ColorStatics.start, title := none }
      rfl).1 (by decide)
  rw [h2, h3]
  decide

/-! ## The font chooser configuration: claims -/

/-- C17 fails as stated (evaluation on a concrete input): on the stored
configuration in which nothing is set, `tk fontchooser configure -title X
-visible 1` returns `TCL_ERROR` for the read-only option, and the title of the
stored configuration has become `X`: the pair before the failing option stays
applied. -/
theorem FontchooserConfigureCmd_not_atomic :
    (FontchooserConfigureCmd fontEnv HookData.start ["-title", "X", "-visible", "1"]).code
      = TCL_ERROR
    ∧ (FontchooserConfigureCmd fontEnv HookData.start ["-title", "X", "-visible", "1"]).hd
      = { HookData.start with titleObj := some "X" }
    ∧ (FontchooserConfigureCmd fontEnv HookData.start ["-title", "X", "-visible", "1"]).hd
      ≠ HookData.start := by
  decide

/-- C17, amended. When FontchooserConfigureCmd returns an error, there is an
option position `2 * n` of the argument list at which the word names no
option, is the last of several words (its value is missing), names the
read-only `-visible`, or names
`-parent` with a value that is not a window; the call with only the `n`
option/value pairs before that word succeeds, and the stored configuration
after the failing call is the one that successful call leaves: the
configuration before the call with the pairs preceding the failing option
applied.  When the failing option is the first word (`n = 0`) the stored
configuration is identical to the one before the call. -/
theorem FontchooserConfigureCmd_error_state (env : FontEnv) (hdPtr : HookData)
    (args : List String)
    (herr : (FontchooserConfigureCmd env hdPtr args).code = TCL_ERROR) :
    ∃ n, 2 * n < args.length
      ∧ FontchooserConfigureCmd.failsAt env (args.length + 1) args (2 * n) = true
      ∧ (FontchooserConfigureCmd env hdPtr (args.take (2 * n))).code = TCL_OK
      ∧ (FontchooserConfigureCmd env hdPtr args).hd
        = (FontchooserConfigureCmd env hdPtr (args.take (2 * n))).hd
      ∧ (n = 0 → (FontchooserConfigureCmd env hdPtr args).hd = hdPtr) := by
  have key : ∀ n, 2 * n < args.length →
      FontchooserConfigureCmd env hdPtr (args.take (2 * n))
        = if n = 0 then
            { code := TCL_OK,
              interp := { result := FontchooserConfigureCmd.all hdPtr, errorCode := [] },
              hd := hdPtr }
          else FontchooserConfigureCmd.loop env 3 (args.take (2 * n)) hdPtr := by
    intro n hn
    by_cases h0 : n = 0
    · subst h0
      simp [FontchooserConfigureCmd]
    · have hlen : (args.take (2 * n)).length = 2 * n := by
        rw [List.length_take]; omega
      simp only [FontchooserConfigureCmd, hlen, h0, if_false]
      rw [if_neg (by omega)]
      exact loop_objc env _ _ (by omega) (by omega) _ _
  match args, herr, key with
  | [], herr, _ =>
    have h2 : TCL_OK = TCL_ERROR := herr
    exact absurd h2 (by decide)
  | [a], herr, _ =>
    refine ⟨0, by simp, ?_, rfl, ?_, ?_⟩
    · cases hl : Tcl_GetIndexFromObjStruct fontOptionStrings false a with
      | none => simp [FontchooserConfigureCmd.failsAt, hl]
      | some idx =>
        simp [FontchooserConfigureCmd, FontchooserConfigureCmd.loop, hl] at herr
        exact absurd herr (by decide)
    · cases hl : Tcl_GetIndexFromObjStruct fontOptionStrings false a <;>
        simp [FontchooserConfigureCmd, FontchooserConfigureCmd.loop, hl]
    · intro _
      cases hl : Tcl_GetIndexFromObjStruct fontOptionStrings false a <;>
        simp [FontchooserConfigureCmd, FontchooserConfigureCmd.loop, hl]
  | a :: b :: rest, herr, key =>
    have hcmd : FontchooserConfigureCmd env hdPtr (a :: b :: rest)
        = FontchooserConfigureCmd.loop env 3 (a :: b :: rest) hdPtr := by
      simp only [FontchooserConfigureCmd, List.length_cons]
      rw [if_neg (by omega)]
      exact loop_objc env _ _ (by omega) (by omega) _ _
    rw [hcmd] at herr
    obtain ⟨n, hn, hf, hok, hhd⟩ := loop_error_prefix env 3 (by omega) _ _ herr
    refine ⟨n, hn, hf, ?_, ?_, ?_⟩
    · rw [key n hn]
      by_cases h0 : n = 0
      · simp [h0]
      · simp only [h0, if_false]; exact hok
    · rw [key n hn, hcmd, hhd]
      by_cases h0 : n = 0
      · subst h0; simp [FontchooserConfigureCmd.loop]
      · simp only [h0, if_false]
    · intro h0
      subst h0
      rw [hcmd, hhd]
      simp [FontchooserConfigureCmd.loop]

/-- C17, amended, at `tk fontchooser configure -title X -visible 1` on the
configuration in which nothing is set. -/
theorem FontchooserConfigureCmd_error_state_witness :
    ∃ n, 2 * n < ["-title", "X", "-visible", "1"].length
      ∧ FontchooserConfigureCmd.failsAt fontEnv 5 ["-title", "X", "-visible", "1"] (2 * n)
        = true
      ∧ (FontchooserConfigureCmd fontEnv HookData.start
          (["-title", "X", "-visible", "1"].take (2 * n))).code = TCL_OK
      ∧ (FontchooserConfigureCmd fontEnv HookData.start ["-title", "X", "-visible", "1"]).hd
        = (FontchooserConfigureCmd fontEnv HookData.start
            (["-title", "X", "-visible", "1"].take (2 * n))).hd
      ∧ (n = 0 → (FontchooserConfigureCmd fontEnv HookData.start
          ["-title", "X", "-visible", "1"]).hd = HookData.start) :=
  FontchooserConfigureCmd_error_state fontEnv HookData.start ["-title", "X", "-visible", "1"]
    (by decide)

/-! ## Option parsing of the dialogs: claims -/

/-- C18 fails as stated (evaluation on a concrete input): the word `-ti` is
on the allow-list of neither the file dialogs nor the directory chooser, yet
`tk_getOpenFile -ti x` and `tk_chooseDirectory -ti x` are not rejected: the
lookup of these two dialogs accepts a unique abbreviation, here of `-title`,
the options parse, the native dialog is shown and the command returns
`TCL_OK`. -/
theorem option_abbreviation_accepted :
    "-ti" ∉ optionNames openOptions ∧ "-ti" ∉ optionNames saveOptions
    ∧ "-ti" ∉ dirOptionStrings
    ∧ ParseOFNOptions parseEnv 0 ["-ti", "x"] true
        = Except.ok (0, { defaultOFNOpts with title := some ['x'] })
    ∧ (∃ r, Tk_GetOpenFileObjCmd parseEnv cancelledEnv 0 ["-ti", "x"] = Except.ok r
        ∧ r.code = TCL_OK ∧ r.legacyShown = true)
    ∧ (Tk_ChooseDirectoryObjCmd cancelledDirEnv 0 ["-ti", "x"]).code = TCL_OK
    ∧ (Tk_ChooseDirectoryObjCmd cancelledDirEnv 0 ["-ti", "x"]).browsed = true := by
  refine ⟨by decide, by decide, by decide, rfl, ⟨_, rfl, rfl, rfl⟩, by decide, by decide⟩

/-- C18, amended. Missing option value: for the file dialogs (ParseOFNOptions
at the start of GetFileName), the directory chooser and the message box, when
the option/value pairs `pre` parse successfully and the last word `opt` is a
name of the dialog's allow-list with no value after it, the command returns
`TCL_ERROR` with the message `value for "<opt>" missing` and the error code
`TK FILEDIALOG VALUE`, `TK DIRDIALOG VALUE` or `TK MSGBOX VALUE`, and no native
dialog is shown.  Unknown option: every argument list that has, in an option
position (an even index), a word that is neither a name of the allow-list nor,
for the file dialogs and the directory chooser, a non-empty abbreviation of
exactly one such name, is rejected with `TCL_ERROR` and no native dialog is
shown; for the message box, which takes no abbreviations, this is every word
outside the allow-list. -/
theorem option_value_missing_or_unknown :
    (∀ (penv : ParseEnv) (env : FileDialogEnv) (clientData : Window) (isOpen : Bool)
        (pre : List String) (opt : String) (parsed : Window × OFNOpts),
      ParseOFNOptions penv clientData pre isOpen = Except.ok parsed →
      opt ∈ optionNames (if isOpen then openOptions else saveOptions) →
      GetFileName.ofArgs penv env clientData (pre ++ [opt]) isOpen
        = Except.ok
            { code := TCL_ERROR,
              interp := { result := TclValue.str ("value for \"" ++ opt ++ "\" missing").toList,
                          errorCode := ["TK", "FILEDIALOG", "VALUE"] },
              useNewFileDialogs := env.useNewFileDialogs,
              modernShown := false, legacyShown := false, decoded := none })
    ∧ (∀ (env : DirEnv) (tkwin : Window) (pre : List String) (opt : String) (vars : DirVars),
      Tk_ChooseDirectoryObjCmd.options env pre
          { cdCBData := { initDir := [], retDir := [], mustExist := false }, tkwin := tkwin,
            utfTitle := none } = Except.ok vars →
      opt ∈ dirOptionStrings →
      Tk_ChooseDirectoryObjCmd env tkwin (pre ++ [opt])
        = { code := TCL_ERROR,
            interp := { result := TclValue.str ("value for \"" ++ opt ++ "\" missing").toList,
                        errorCode := ["TK", "DIRDIALOG", "VALUE"] },
            browsed := false, calls := [], values := [] })
    ∧ (∀ (env : MsgBoxEnv) (tkwin : Window) (pre : List String) (opt : String)
        (vars : MsgBoxVars),
      Tk_MessageBoxObjCmd.options env tkwin pre
          { defaultBtn := -1, detailObj := none, icon := MB_ICONINFORMATION,
            messageObj := none, parent := tkwin, titleObj := none, type := MB_OK }
        = Except.ok vars →
      opt ∈ optionStrings →
      Tk_MessageBoxObjCmd env tkwin (pre ++ [opt])
        = Except.ok
            { code := TCL_ERROR,
              interp := { result := TclValue.str ("value for \"" ++ opt ++ "\" missing").toList,
                          errorCode := ["TK", "MSGBOX", "VALUE"] },
              shown := [] })
    ∧ (∀ (penv : ParseEnv) (env : FileDialogEnv) (clientData : Window) (isOpen : Bool)
        (args : List String) (i : Nat),
      i < args.length → i % 2 = 0 →
      resolves (optionNames (if isOpen then openOptions else saveOptions)) false
          (args.getD i "") = false →
      ∃ r, GetFileName.ofArgs penv env clientData args isOpen = Except.ok r
        ∧ r.code = TCL_ERROR ∧ r.modernShown = false ∧ r.legacyShown = false)
    ∧ (∀ (env : DirEnv) (tkwin : Window) (args : List String) (i : Nat),
      i < args.length → i % 2 = 0 →
      resolves dirOptionStrings false (args.getD i "") = false →
      (Tk_ChooseDirectoryObjCmd env tkwin args).code = TCL_ERROR
        ∧ (Tk_ChooseDirectoryObjCmd env tkwin args).browsed = false)
    ∧ (∀ (env : MsgBoxEnv) (tkwin : Window) (args : List String) (i : Nat),
      i < args.length → i % 2 = 0 →
      args.getD i "" ∉ optionStrings →
      ∃ r, Tk_MessageBoxObjCmd env tkwin args = Except.ok r
        ∧ r.code = TCL_ERROR ∧ r.shown = []) := by
  refine ⟨?_, ?_, ?_, ?_, ?_, ?_⟩
  · intro penv env clientData isOpen pre opt parsed hpre hopt
    unfold ParseOFNOptions at hpre
    have happ := pairLoop_append (ParseOFNOptions.loop penv
        (if isOpen then openOptions else saveOptions)) (fun s => rfl)
      (file_options_single penv _) (file_options_pair penv _) pre _ parsed [opt] hpre
    have hmiss := file_options_missing penv (if isOpen then openOptions else saveOptions) opt
      parsed hopt
    simp only [GetFileName.ofArgs, ParseOFNOptions, happ, hmiss, GetFileName]
    rfl
  · intro env tkwin pre opt vars hpre hopt
    have happ := pairLoop_append (Tk_ChooseDirectoryObjCmd.options env) (fun s => rfl)
      (fun a s => (dir_options_single env a s).imp fun r h => h.2)
      (pairLoop_forget _ _ (dir_options_pair env)) pre _ vars [opt] hpre
    simp only [Tk_ChooseDirectoryObjCmd, happ, dir_options_missing env opt vars hopt]
    rfl
  · intro env tkwin pre opt vars hpre hopt
    have happ := pairLoop_append (Tk_MessageBoxObjCmd.options env tkwin) (fun s => rfl)
      (fun a s => (msg_options_single env tkwin a s).imp fun r h => h.2)
      (pairLoop_forget _ _ (msg_options_pair env tkwin)) pre _ vars [opt] hpre
    simp only [Tk_MessageBoxObjCmd, happ, msg_options_missing env tkwin opt vars hopt]
    rfl
  · intro penv env clientData isOpen args i hi heven hbad
    obtain ⟨r, hr⟩ := file_options_unknown penv (if isOpen then openOptions else saveOptions)
      args i
      (clientData,
       { extension := none, title := none, filterObj := none, typeVariableObj := none,
         initialTypeObj := none, utfDirString := [], multi := false, confirmOverwrite := true,
         file := [NUL] }) hi heven hbad
    refine ⟨{ code := TCL_ERROR, interp := r, useNewFileDialogs := env.useNewFileDialogs,
              modernShown := false, legacyShown := false, decoded := none }, ?_, rfl, rfl, rfl⟩
    simp only [GetFileName.ofArgs, ParseOFNOptions, hr, GetFileName]
    rfl
  · intro env tkwin args i hi heven hbad
    obtain ⟨interp, hr⟩ := dir_options_unknown env args i
      { cdCBData := { initDir := [], retDir := [], mustExist := false }, tkwin := tkwin,
        utfTitle := none } hi heven hbad
    simp only [Tk_ChooseDirectoryObjCmd, hr]
    exact ⟨rfl, rfl⟩
  · intro env tkwin args i hi heven hbad
    obtain ⟨interp, hr⟩ := msg_options_unknown env tkwin args i
      { defaultBtn := -1, detailObj := none, icon := MB_ICONINFORMATION,
        messageObj := none, parent := tkwin, titleObj := none, type := MB_OK } hi heven hbad
    refine ⟨MsgBoxResult.failure interp, ?_, rfl, rfl⟩
    simp only [Tk_MessageBoxObjCmd, hr]

/-- C18, amended, at `tk_getSaveFile -title T -parent`, `tk_chooseDirectory
-mustexist`, `tk_messageBox -icon`, and at the words `-multiple` (save
dialog), `-bogus` (directory chooser) and `-ti` (message box) in the third
position. -/
theorem option_value_missing_or_unknown_witness :
    GetFileName.ofArgs parseEnv cancelledEnv 0 (["-title", "T"] ++ ["-parent"]) false
        = Except.ok
            { code := TCL_ERROR,
              interp := { result := TclValue.str "value for \"-parent\" missing".toList,
                          errorCode := ["TK", "FILEDIALOG", "VALUE"] },
              useNewFileDialogs := FdlgState.USE_OLD,
              modernShown := false, legacyShown := false, decoded := none }
    ∧ Tk_ChooseDirectoryObjCmd cancelledDirEnv 0 ([] ++ ["-mustexist"])
        = { code := TCL_ERROR,
            interp := { result := TclValue.str "value for \"-mustexist\" missing".toList,
                        errorCode := ["TK", "DIRDIALOG", "VALUE"] },
            browsed := false, calls := [], values := [] }
    ∧ Tk_MessageBoxObjCmd okEnv 0 (["-type", "ok"] ++ ["-icon"])
        = Except.ok
            { code := TCL_ERROR,
              interp := { result := TclValue.str "value for \"-icon\" missing".toList,
                          errorCode := ["TK", "MSGBOX", "VALUE"] },
              shown := [] }
    ∧ (∃ r, GetFileName.ofArgs parseEnv cancelledEnv 0 ["-title", "T", "-multiple", "1"] false
          = Except.ok r
        ∧ r.code = TCL_ERROR ∧ r.modernShown = false ∧ r.legacyShown = false)
    ∧ ((Tk_ChooseDirectoryObjCmd cancelledDirEnv 0 ["-title", "T", "-bogus", "1"]).code
          = TCL_ERROR
        ∧ (Tk_ChooseDirectoryObjCmd cancelledDirEnv 0 ["-title", "T", "-bogus", "1"]).browsed
          = false)
    ∧ (∃ r, Tk_MessageBoxObjCmd okEnv 0 ["-title", "T", "-ti", "1"] = Except.ok r
        ∧ r.code = TCL_ERROR ∧ r.shown = []) :=
  ⟨option_value_missing_or_unknown.1 parseEnv cancelledEnv 0 false ["-title", "T"] "-parent"
      (0, { defaultOFNOpts with title := some ['T'] }) rfl (by decide),
   option_value_missing_or_unknown.2.1 cancelledDirEnv 0 [] "-mustexist"
      { cdCBData := { initDir := [], retDir := [], mustExist := false }, tkwin := 0,
        utfTitle := none } rfl (by decide),
   option_value_missing_or_unknown.2.2.1 okEnv 0 ["-type", "ok"] "-icon"
      { defaultBtn := -1, detailObj := none, icon := MB_ICONINFORMATION,
        messageObj := none, parent := 0, titleObj := none, type := MB_OK } rfl (by decide),
   option_value_missing_or_unknown.2.2.2.1 parseEnv cancelledEnv 0 false
      ["-title", "T", "-multiple", "1"] 2 (by decide) (by decide) (by decide),
   option_value_missing_or_unknown.2.2.2.2.1 cancelledDirEnv 0
      ["-title", "T", "-bogus", "1"] 2 (by decide) (by decide) (by decide),
   option_value_missing_or_unknown.2.2.2.2.2 okEnv 0
      ["-title", "T", "-ti", "1"] 2 (by decide) (by decide) (by decide)⟩

/-- C19. The option allow-lists of ParseOFNOptions.  In open mode `-multiple`
is accepted (its Boolean value becomes the multi-select flag) and
`-confirmoverwrite` is rejected; in save mode `-confirmoverwrite` is accepted
(its Boolean value becomes the overwrite confirmation flag) and `-multiple` is
rejected.  In both modes each of the seven options `-defaultextension`,
`-filetypes`, `-initialdir`, `-initialfile`, `-parent`, `-title` and
`-typevariable` is accepted with a value (a file name that translates, the
name of a window), the names of the table are exactly these seven and the
option of the mode, and every word the lookup accepts (a name or a unique
abbreviation of one) selects one of them.  With no options the parsed result
has multi-select off and overwrite confirmation on. -/
theorem ParseOFNOptions_allow_lists (penv : ParseEnv) (clientData : Window) :
    (∀ v b, penv.getBoolean v = some b →
      ParseOFNOptions penv clientData ["-multiple", v] true
        = Except.ok (clientData, { defaultOFNOpts with multi := b }))
    ∧ (∀ rest, ParseOFNOptions penv clientData ("-confirmoverwrite" :: rest) true
        = Except.error (penv.badOption "-confirmoverwrite"))
    ∧ (∀ v b, penv.getBoolean v = some b →
      ParseOFNOptions penv clientData ["-confirmoverwrite", v] false
        = Except.ok (clientData, { defaultOFNOpts with confirmOverwrite := b }))
    ∧ (∀ rest, ParseOFNOptions penv clientData ("-multiple" :: rest) false
        = Except.error (penv.badOption "-multiple"))
    ∧ (∀ (isOpen : Bool) (name v : String), name ∈ sharedOptions →
        penv.translateFileName v ≠ none → penv.nameToWindow v ≠ none →
        ∃ parsed, ParseOFNOptions penv clientData [name, v] isOpen = Except.ok parsed)
    ∧ (∀ (isOpen : Bool) (w : String),
        w ∈ optionNames (if isOpen then openOptions else saveOptions)
          ↔ w ∈ sharedOptions ∨ w = (if isOpen then "-multiple" else "-confirmoverwrite"))
    ∧ (∀ (isOpen : Bool) (w : String) (index : Nat),
        Tcl_GetIndexFromObjStruct (optionNames (if isOpen then openOptions else saveOptions))
            false w = some index →
        (optionNames (if isOpen then openOptions else saveOptions)).getD index ""
            ∈ sharedOptions
          ∨ (optionNames (if isOpen then openOptions else saveOptions)).getD index ""
            = (if isOpen then "-multiple" else "-confirmoverwrite"))
    ∧ (∀ isOpen : Bool,
        ParseOFNOptions penv clientData [] isOpen = Except.ok (clientData, defaultOFNOpts))
    ∧ defaultOFNOpts.multi = false ∧ defaultOFNOpts.confirmOverwrite = true := by
  have hmem : ∀ (isOpen : Bool) (w : String),
      w ∈ optionNames (if isOpen then openOptions else saveOptions)
        ↔ w ∈ sharedOptions ∨ w = (if isOpen then "-multiple" else "-confirmoverwrite") := by
    intro isOpen w
    cases isOpen <;>
      simp only [optionNames, openOptions, saveOptions, sharedOptions, List.map_cons,
        List.map_nil, List.mem_cons, List.mem_nil_iff, or_false, if_true, Bool.false_eq_true,
        if_false] <;> tauto
  have hopen : Tcl_GetIndexFromObjStruct (openOptions.map Prod.fst) false "-multiple"
      = some 4 := by decide
  have hsave : Tcl_GetIndexFromObjStruct (saveOptions.map Prod.fst) false "-confirmoverwrite"
      = some 0 := by decide
  have hopenBad : Tcl_GetIndexFromObjStruct (openOptions.map Prod.fst) false
      "-confirmoverwrite" = none := by decide
  have hsaveBad : Tcl_GetIndexFromObjStruct (saveOptions.map Prod.fst) false "-multiple"
      = none := by decide
  refine ⟨?_, ?_, ?_, ?_, ?_, hmem, ?_, ?_, rfl, rfl⟩
  · intro v b hb
    simp only [ParseOFNOptions, if_true, ParseOFNOptions.loop, hopen]
    simp only [openOptions, List.getD_cons_succ, List.getD_cons_zero, hb]
    rfl
  · intro rest
    match rest with
    | [] => simp only [ParseOFNOptions, if_true, ParseOFNOptions.loop, hopenBad]
    | _ :: _ => simp only [ParseOFNOptions, if_true, ParseOFNOptions.loop, hopenBad]
  · intro v b hb
    simp only [ParseOFNOptions, Bool.false_eq_true, if_false, ParseOFNOptions.loop, hsave]
    simp only [saveOptions, List.getD_cons_zero, hb]
    rfl
  · intro rest
    match rest with
    | [] =>
      simp only [ParseOFNOptions, Bool.false_eq_true, if_false, ParseOFNOptions.loop, hsaveBad]
    | _ :: _ =>
      simp only [ParseOFNOptions, Bool.false_eq_true, if_false, ParseOFNOptions.loop, hsaveBad]
  · intro isOpen name v hname ht hw
    obtain ⟨d, hd⟩ := Option.ne_none_iff_exists'.mp ht
    obtain ⟨win, hwin⟩ := Option.ne_none_iff_exists'.mp hw
    have hin : name ∈ (if isOpen then openOptions else saveOptions).map Prod.fst :=
      (hmem isOpen name).mpr (Or.inl hname)
    rcases file_options_pair penv (if isOpen then openOptions else saveOptions) name v
      (clientData, defaultOFNOpts) with ⟨r, hr⟩ | ⟨s', hs'⟩
    · exfalso
      have hr := hr []
      obtain ⟨i, hi, _, hn⟩ := lookup_of_mem _ false name hin
      rw [getD_map_fst] at hn
      simp only [ParseOFNOptions.loop, hi] at hr
      have hkind : ∀ k, (List.getD (if isOpen then openOptions else saveOptions) i
            ("", FileOption.FILE_DEFAULT)).2 = k →
          k ≠ FileOption.FILE_MULTIPLE ∧ k ≠ FileOption.FILE_CONFIRMOW := by
        intro k hk
        have hlt : i < 8 := by
          have := (lookup_some _ false name i hi).1
          cases isOpen <;> simpa [openOptions, saveOptions] using this
        simp only [sharedOptions, List.mem_cons, List.mem_nil_iff, or_false] at hname
        subst hk
        cases isOpen <;> interval_cases i <;>
          simp [openOptions, saveOptions] at hn ⊢ <;>
          (rcases hname with h | h | h | h | h | h | h <;> simp [h] at hn)
      split at hr
      all_goals first
        | (rename_i hk; exact absurd rfl (hkind _ hk).1)
        | (rename_i hk; exact absurd rfl (hkind _ hk).2)
        | (simp only [hd, hwin] at hr; cases hr)
        | cases hr
    · exact ⟨s', hs' []⟩
  · intro isOpen w index h
    have hlt := (lookup_some _ false w index h).1
    have hin : (optionNames (if isOpen then openOptions else saveOptions)).getD index ""
        ∈ optionNames (if isOpen then openOptions else saveOptions) := by
      rw [List.getD_eq_getElem _ _ hlt]
      exact List.getElem_mem _
    exact (hmem isOpen _).mp hin
  · intro isOpen
    cases isOpen <;> rfl

/-- C19 at `-multiple 1` in open mode, `-confirmoverwrite 0` in save mode and
`-initialdir C:/` in save mode. -/
theorem ParseOFNOptions_allow_lists_witness :
    ParseOFNOptions parseEnv 0 ["-multiple", "1"] true
        = Except.ok (0, { defaultOFNOpts with multi := true })
    ∧ ParseOFNOptions parseEnv 0 ["-confirmoverwrite", "0"] false
        = Except.ok (0, { defaultOFNOpts with confirmOverwrite := false })
    ∧ (∃ parsed, ParseOFNOptions parseEnv 0 ["-initialdir", "C:/"] false = Except.ok parsed) :=
  ⟨(ParseOFNOptions_allow_lists parseEnv 0).1 "1" true rfl,
   (ParseOFNOptions_allow_lists parseEnv 0).2.2.1 "0" false rfl,
   (ParseOFNOptions_allow_lists parseEnv 0).2.2.2.2.1 false "-initialdir" "C:/" (by decide)
     (by decide) (by decide)⟩

/-! ## The interactive shell, continued: claims -/

/-- C21. Output of the result in StdinProc: in a step that evaluates the
command `cmd` with completion code `ev.2` and result `r`, the trace is the
calls up to the evaluation and the registration (none of them a write), then
the output of the result, then the prompt, if any, and the reset.  The output
of the result is `r` followed by one newline on the channel `chan` exactly
when `r` is not empty, the code is not `TCL_OK` or the input is a terminal,
and `chan` is the target channel, which is standard error when the code is
not `TCL_OK` and standard output otherwise; in every other case nothing is
written for the result. -/
theorem StdinProc_result_output {σ : Type} (I : Interp σ) (s : σ) (isPtr : InteractiveState)
    (count : Int) (got : String) (cmd : String) (ev : σ × Int)
    (hstep : ¬ (count < 0 ∧ isPtr.gotPartial = false))
    (hcmd : cmd = isPtr.command ++ (isPtr.line ++ got) ++ "\n")
    (hcomplete : I.commandComplete cmd = true)
    (hev : ev = I.recordAndEval s cmd) :
    (∃ before after,
      (StdinProc I s isPtr count got).trace
          = before ++ StdinProc.report I ev.1 ev.2 isPtr.tty ++ after
      ∧ before.getLast? ≠ none
      ∧ Action.recordAndEval cmd ∈ before
      ∧ (∀ a ∈ before, ∀ chan text,
          a ≠ Action.writeObj chan text ∧ a ≠ Action.writeChars chan text)
      ∧ (after = [Action.resetResult]
          ∨ ∃ st, after = (Prompt I ev.1 st).2 ++ [Action.resetResult]))
    ∧ (∀ chan,
        StdinProc.report I ev.1 ev.2 isPtr.tty
            = [Action.writeObj chan (I.getObjResult ev.1), Action.writeChars chan "\n"]
          ↔ (I.getObjResult ev.1 ≠ "" ∧ (ev.2 ≠ TCL_OK ∨ isPtr.tty = true)
              ∧ I.getStdChannel ev.1 (if ev.2 ≠ TCL_OK then StdId.stderr else StdId.stdout)
                = some chan))
    ∧ (StdinProc.report I ev.1 ev.2 isPtr.tty = []
          ↔ ¬ (I.getObjResult ev.1 ≠ "" ∧ (ev.2 ≠ TCL_OK ∨ isPtr.tty = true)
              ∧ I.getStdChannel ev.1 (if ev.2 ≠ TCL_OK then StdId.stderr else StdId.stdout)
                ≠ none)) := by
  have hrep := report_cases I ev.1 ev.2 isPtr.tty
  refine ⟨?_, ?_, ?_⟩
  · rw [StdinProc_past_eof I s isPtr count got hstep]
    have hcmd2 : ({ isPtr with line := isPtr.line ++ got } : InteractiveState).command
        ++ ({ isPtr with line := isPtr.line ++ got } : InteractiveState).line ++ "\n" = cmd := by
      rw [hcmd]
    have hc2 : I.commandComplete (({ isPtr with line := isPtr.line ++ got } :
        InteractiveState).command
        ++ ({ isPtr with line := isPtr.line ++ got } : InteractiveState).line ++ "\n")
        = true := by
      rw [hcmd2, hcomplete]
    rw [accumulate_complete I s _ hc2, hcmd2, ← hev]
    obtain ⟨before, hb⟩ : ∃ b, b = [Action.createChannelHandler isPtr.input 0,
        Action.recordAndEval cmd]
        ++ (match I.getStdChannel ev.1 StdId.stdin with
            | some c => [Action.createChannelHandler (some c) TCL_READABLE]
            | none => []) := ⟨_, rfl⟩
    have hb1 : before.getLast? ≠ none := by
      rw [hb]
      cases I.getStdChannel ev.1 StdId.stdin <;> simp
    have hb2 : Action.recordAndEval cmd ∈ before := by
      rw [hb]
      simp
    have hb3 : ∀ a ∈ before, ∀ chan text,
        a ≠ Action.writeObj chan text ∧ a ≠ Action.writeChars chan text := by
      intro a ha chan text
      rw [hb] at ha
      cases hin : I.getStdChannel ev.1 StdId.stdin <;> rw [hin] at ha <;>
        (constructor <;> (intro heq; subst heq; simp at ha))
    have ht := promptTail_trace I ev.1
      { ({ isPtr with line := isPtr.line ++ got } : InteractiveState) with
          command := "", line := "", gotPartial := false,
          input := I.getStdChannel ev.1 StdId.stdin }
      (before ++ StdinProc.report I ev.1 ev.2 isPtr.tty)
    rw [← hb]
    by_cases hp : isPtr.tty = true ∧ I.getStdChannel ev.1 StdId.stdin ≠ none
    · exact ⟨before, _, ((ht.1 hp).1).trans (List.append_assoc _ _ _), hb1, hb2, hb3,
        Or.inr ⟨_, rfl⟩⟩
    · exact ⟨before, _, (ht.2 hp).1, hb1, hb2, hb3, Or.inl rfl⟩
  · intro chan
    constructor
    · intro h
      by_cases hcond : I.getObjResult ev.1 ≠ "" ∧ (ev.2 ≠ TCL_OK ∨ isPtr.tty = true)
          ∧ I.getStdChannel ev.1 (if ev.2 ≠ TCL_OK then StdId.stderr else StdId.stdout) ≠ none
      · obtain ⟨h1, h2, h3⟩ := hcond
        obtain ⟨c', hc'⟩ := Option.ne_none_iff_exists'.mp h3
        have := hrep.1 c' h1 h2 hc'
        rw [this] at h
        simp only [List.cons.injEq, Action.writeObj.injEq, Action.writeChars.injEq, and_true,
          true_and] at h
        exact ⟨h1, h2, by rw [hc', h.1]⟩
      · rw [hrep.2 hcond] at h
        cases h
    · rintro ⟨h1, h2, h3⟩
      exact hrep.1 chan h1 h2 h3
  · constructor
    · intro h hcond
      obtain ⟨h1, h2, h3⟩ := hcond
      obtain ⟨c', hc'⟩ := Option.ne_none_iff_exists'.mp h3
      rw [hrep.1 c' h1 h2 hc'] at h
      cases h
    · exact hrep.2

/-- C21 at the line `set x 1` typed at a terminal: the result, here the text
of the command, and a newline are written to standard output. -/
theorem StdinProc_result_output_witness :
    StdinProc.report braceInterp ("set x 1\n", 0).1 ("set x 1\n", 0).2
        (initialState (some 0) true).tty
      = [Action.writeObj 1 "set x 1\n", Action.writeChars 1 "\n"] :=
  ((StdinProc_result_output braceInterp "" (initialState (some 0) true) 7 "set x 1"
      "set x 1\n" ("set x 1\n", 0) (by decide) (by decide) (by decide) rfl).2.1 1).mpr
    ⟨by decide, Or.inr rfl, rfl⟩

/-- C22. The invariant of `InteractiveState`: in every state that a sequence
of invocations of StdinProc reaches from the initial state, the command
buffer is not empty only if `gotPartial` is set.  A step that takes the
end-of-input exit leaves the buffer untouched; any other step leaves the
buffer empty exactly when the text accumulated in the step, the buffer
followed by the line read and a newline, is a complete command, and leaves it
holding that text, with `gotPartial` set, when it is not. -/
theorem StdinProc_buffer_invariant {σ : Type} (I : Interp σ) (input : Option Channel)
    (tty : Bool) (events : List (ReadEvent σ)) :
    (∀ o ∈ runEvents I (initialState input tty) events,
      o.state.command ≠ "" → o.state.gotPartial = true)
    ∧ (∀ (s : σ) (isPtr : InteractiveState) (count : Int) (got : String),
        (count < 0 ∧ isPtr.gotPartial = false →
          (StdinProc I s isPtr count got).state.command = isPtr.command)
        ∧ (¬ (count < 0 ∧ isPtr.gotPartial = false) →
          ((StdinProc I s isPtr count got).state.command = ""
            ↔ I.commandComplete (isPtr.command ++ (isPtr.line ++ got) ++ "\n") = true)
          ∧ (I.commandComplete (isPtr.command ++ (isPtr.line ++ got) ++ "\n") = true →
              (StdinProc I s isPtr count got).state.gotPartial = false)
          ∧ (I.commandComplete (isPtr.command ++ (isPtr.line ++ got) ++ "\n") = false →
              (StdinProc I s isPtr count got).state.command
                = isPtr.command ++ (isPtr.line ++ got) ++ "\n"
              ∧ (StdinProc I s isPtr count got).state.gotPartial = true))) := by
  constructor
  · exact runEvents_invariant I events (initialState input tty) (fun h => absurd rfl h)
  · intro s isPtr count got
    constructor
    · intro hstep
      unfold StdinProc
      simp only [hstep, and_self, if_true]
      split <;> rfl
    · intro hstep
      rw [StdinProc_past_eof I s isPtr count got hstep]
      cases hc : I.commandComplete (isPtr.command ++ (isPtr.line ++ got) ++ "\n") with
      | false =>
        rw [accumulate_incomplete_state I s _ hc]
        refine ⟨⟨?_, ?_⟩, ?_, ?_⟩
        · intro h
          exact absurd h (append_newline_ne_empty _)
        · intro h
          cases h
        · intro h
          cases h
        · intro _
          exact ⟨rfl, rfl⟩
      | true =>
        rw [accumulate_complete_state I s _ hc]
        refine ⟨⟨?_, ?_⟩, ?_, ?_⟩
        · intro _
          rfl
        · intro _
          rfl
        · intro _
          rfl
        · intro h
          cases h

/-- C22 at the two lines `set x \x7b` and `1\x7d` read from a terminal: after
the first the buffer holds the line and `gotPartial` is set, after the second
the buffer is empty. -/
theorem StdinProc_buffer_invariant_witness :
    (∀ o ∈ runEvents braceInterp (initialState (some 0) true)
        [{ interp := "", count := 7, got := "set x \x7b" },
         { interp := "", count := 2, got := "1\x7d" }],
      o.state.command ≠ "" → o.state.gotPartial = true)
    ∧ (runEvents braceInterp (initialState (some 0) true)
        [{ interp := "", count := 7, got := "set x \x7b" },
         { interp := "", count := 2, got := "1\x7d" }]).map (fun o => o.state.command)
      = ["set x \x7b\n", ""] :=
  ⟨(StdinProc_buffer_invariant braceInterp (some 0) true
      [{ interp := "", count := 7, got := "set x \x7b" },
       { interp := "", count := 2, got := "1\x7d" }]).1, by decide⟩

/-- C23. The channel handler around an evaluation: in a step of StdinProc
that evaluates the command `cmd`, when the handler has no events on any
channel but the input of the state, the call right before the evaluation
sets the mask of the handler on that input to 0, so that during the
evaluation the handler has no events on any channel; after the evaluation
the input of the state is the standard input channel of that moment; when
there is one, the next call registers the handler on it for readable events,
no later call of the step registers or removes a handler, and on return the
handler is registered for readable events on that channel and on no other;
when there is none, no handler is registered, the input of the state is
empty, and the step ends with the output of the result and the reset, without
a prompt. -/
theorem StdinProc_handler_around_evaluation {σ : Type} (I : Interp σ) (s : σ)
    (isPtr : InteractiveState) (count : Int) (got : String) (cmd : String) (ev : σ × Int)
    (masks : Option Channel → Nat)
    (hstep : ¬ (count < 0 ∧ isPtr.gotPartial = false))
    (hcmd : cmd = isPtr.command ++ (isPtr.line ++ got) ++ "\n")
    (hcomplete : I.commandComplete cmd = true)
    (hev : ev = I.recordAndEval s cmd)
    (hmasks : ∀ c, c ≠ isPtr.input → masks c = 0) :
    ∃ post,
      (StdinProc I s isPtr count got).trace
          = [Action.createChannelHandler isPtr.input 0, Action.recordAndEval cmd] ++ post
      ∧ (∀ c, handlerMasks masks [Action.createChannelHandler isPtr.input 0] c = 0)
      ∧ (StdinProc I s isPtr count got).state.input = I.getStdChannel ev.1 StdId.stdin
      ∧ (∀ chan, I.getStdChannel ev.1 StdId.stdin = some chan →
          (∃ rest, post = Action.createChannelHandler (some chan) TCL_READABLE :: rest
            ∧ rest.all (fun a => !registers a) = true)
          ∧ handlerMasks masks (StdinProc I s isPtr count got).trace (some chan) = TCL_READABLE
          ∧ ∀ c, c ≠ some chan →
              handlerMasks masks (StdinProc I s isPtr count got).trace c = 0)
      ∧ (I.getStdChannel ev.1 StdId.stdin = none →
          post = StdinProc.report I ev.1 ev.2 isPtr.tty ++ [Action.resetResult]
          ∧ (StdinProc I s isPtr count got).interp = I.resetResult ev.1
          ∧ ∀ c, handlerMasks masks (StdinProc I s isPtr count got).trace c = 0) := by
  have hcmd2 : ({ isPtr with line := isPtr.line ++ got } : InteractiveState).command
      ++ ({ isPtr with line := isPtr.line ++ got } : InteractiveState).line ++ "\n" = cmd := by
    rw [hcmd]
  have hc2 : I.commandComplete (({ isPtr with line := isPtr.line ++ got } :
      InteractiveState).command
      ++ ({ isPtr with line := isPtr.line ++ got } : InteractiveState).line ++ "\n")
      = true := by
    rw [hcmd2, hcomplete]
  have hzero : ∀ c, handlerMasks masks [Action.createChannelHandler isPtr.input 0] c = 0 := by
    intro c
    simp only [handlerMasks]
    by_cases hc : c = isPtr.input
    · simp [hc]
    · simp [hc, hmasks c hc]
  rw [StdinProc_past_eof I s isPtr count got hstep, accumulate_complete I s _ hc2, hcmd2,
    ← hev]
  have ht := promptTail_trace I ev.1
    { ({ isPtr with line := isPtr.line ++ got } : InteractiveState) with
        command := "", line := "", gotPartial := false,
        input := I.getStdChannel ev.1 StdId.stdin }
    ([Action.createChannelHandler isPtr.input 0, Action.recordAndEval cmd]
      ++ (match I.getStdChannel ev.1 StdId.stdin with
          | some c => [Action.createChannelHandler (some c) TCL_READABLE]
          | none => [])
      ++ StdinProc.report I ev.1 ev.2 isPtr.tty)
  have hm := handlerMasks_promptTail I ev.1
    { ({ isPtr with line := isPtr.line ++ got } : InteractiveState) with
        command := "", line := "", gotPartial := false,
        input := I.getStdChannel ev.1 StdId.stdin }
    ([Action.createChannelHandler isPtr.input 0, Action.recordAndEval cmd]
      ++ (match I.getStdChannel ev.1 StdId.stdin with
          | some c => [Action.createChannelHandler (some c) TCL_READABLE]
          | none => [])
      ++ StdinProc.report I ev.1 ev.2 isPtr.tty) masks
  rw [promptTail_state]
  cases hin : I.getStdChannel ev.1 StdId.stdin with
  | none =>
    rw [hin] at ht hm
    have hp : ¬ (isPtr.tty = true ∧ (none : Option Channel) ≠ none) := fun h => h.2 rfl
    refine ⟨StdinProc.report I ev.1 ev.2 isPtr.tty ++ [Action.resetResult], ?_, hzero, rfl,
      ?_, ?_⟩
    · rw [(ht.2 hp).1]
      simp only [List.append_nil, List.append_assoc, List.cons_append, List.nil_append]
    · intro chan h
      cases h
    · intro _
      refine ⟨rfl, (ht.2 hp).2, ?_⟩
      intro c
      rw [hm]
      simp only [List.append_nil, handlerMasks_append, handlerMasks_report]
      exact hzero c
  | some chan =>
    rw [hin] at ht hm
    refine ⟨Action.createChannelHandler (some chan) TCL_READABLE
        :: (StdinProc.report I ev.1 ev.2 isPtr.tty
          ++ (if isPtr.tty = true then
                (Prompt I ev.1
                  { ({ isPtr with line := isPtr.line ++ got } : InteractiveState) with
                      command := "", line := "", gotPartial := false,
                      input := some chan }).2
              else [])
          ++ [Action.resetResult]), ?_, hzero, rfl, ?_, ?_⟩
    · by_cases htty : isPtr.tty = true
      · rw [(ht.1 ⟨htty, by simp⟩).1]
        simp only [htty, if_true, List.append_assoc, List.cons_append, List.nil_append]
      · rw [(ht.2 (fun h => htty h.1)).1]
        simp only [htty, if_false, List.append_assoc, List.cons_append, List.nil_append,
          List.append_nil, Bool.false_eq_true]
    · intro chan' h
      cases h
      have hmask : handlerMasks masks
          ([Action.createChannelHandler isPtr.input 0, Action.recordAndEval cmd]
            ++ [Action.createChannelHandler (some chan) TCL_READABLE]
            ++ StdinProc.report I ev.1 ev.2 isPtr.tty)
          = fun c => if c = some chan then TCL_READABLE
              else handlerMasks masks [Action.createChannelHandler isPtr.input 0] c := by
        simp only [handlerMasks_append, handlerMasks_report]
        rfl
      refine ⟨⟨_, rfl, ?_⟩, ?_, ?_⟩
      · simp only [List.all_append, report_quiet, Bool.true_and]
        by_cases htty : isPtr.tty = true
        · simp only [htty, if_true, Prompt_quiet, Bool.true_and]
          rfl
        · simp only [htty, if_false, Bool.false_eq_true]
          rfl
      · rw [hm, hmask]
        simp
      · intro c hc
        rw [hm, hmask]
        simp only [hc, if_false]
        exact hzero c
    · intro h
      cases h

/-- C23 at the line `set x 1` read from the terminal channel 0: the handler
is registered again on channel 0 and has no events anywhere else. -/
theorem StdinProc_handler_around_evaluation_witness :
    ∃ post,
      (StdinProc braceInterp "" (initialState (some 0) true) 7 "set x 1").trace
          = [Action.createChannelHandler (some 0) 0, Action.recordAndEval "set x 1\n"] ++ post
      ∧ (StdinProc braceInterp "" (initialState (some 0) true) 7 "set x 1").state.input
          = some 0
      ∧ handlerMasks (fun c => if c = some 0 then TCL_READABLE else 0)
          (StdinProc braceInterp "" (initialState (some 0) true) 7 "set x 1").trace (some 0)
          = TCL_READABLE := by
  obtain ⟨post, h1, _, h3, h4, _⟩ := StdinProc_handler_around_evaluation braceInterp ""
    (initialState (some 0) true) 7 "set x 1" "set x 1\n" ("set x 1\n", 0)
    (fun c => if c = some 0 then TCL_READABLE else 0)
    (by decide) (by decide) (by decide) rfl
    (by
      intro c hc
      have hc2 : c ≠ some 0 := hc
      simp [hc2])
  exact ⟨post, h1, h3, (h4 0 rfl).2.1⟩

/-- C24 fails as stated (evaluation on a concrete input): on end of input
from a channel that is not a terminal, with no command pending, StdinProc
removes the channel handler and returns without a call of `Tcl_ResetResult`;
the result the interpreter held when the invocation began is still there. -/
theorem StdinProc_eof_keeps_result :
    (StdinProc braceInterp "leftover" (initialState (some 0) false) (-1) "").exited = none
    ∧ (StdinProc braceInterp "leftover" (initialState (some 0) false) (-1) "").trace
        = [Action.deleteChannelHandler (some 0)]
    ∧ resets (StdinProc braceInterp "leftover" (initialState (some 0) false) (-1) "").trace
        = false
    ∧ braceInterp.getObjResult
        (StdinProc braceInterp "leftover" (initialState (some 0) false) (-1) "").interp
        = "leftover" := by
  decide

/-- C24, amended. Result reset on return: every invocation of StdinProc that
gets past the end-of-input test returns, the last call it makes is
`Tcl_ResetResult`, and the interpreter it leaves is the one that call gave,
so its result is empty whenever `Tcl_ResetResult` empties the result.  The
invocation that handles end of input with no command pending on an input that
is not a terminal returns after removing the channel handler and leaves the
interpreter, and with it the result, as it was. -/
theorem StdinProc_result_reset {σ : Type} (I : Interp σ) (s : σ) (isPtr : InteractiveState)
    (count : Int) (got : String) :
    (¬ (count < 0 ∧ isPtr.gotPartial = false) →
      (StdinProc I s isPtr count got).exited = none
      ∧ (StdinProc I s isPtr count got).trace.getLast? = some Action.resetResult
      ∧ (∃ s', (StdinProc I s isPtr count got).interp = I.resetResult s')
      ∧ ((∀ s', I.getObjResult (I.resetResult s') = "") →
          I.getObjResult (StdinProc I s isPtr count got).interp = ""))
    ∧ (count < 0 ∧ isPtr.gotPartial = false → isPtr.tty = false →
        (StdinProc I s isPtr count got).exited = none
        ∧ (StdinProc I s isPtr count got).trace = [Action.deleteChannelHandler isPtr.input]
        ∧ (StdinProc I s isPtr count got).interp = s) := by
  constructor
  · intro hstep
    rw [StdinProc_past_eof I s isPtr count got hstep]
    have key : ∀ (s1 : σ) (st : InteractiveState) (done : List Action),
        (StdinProc.promptTail I s1 st done).trace.getLast? = some Action.resetResult
        ∧ ∃ s', (StdinProc.promptTail I s1 st done).interp = I.resetResult s' := by
      intro s1 st done
      have ht := promptTail_trace I s1 st done
      by_cases hp : st.tty = true ∧ st.input ≠ none
      · rw [(ht.1 hp).1, (ht.1 hp).2]
        exact ⟨by simp, _, rfl⟩
      · rw [(ht.2 hp).1, (ht.2 hp).2]
        exact ⟨by simp, _, rfl⟩
    have key2 : (StdinProc.accumulate I s { isPtr with line := isPtr.line ++ got }).trace.getLast?
          = some Action.resetResult
        ∧ ∃ s', (StdinProc.accumulate I s { isPtr with line := isPtr.line ++ got }).interp
          = I.resetResult s' := by
      cases hc : I.commandComplete (({ isPtr with line := isPtr.line ++ got } :
          InteractiveState).command
          ++ ({ isPtr with line := isPtr.line ++ got } : InteractiveState).line ++ "\n") with
      | false =>
        rw [accumulate_incomplete I s _ hc]
        exact key _ _ _
      | true =>
        rw [accumulate_complete I s _ hc]
        exact key _ _ _
    refine ⟨accumulate_exited I s _, key2.1, key2.2, ?_⟩
    intro hreset
    obtain ⟨s', hs'⟩ := key2.2
    rw [hs']
    exact hreset s'
  · intro hstep htty
    unfold StdinProc
    simp only [hstep, and_self, if_true, htty, Bool.false_eq_true, if_false]

/-- C24, amended, at the line `set x 1` read from a terminal: the interpreter
of the concrete model holds the empty result on return. -/
theorem StdinProc_result_reset_witness :
    braceInterp.getObjResult
      (StdinProc braceInterp "leftover" (initialState (some 0) true) 7 "set x 1").interp
      = "" :=
  ((StdinProc_result_reset braceInterp "leftover" (initialState (some 0) true) 7
      "set x 1").1 (by decide)).2.2.2 (fun _ => rfl)

/-! ## The dialog latch and the tables of the message box: claims -/

/-- C25. The latch `useNewFileDialogs` over a sequence of invocations of
GetFileNameVista on one thread, from the uninitialised state: the first
invocation returns and leaves the latch set; every invocation that returns
leaves the latch the first one left; and when the COM initialisation or the
creation of the dialog interface fails in the first invocation, the latch is
`FDLG_STATE_USE_OLD`, every invocation of the sequence is made and returns
`TCL_CONTINUE` without showing a dialog, and no invocation after the first
makes any call on the COM library. -/
theorem GetFileNameVista_latch (env : FileDialogEnv) (isOpen : Bool)
    (rest : List (FileDialogEnv × Bool)) :
    ∃ v calls tail,
      runVista FdlgState.INIT ((env, isOpen) :: rest)
          = { result := Except.ok v, calls := calls } :: tail
      ∧ v.useNewFileDialogs ≠ FdlgState.INIT
      ∧ (∀ r ∈ runVista FdlgState.INIT ((env, isOpen) :: rest), ∀ w,
          r.result = Except.ok w → w.useNewFileDialogs = v.useNewFileDialogs)
      ∧ ((env.coInitialize = false ∨ env.coCreateInstance isOpen = false) →
          v.useNewFileDialogs = FdlgState.USE_OLD
          ∧ (runVista FdlgState.INIT ((env, isOpen) :: rest)).length = rest.length + 1
          ∧ (∀ r ∈ runVista FdlgState.INIT ((env, isOpen) :: rest), ∃ w,
              r.result = Except.ok w ∧ w.code = TCL_CONTINUE ∧ w.shown = false
              ∧ w.useNewFileDialogs = FdlgState.USE_OLD)
          ∧ (∀ r ∈ tail, r.calls = [])) := by
  obtain ⟨v, hv, hne, hold, hrun⟩ := runVista_first env isOpen rest
  refine ⟨v, _, _, hrun, hne, ?_, ?_⟩
  · intro r hr w hw
    rw [hrun] at hr
    rcases List.mem_cons.mp hr with rfl | hr
    · cases hw
      rfl
    · cases hl : v.useNewFileDialogs with
      | INIT => exact absurd hl hne
      | USE_OLD =>
        rw [hl] at hr
        have := ((runVista_old rest).2 r hr).1
        rw [this] at hw
        cases hw
        rfl
      | USE_NEW =>
        rw [hl] at hr
        exact runVista_new rest r hr w hw
  · intro hfail
    have hl : v.useNewFileDialogs = FdlgState.USE_OLD := hold.mpr hfail
    have hcode : v.code = TCL_CONTINUE ∧ v.shown = false := by
      rcases hfail with h | h
      · simp [GetFileNameVista, h] at hv
        subst hv
        exact ⟨rfl, rfl⟩
      · cases hi : env.coInitialize <;> simp [GetFileNameVista, h, hi] at hv <;> subst hv <;>
          exact ⟨rfl, rfl⟩
    refine ⟨hl, ?_, ?_, ?_⟩
    · rw [hrun, hl, List.length_cons, (runVista_old rest).1]
    · intro r hr
      rw [hrun] at hr
      rcases List.mem_cons.mp hr with rfl | hr
      · exact ⟨v, rfl, hcode.1, hcode.2, hl⟩
      · rw [hl] at hr
        exact ⟨_, ((runVista_old rest).2 r hr).1, rfl, rfl, rfl⟩
    · intro r hr
      rw [hl] at hr
      exact ((runVista_old rest).2 r hr).2

/-- C25 at three invocations, the first of which fails to create the dialog
interface while the later ones would succeed: all three return `TCL_CONTINUE`
and only the first makes calls on the COM library. -/
theorem GetFileNameVista_latch_witness :
    (runVista FdlgState.INIT
        [({ cancelledEnv with coCreateInstance := fun _ => false }, true),
         (cancelledEnv, true), (cancelledEnv, false)]).map (fun r => r.calls)
      = [[ComCall.CoInitialize, ComCall.CoCreateInstance true, ComCall.CoUninitialize],
         [], []] := by
  obtain ⟨v, calls, tail, h1, _, _, h4⟩ := GetFileNameVista_latch
    { cancelledEnv with coCreateInstance := fun _ => false } true
    [(cancelledEnv, true), (cancelledEnv, false)]
  obtain ⟨_, _, _, _⟩ := h4 (Or.inr rfl)
  decide

/-- C28 fails on the code: when the latch is `FDLG_STATE_USE_NEW` and the
creation of the dialog interface fails, GetFileNameVista does not test the
value `CoCreateInstance` returned and calls `Show` through the NULL
`fdlgPtr`.  In the uninitialised state, where the value is tested, and in
every invocation that returns, `Show` and `Release` are only called through
an interface. -/
theorem GetFileNameVista_null_interface :
    (∀ (env : FileDialogEnv) (isOpen : Bool),
      env.useNewFileDialogs = FdlgState.USE_NEW → env.coCreateInstance isOpen = false →
      GetFileNameVista env isOpen = Except.error Fault.nullDeref
      ∧ GetFileNameVista.calls env isOpen
          = [ComCall.CoCreateInstance isOpen, ComCall.Show false])
    ∧ GetFileNameVista
        { cancelledEnv with useNewFileDialogs := FdlgState.USE_NEW,
                            coCreateInstance := fun _ => false } true
        = Except.error Fault.nullDeref
    ∧ (∀ (env : FileDialogEnv) (isOpen : Bool) (v : VistaResult),
      GetFileNameVista env isOpen = Except.ok v →
      ComCall.Show false ∉ GetFileNameVista.calls env isOpen
      ∧ ComCall.Release false ∉ GetFileNameVista.calls env isOpen) := by
  refine ⟨?_, rfl, ?_⟩
  · intro env isOpen hl hc
    simp [GetFileNameVista, GetFileNameVista.calls, hl, hc]
  · intro env isOpen v hv
    cases hl : env.useNewFileDialogs <;> cases hi : env.coInitialize <;>
      cases hc : env.coCreateInstance isOpen <;>
      simp [GetFileNameVista, GetFileNameVista.calls, hl, hi, hc] at hv ⊢

/-- C29. The index of the default button of the message box: for every type
of the table `typeMap` and every button of the table `buttonMap`, the type
has an entry in `allowedTypes`, and the search either ends in the error
`invalid default button`, before the lookup, or gives an index among 0, 1
and 2, which is inside the four entries of `buttonFlagMap`.  The variables
that the option loop leaves always hold such a type and such a button, or no
default button, so no invocation of Tk_MessageBoxObjCmd makes a lookup
outside the table. -/
theorem MessageBox_default_index_safe :
    (∀ T ∈ typeMap.numKeys, ∀ B ∈ buttonMap.numKeys,
      T ∈ allowedTypes.map (fun a => a.type)
      ∧ (Tk_MessageBoxObjCmd.defaultIndex T B allowedTypes = none
          ∨ ∃ j : Nat, Tk_MessageBoxObjCmd.defaultIndex T B allowedTypes = some (j : Int)
              ∧ j ≤ 2 ∧ j < buttonFlagMap.length))
    ∧ buttonFlagMap.length = 4
    ∧ (∀ (env : MsgBoxEnv) (vars : MsgBoxVars),
        vars.type ∈ typeMap.numKeys →
        (vars.defaultBtn < 0 ∨ vars.defaultBtn ∈ buttonMap.numKeys) →
        Tk_MessageBoxObjCmd.finish env vars ≠ Except.error Fault.outOfBounds)
    ∧ (∀ (env : MsgBoxEnv) (tkwin : Window) (args : List String),
        ∃ r, Tk_MessageBoxObjCmd env tkwin args = Except.ok r) := by
  refine ⟨?_, rfl, ?_, ?_⟩
  · intro T hT B hB
    refine ⟨type_listed T hT, ?_⟩
    have hr := defaultIndex_range T hT B hB
    simp only [List.mem_cons, List.mem_singleton, List.not_mem_nil, or_false] at hr
    rcases hr with h | h | h | h
    · exact Or.inl h
    · exact Or.inr ⟨0, h, by decide, by decide⟩
    · exact Or.inr ⟨1, h, by decide, by decide⟩
    · exact Or.inr ⟨2, h, by decide, by decide⟩
  · intro env vars hT hB h
    obtain ⟨r, hr⟩ := finish_safe env vars hT hB
    rw [hr] at h
    cases h
  · intro env tkwin args
    unfold Tk_MessageBoxObjCmd
    cases hopts : Tk_MessageBoxObjCmd.options env tkwin args
        { defaultBtn := -1, detailObj := none, icon := MB_ICONINFORMATION,
          messageObj := none, parent := tkwin, titleObj := none, type := MB_OK } with
    | error r => exact ⟨r, rfl⟩
    | ok vars =>
      have hT0 : MB_OK ∈ typeMap.numKeys := by decide
      have hB0 : (-1 : Int) < 0 := by decide
      have hinv := msg_options_inv env tkwin args _ vars ⟨hT0, Or.inl hB0⟩ hopts
      exact finish_safe env vars hinv.1 hinv.2

/-! ## Logical fonts: claims -/

/-- C30 fails as stated (evaluation on a concrete input): at 96 dots per
inch the point size 2147483647, a 32-bit integer, does not come back: the
height does not fit in 32 bits, `MulDiv` reports that with -1, the height
stored is 1, and `GetFontObj` reads the size -1. -/
theorem font_size_overflow :
    MulDiv 2147483647 96 72 = -1
    ∧ (FontchooserShowCmd.logfont boldArial 2147483647 96).lfHeight = 1
    ∧ (GetFontObj 96 (FontchooserShowCmd.logfont boldArial 2147483647 96)).size = -1 := by
  decide

/-- C30, amended. Round trip of a font description: for every vertical
resolution `dpi` of at least 72 and every point size `p` whose height
`|p| * dpi / 72`, rounded to the nearest integer, is at most 2147483647, the
height FontchooserShowCmd stores, `-MulDiv(p, dpi, 72)`, is read back by
`GetFontObj`, as `-MulDiv(h, 72, dpi)`, as `p`; and the style words
`GetFontObj` reports for the logical font FontchooserShowCmd builds are those
of the configured font, in the order bold, italic, underline, overstrike:
bold exactly when the weight is bold, italic exactly when the slant is not
roman, underline exactly when underlined, overstrike exactly when
overstruck. -/
theorem font_round_trip (fa : TkFontAttributes) (p dpi : Int) (hdpi : 72 ≤ dpi)
    (hfit : ((p.natAbs : Int) * dpi + 36) / 72 ≤ 2147483647) :
    (GetFontObj dpi (FontchooserShowCmd.logfont fa p dpi)).size = p
    ∧ (GetFontObj dpi (FontchooserShowCmd.logfont fa p dpi)).styles
        = (if fa.weight = TK_FW_BOLD then ["bold"] else [])
          ++ (if fa.slant ≠ TK_FS_ROMAN then ["italic"] else [])
          ++ (if fa.underline = true then ["underline"] else [])
          ++ (if fa.overstrike = true then ["overstrike"] else [])
    ∧ ("bold" ∈ (GetFontObj dpi (FontchooserShowCmd.logfont fa p dpi)).styles
        ↔ fa.weight = TK_FW_BOLD)
    ∧ ("italic" ∈ (GetFontObj dpi (FontchooserShowCmd.logfont fa p dpi)).styles
        ↔ fa.slant ≠ TK_FS_ROMAN)
    ∧ ("underline" ∈ (GetFontObj dpi (FontchooserShowCmd.logfont fa p dpi)).styles
        ↔ fa.underline = true)
    ∧ ("overstrike" ∈ (GetFontObj dpi (FontchooserShowCmd.logfont fa p dpi)).styles
        ↔ fa.overstrike = true) := by
  have hstyles : (GetFontObj dpi (FontchooserShowCmd.logfont fa p dpi)).styles
      = (if fa.weight = TK_FW_BOLD then ["bold"] else [])
        ++ (if fa.slant ≠ TK_FS_ROMAN then ["italic"] else [])
        ++ (if fa.underline = true then ["underline"] else [])
        ++ (if fa.overstrike = true then ["overstrike"] else []) := by
    simp only [GetFontObj, FontchooserShowCmd.logfont]
    by_cases hw : fa.weight = TK_FW_BOLD <;> by_cases hs : fa.slant = TK_FS_ROMAN <;>
      by_cases hu : fa.underline = true <;> by_cases ho : fa.overstrike = true <;>
      simp [hw, hs, hu, ho, FW_BOLD]
  refine ⟨?_, hstyles, ?_, ?_, ?_, ?_⟩
  · have hn : (0 : Int) ≤ (p.natAbs : Int) := Int.ofNat_nonneg _
    have hrt := round_trip_nonneg (p.natAbs : Int) dpi hn hdpi hfit
    simp only [GetFontObj, FontchooserShowCmd.logfont]
    rcases Int.natAbs_eq p with h | h
    · rw [h]
      simpa using hrt.1
    · rw [h]
      simpa using hrt.2
  all_goals
    rw [hstyles]
    by_cases hw : fa.weight = TK_FW_BOLD <;> by_cases hs : fa.slant = TK_FS_ROMAN <;>
      by_cases hu : fa.underline = true <;> by_cases ho : fa.overstrike = true <;>
      simp [hw, hs, hu, ho]

/-- C30, amended, at 12 points and 96 dots per inch, for bold and underlined
Arial: the height is -16, and the description read back has size 12 and the
styles bold and underline. -/
theorem font_round_trip_witness :
    (GetFontObj 96 (FontchooserShowCmd.logfont boldArial 12 96)).size = 12
    ∧ (GetFontObj 96 (FontchooserShowCmd.logfont boldArial 12 96)).styles
        = ["bold", "underline"] :=
  ⟨(font_round_trip boldArial 12 96 (by decide) (by decide)).1,
   (font_round_trip boldArial 12 96 (by decide) (by decide)).2.1⟩

/-! ## The hook of the file dialogs: claims -/

/-- C26. Unquoting in place in OFNHookProc: when the selection area, after
the `pre` characters before it, holds the text `"n1" s1 "n2" s2 .. "nk" sk`
and its terminator, with at least one name and no double quote and no NUL in
any name or separator (the claim is the case of an empty last separator), the
rewrite returns for every fuel above the length of the text, and it leaves,
from the first position of the selection area, exactly `n1 NUL n2 NUL .. nk
NUL NUL`, in a block of unchanged size; the second terminator is stored at
the write position, which is not past the read position; the rewritten text
with its second terminator is not longer than the text; and after any number
of iterations the loop is in a state whose write position is not past its
read position. -/
theorem OFNHookProc_unquote (pre post : List Char) (items : List (List Char × List Char))
    (hne : items ≠ [])
    (hclean : ∀ item ∈ items, '"' ∉ item.1 ∧ NUL ∉ item.1 ∧ '"' ∉ item.2 ∧ NUL ∉ item.2) :
    ∃ st rest,
      (∀ fuel, (quotedText items).length < fuel →
        OFNHookProc.unquote fuel (pre ++ quotedText items ++ NUL :: post) pre.length
          = Except.ok (some st))
      ∧ st.mem = pre ++ terminatedNames items ++ [NUL] ++ rest
      ∧ st.mem.length = (pre ++ quotedText items ++ NUL :: post).length
      ∧ st.tmp = pre.length + (terminatedNames items).length
      ∧ st.tmp ≤ st.buffer
      ∧ (terminatedNames items).length + 1 ≤ (quotedText items).length
      ∧ (∀ n, ∃ st',
          OFNHookProc.stateAfter n
              { mem := pre ++ quotedText items ++ NUL :: post, tmp := pre.length,
                buffer := pre.length, findquote := true, stores := [] }
            = Except.ok st'
          ∧ st'.tmp ≤ st'.buffer) := by
  obtain ⟨g, gs, stores, hloop, hun⟩ := unquote_items pre post items hne hclean
  have hfuel : ∀ fuel, (quotedText items).length < fuel →
      ∃ k, fuel = k + (quotedText items).length + 1 := fun fuel h => ⟨fuel - (quotedText items).length - 1, by omega⟩
  have hnul : (pre ++ quotedText items ++ NUL :: post).get?
      (pre.length + (quotedText items).length) = some NUL := by
    have := get?_append_length (pre ++ quotedText items) NUL post
    simpa using this
  obtain ⟨st2, hst2, hlen2, _, _⟩ := unquote_safe (pre ++ quotedText items ++ NUL :: post)
    pre.length (pre.length + (quotedText items).length) ((quotedText items).length + 1)
    (by omega) hnul (by omega)
  have h0 := hun 0
  rw [Nat.zero_add] at h0
  rw [h0] at hst2
  simp only [Except.ok.injEq, Option.some.injEq] at hst2
  refine ⟨{ mem := pre ++ terminatedNames items ++ [NUL] ++ (gs ++ NUL :: post),
            tmp := pre.length + (terminatedNames items).length,
            buffer := pre.length + (terminatedNames items).length + (g :: gs).length,
            findquote := true,
            stores := stores ++ [pre.length + (terminatedNames items).length] },
    gs ++ NUL :: post, ?_, ?_, ?_, ?_, ?_, ?_, ?_⟩
  · intro fuel hf
    obtain ⟨k, hk⟩ := hfuel fuel hf
    rw [hk]
    exact hun k
  · rfl
  · rw [← hlen2, ← hst2]
  · rfl
  · simp only [List.length_cons]
    omega
  · have hle : ∀ its : List (List Char × List Char),
        (terminatedNames its).length + its.length ≤ (quotedText its).length := by
      intro its
      induction its with
      | nil => simp [terminatedNames, quotedText]
      | cons item rest ih =>
        simp only [terminatedNames, quotedText, List.length_append, List.length_singleton,
          List.length_cons]
        omega
    have := hle items
    have hpos : 0 < items.length := List.length_pos.mpr hne
    omega
  · intro n
    obtain ⟨st', hst'⟩ := stateAfter_of_loop _ _ _ (hloop 0) n
    exact ⟨st', hst', stateAfter_tmp_le n _ st' (Nat.le_refl _) hst'⟩

/-- C26 at the directory `d` and the selection `"a" "b"`: the selection area
holds `a NUL b NUL NUL` after the rewrite. -/
theorem OFNHookProc_unquote_witness :
    ∃ st rest,
      OFNHookProc.unquote 8 (['d', NUL] ++ ['"', 'a', '"', ' ', '"', 'b', '"'] ++ [NUL]) 2
        = Except.ok (some st)
      ∧ st.mem = ['d', NUL] ++ ['a', NUL, 'b', NUL] ++ [NUL] ++ rest := by
  obtain ⟨st, rest, h1, h2, _⟩ := OFNHookProc_unquote ['d', NUL] []
    [(['a'], [' ']), (['b'], [])] (by decide) (by decide)
  exact ⟨st, rest, h1 8 (by decide), h2⟩

/-- C27. Growth of the dynamic file name buffer in OFNHookProc: for a
CDN_FILEOK or CDN_SELCHANGE notification with selsize > 1 and dirsize > 0
(selsize + dirsize + 1 within the range of int), on an OFNData whose recorded
capacity is the size of its block, with a selection text that the dialog
terminates within selsize characters, the call returns for every fuel of at
least selsize; afterwards the recorded capacity is the maximum of the previous
capacity and selsize + dirsize + 1, hence at least selsize + dirsize + 1; the
call stores the folder, the selection and then at least one more character
(the second terminator is the last), every stored position is below the
recorded capacity, and the recorded capacity is again the size of the block.
Over any sequence of calls, from any OFNData, the recorded capacity never
decreases. -/
theorem OFNHookProc_capacity (fuel : Nat) (env : HookEnv) (ofnData : OFNData)
    (hcode : env.code ≠ NotifyCode.other)
    (hsel : 1 < env.selsize) (hdir : 0 < env.dirsize)
    (hfit : env.selsize + env.dirsize + 1 ≤ 2147483647)
    (hwf : ofnData.wellFormed)
    (hnul : NUL ∈ env.spec.take env.selsize.toNat)
    (hfuel : env.selsize.toNat ≤ fuel) :
    ∃ r more, OFNHookProc.notify fuel env ofnData = Except.ok (some r)
      ∧ r.ofnData.dynFileBufferSize
          = max ofnData.dynFileBufferSize (env.selsize + env.dirsize + 1)
      ∧ env.selsize + env.dirsize + 1 ≤ r.ofnData.dynFileBufferSize
      ∧ r.stores = List.range' 0 (env.folderPath.take env.dirsize.toNat).length
          ++ List.range' env.dirsize.toNat (env.spec.take env.selsize.toNat).length ++ more
      ∧ more ≠ []
      ∧ (∀ p ∈ r.stores, (p : Int) < r.ofnData.dynFileBufferSize)
      ∧ r.ofnData.wellFormed
      ∧ (∀ (n : Nat) (envs : List HookEnv) (d : OFNData),
          List.Chain (fun a b => a.dynFileBufferSize ≤ b.dynFileBufferSize) d
            (OFNHookProc.notifications n envs d)) := by
  have hw : intWrap (env.selsize + env.dirsize + 1) = env.selsize + env.dirsize + 1 :=
    intWrap_of_fit _ (by omega) hfit
  obtain ⟨mem, hmem, hlen, hmax⟩ := grow_spec env ofnData (env.selsize + env.dirsize + 1) hwf
    (by omega)
  have hge : env.selsize + env.dirsize + 1
      ≤ (OFNHookProc.grow env ofnData (env.selsize + env.dirsize + 1)).dynFileBufferSize := by
    rw [hmax]
    exact le_max_right _ _
  obtain ⟨mem', more, hg, hl', hmore, hne⟩ := gather_safe fuel env mem hsel hdir (by omega) hnul
    hfuel
  have hrun : OFNHookProc.notify fuel env ofnData
      = Except.ok (some
          { ofnData :=
              { OFNHookProc.grow env ofnData (env.selsize + env.dirsize + 1) with
                dynFileBuffer := some mem' },
            stores := List.range' 0 (env.folderPath.take env.dirsize.toNat).length
              ++ List.range' env.dirsize.toNat (env.spec.take env.selsize.toNat).length
              ++ more }) := by
    unfold OFNHookProc.notify
    simp only [if_neg hcode, hw, gt_iff_lt, hsel, hdir, and_self, if_true, hmem, hg]
  refine ⟨_, more, hrun, hmax, hge, rfl, hne, ?_, ?_, notifications_chain⟩
  · intro p hp
    have hfl : (env.folderPath.take env.dirsize.toNat).length ≤ env.dirsize.toNat := by
      rw [List.length_take]
      omega
    have hsl : (env.spec.take env.selsize.toNat).length ≤ env.selsize.toNat := by
      rw [List.length_take]
      omega
    have hb : p ≤ env.dirsize.toNat + env.selsize.toNat := by
      rcases List.mem_append.mp hp with hp | hp
      · rcases List.mem_append.mp hp with hp | hp
        · have := (List.mem_range'_1.mp hp).2
          omega
        · have := (List.mem_range'_1.mp hp).2
          omega
      · exact hmore p hp
    show (p : Int) < (OFNHookProc.grow env ofnData (env.selsize + env.dirsize + 1)).dynFileBufferSize
    omega
  · show ((mem'.length : Nat) : Int)
      = (OFNHookProc.grow env ofnData (env.selsize + env.dirsize + 1)).dynFileBufferSize
    rw [hl']
    exact hlen

/-- C27 at the first notification of a `-multiple` dialog, for the folder
`C:\d` and the selection `"a" "b"`: the capacity stays 512. -/
theorem OFNHookProc_capacity_witness :
    ∃ r more, OFNHookProc.notify 8
        { code := NotifyCode.CDN_SELCHANGE, selsize := 8, dirsize := 5,
          folderPath := ['C', ':', '\\', 'd', NUL],
          spec := ['"', 'a', '"', ' ', '"', 'b', '"', NUL],
          pathIsAbsolute := fun _ => false, fresh := 'x' }
        (GetFileName.ofnData true 'x') = Except.ok (some r)
      ∧ r.ofnData.dynFileBufferSize = max (GetFileName.ofnData true 'x').dynFileBufferSize (8 + 5 + 1)
      ∧ (8 : Int) + 5 + 1 ≤ r.ofnData.dynFileBufferSize
      ∧ r.stores = List.range' 0 5 ++ List.range' 5 8 ++ more
      ∧ more ≠ []
      ∧ (∀ p ∈ r.stores, (p : Int) < r.ofnData.dynFileBufferSize) := by
  obtain ⟨r, more, h1, h2, h3, h4, h5, h6, _⟩ := OFNHookProc_capacity 8
    { code := NotifyCode.CDN_SELCHANGE, selsize := 8, dirsize := 5,
      folderPath := ['C', ':', '\\', 'd', NUL],
      spec := ['"', 'a', '"', ' ', '"', 'b', '"', NUL],
      pathIsAbsolute := fun _ => false, fresh := 'x' }
    (GetFileName.ofnData true 'x') (by decide) (by decide) (by decide) (by decide)
    (ofnData_wellFormed true 'x') (by decide) (by decide)
  exact ⟨r, more, h1, h2, h3, h4, h5, h6⟩

end Tk






